import Mathlib

/-! # cff-core: topology compiler and TUN listener

A shallow embedding of `config/config.go` (rule, proxy, nameserver, DNS, TUN
and tunnel parsing, `ParseRawConfig`) and `listener/sing_tun/server.go`
(UID-range parsing, listener construction, `Close`, `FlushDefaultInterface`),
followed by the properties proved about them.

Conventions
* Go `string` is `String`; the byte-level helpers of package `strings` used by
  the sources only ever look for ASCII separators, so they are written over
  the character list.
* `error` results are `Except` values with one constructor per `fmt.Errorf`
  call site, carrying the values that the format string interpolates.
* Go maps are lookup functions `String → Option _`; only key membership is
  ever observed by the code embedded here.
* Collaborators that live outside the embedded files (the rule factory, the
  proxy factory, `url.Parse`, ...) are parameters.
-/

set_option autoImplicit false

namespace CffCore

deriving instance DecidableEq for Except

/-! ## Package `strings` -/

/-- Go `strings.Split(s, sep)` for a one-character separator, on characters.
The result is never empty: the empty string splits into one empty field. -/
def splitOnChar (sep : Char) : List Char → List (List Char)
  | [] => [[]]
  | c :: cs =>
    if c = sep then [] :: splitOnChar sep cs
    else
      match splitOnChar sep cs with
      | [] => [[c]]
      | h :: t => (c :: h) :: t

/-- Go `strings.Split(s, string(sep))`. -/
def stringsSplit (s : String) (sep : Char) : List String :=
  (splitOnChar sep s.data).map String.mk

/-- Go `strings.TrimLeft(s, " ")` on characters. -/
def trimLeftSpaces : List Char → List Char
  | [] => []
  | c :: cs => if c = ' ' then trimLeftSpaces cs else c :: cs

/-- Go `strings.Trim(s, " ")` on characters: leading and trailing spaces go. -/
def trimSpacesChars (cs : List Char) : List Char :=
  (trimLeftSpaces (trimLeftSpaces cs).reverse).reverse

/-- Go `strings.Trim(s, " ")`. -/
def stringsTrim (s : String) : String :=
  String.mk (trimSpacesChars s.data)

/-- Go `strings.Contains(s, string(c))` for a single character. -/
def containsChar (s : String) (c : Char) : Bool :=
  s.data.contains c

/-- Go `strings.HasPrefix` on characters. -/
def hasPrefixChars : List Char → List Char → Bool
  | _, [] => true
  | [], _ :: _ => false
  | c :: cs, p :: ps => c == p && hasPrefixChars cs ps

/-- Go `strings.Contains(s, sub)` on characters. -/
def containsChars : List Char → List Char → Bool
  | [], sub => sub.isEmpty
  | c :: cs, sub => hasPrefixChars (c :: cs) sub || containsChars cs sub

/-- Go `strings.Contains(s, sub)`. -/
def stringsContains (s sub : String) : Bool :=
  containsChars s.data sub.data

/-! ## `config/config.go`: rules -/

/-- Modelled from the spec: `trimArr` is called by `parseRules` but is declared
in a file of package `config` that is not part of the embedded sources. It
trims the spaces around every element of a string slice, keeping length and
order (the spec's tunnel shorthand describes its parts as "each trimmed"). -/
def trimArr (arr : List String) : List String :=
  arr.map stringsTrim

/-- The `fmt.Errorf` call sites of `parseRules`. -/
inductive RuleError where
  /-- Text `rules[idx] [line] error: format invalid`. -/
  | formatInvalid (idx : Nat) (line : String)
  /-- Text `rules[idx] [line] error: proxy [target] not found`. -/
  | proxyNotFound (idx : Nat) (line : String) (target : String)
  /-- Text `rules[idx] [line] error: msg`, `msg` coming from the rule factory. -/
  | factory (idx : Nat) (line : String) (msg : String)
  deriving DecidableEq, Repr

/-- The `switch l := len(rule)` of `parseRules`: the `(payload, target, params)`
assignment of each arm, `none` for the `default` arm. Indexing is in bounds in
every arm. -/
def ruleFields (rule : List String) : Option (String × String × List String) :=
  let l := rule.length
  if l = 2 then some ("", rule.getD 1 "", [])
  else if l = 3 then some (rule.getD 1 "", rule.getD 2 "", [])
  else if l ≥ 4 then some (rule.getD 1 "", rule.getD 2 "", rule.drop 3)
  else none

/-- The `for idx, line := range rulesConfig` loop of `parseRules`, from index
`idx` on, `rules` being the slice built so far. `ParseRule` is the rule
factory `R.ParseRule`, `proxies` the compiled proxy map. -/
def parseRulesFrom {ρ π : Type} (ParseRule : String → String → String → List String → Except String ρ)
    (proxies : String → Option π) : Nat → List String → List ρ → Except RuleError (List ρ)
  | _, [], rules => .ok rules
  | idx, line :: rest, rules =>
    let rule := trimArr (stringsSplit line ',')
    match ruleFields rule with
    | none => .error (.formatInvalid idx line)
    | some (payload, target, params) =>
      if (proxies target).isNone then
        .error (.proxyNotFound idx line target)
      else
        let rule := trimArr rule
        let params := trimArr params
        match ParseRule (rule.getD 0 "") payload target params with
        | .error msg => .error (.factory idx line msg)
        | .ok parsed => parseRulesFrom ParseRule proxies (idx + 1) rest (rules ++ [parsed])

/-- Go `parseRules(cfg, proxies)` with `cfg.Rule = rulesConfig`. -/
def parseRules {ρ π : Type} (ParseRule : String → String → String → List String → Except String ρ)
    (proxies : String → Option π) (rulesConfig : List String) : Except RuleError (List ρ) :=
  parseRulesFrom ParseRule proxies 0 rulesConfig []

/-- The argument tuple handed to the rule factory. -/
structure RuleCall where
  type : String
  payload : String
  target : String
  params : List String
  deriving DecidableEq, Repr

/-- A rule factory that accepts every call and returns its arguments. -/
def recordRule (type payload target : String) (params : List String) : Except String RuleCall :=
  .ok ⟨type, payload, target, params⟩

/-- A proxy map whose keys are exactly the listed names. -/
def proxyMapOf (names : List String) (name : String) : Option Unit :=
  if names.contains name then some () else none


/-- One line of the rule list, in the words of the specification: the fields
`f` are the trimmed comma-split of the line; with two fields the factory gets
`(f0, "", f1, [])`, with three `(f0, f1, f2, [])`, with four or more
`(f0, f1, f2, f3..)`; the target is a key of the proxy map and the factory
returns `r`. -/
def ruleLineParses {ρ π : Type} (ParseRule : String → String → String → List String → Except String ρ)
    (proxies : String → Option π) (line : String) (r : ρ) : Prop :=
  ∃ f : List String, f = trimArr (stringsSplit line ',') ∧
    ((f.length = 2 ∧ (proxies (f.getD 1 "")).isSome ∧
        ParseRule (f.getD 0 "") "" (f.getD 1 "") [] = .ok r) ∨
     (f.length = 3 ∧ (proxies (f.getD 2 "")).isSome ∧
        ParseRule (f.getD 0 "") (f.getD 1 "") (f.getD 2 "") [] = .ok r) ∨
     (4 ≤ f.length ∧ (proxies (f.getD 2 "")).isSome ∧
        ParseRule (f.getD 0 "") (f.getD 1 "") (f.getD 2 "") (f.drop 3) = .ok r))

/-! ## Go maps -/

/-- The empty map. -/
def mapEmpty {V : Type} : String → Option V := fun _ => none

/-- Go `m[k] = v`. -/
def mapSet {V : Type} (m : String → Option V) (k : String) (v : V) : String → Option V :=
  fun k' => if k' = k then some v else m k'

/-! ## `config/config.go`: proxies and groups -/

/-- The values stored in the compiled proxy map: the two seed proxies, a
proxy built by `adapter.ParseProxy`, a group built by
`outboundgroup.ParseProxyGroup`, and the `GLOBAL` selector. -/
inductive ProxyValue (A G : Type) where
  | direct
  | reject
  | adapter (a : A)
  | group (g : G)
  | globalSelector
  deriving DecidableEq, Repr

/-- The values stored in the provider map: a declared provider, or the
compatible provider wrapping the slice `ps` of all proxies and groups. -/
inductive ProviderValue (P A G : Type) where
  | declared (p : P)
  | compatible (name : String) (ps : List (Option (ProxyValue A G)))

/-- The collaborators of `parseProxies` that live outside `config.go`.
`M` is a raw `map[string]any` declaration, `A` an adapter proxy, `G` a proxy
group, `P` a proxy provider. -/
structure ProxyCollab (M A G P : Type) where
  /-- Go `adapter.ParseProxy(mapping)`. -/
  ParseProxy : M → Except String A
  /-- Go `proxy.Name()`. -/
  proxyName : A → String
  /-- Go `mapping["name"].(string)`. -/
  mappingName : M → Option String
  /-- Go `proxyGroupsDagSort(groupsConfig)`: sorts the slice in place or fails. -/
  proxyGroupsDagSort : List M → Except String (List M)
  /-- Go `provider.ReservedName`. -/
  ReservedName : String
  /-- Go `provider.ParseProxyProvider(name, mapping)`. -/
  ParseProxyProvider : String → M → Except String P
  /-- Go `provider.Name()`. -/
  providerName : P → String
  /-- Go `provider.Initial()`. -/
  providerInitial : P → Except String Unit
  /-- Go `pd.VehicleType() == providerTypes.Compatible`. -/
  providerIsCompatible : P → Bool
  /-- Go `outboundgroup.ParseProxyGroup(mapping, proxies, providersMap)`. -/
  ParseProxyGroup : M → (String → Option (ProxyValue A G)) → (String → Option P) →
    Except String G
  /-- Go `group.Name()`. -/
  groupName : G → String

/-- The error returns of `parseProxies`. -/
inductive ProxiesError where
  /-- Text `proxy idx: msg`. -/
  | proxy (idx : Nat) (msg : String)
  /-- Text `proxy name is the duplicate name`. -/
  | duplicateProxy (name : String)
  /-- Text `proxy group idx: missing name`. -/
  | groupMissingName (idx : Nat)
  /-- The error of `proxyGroupsDagSort`, returned as is. -/
  | dagSort (msg : String)
  /-- Text `can not defined a provider called name`. -/
  | reservedProvider (name : String)
  /-- Text `parse proxy provider name error: msg`. -/
  | provider (name : String) (msg : String)
  /-- Text `initial proxy provider name error: msg`. -/
  | providerInitial (name : String) (msg : String)
  /-- Text `proxy group[idx]: msg`. -/
  | group (idx : Nat) (msg : String)
  /-- Text `proxy group name: the duplicate name`. -/
  | duplicateGroup (name : String)
  /-- The error of a compatible provider's `Initial`, returned as is. -/
  | compatibleInitial (msg : String)
  deriving DecidableEq, Repr

section Proxies

variable {M A G P : Type} (C : ProxyCollab M A G P)

/-- The `// parse proxy` loop of `parseProxies`. -/
def parseProxyLoop : Nat → List M → (String → Option (ProxyValue A G)) → List String →
    Except ProxiesError ((String → Option (ProxyValue A G)) × List String)
  | _, [], proxies, proxyList => .ok (proxies, proxyList)
  | idx, mapping :: rest, proxies, proxyList =>
    match C.ParseProxy mapping with
    | .error msg => .error (.proxy idx msg)
    | .ok proxy =>
      if (proxies (C.proxyName proxy)).isSome then
        .error (.duplicateProxy (C.proxyName proxy))
      else
        parseProxyLoop (idx + 1) rest
          (mapSet proxies (C.proxyName proxy) (.adapter proxy))
          (proxyList ++ [C.proxyName proxy])

/-- The loop of `parseProxies` that appends the group names to `proxyList`. -/
def collectGroupNames : Nat → List M → List String → Except ProxiesError (List String)
  | _, [], proxyList => .ok proxyList
  | idx, mapping :: rest, proxyList =>
    match C.mappingName mapping with
    | none => .error (.groupMissingName idx)
    | some groupName => collectGroupNames (idx + 1) rest (proxyList ++ [groupName])

/-- The `// parse and initial providers` loop; `providersMap` is kept as the
list of its entries. -/
def parseProviderLoop : List (String × M) → List (String × P) →
    Except ProxiesError (List (String × P))
  | [], providersMap => .ok providersMap
  | (name, mapping) :: rest, providersMap =>
    if name = C.ReservedName then .error (.reservedProvider C.ReservedName)
    else
      match C.ParseProxyProvider name mapping with
      | .error msg => .error (.provider name msg)
      | .ok pd => parseProviderLoop rest (providersMap ++ [(name, pd)])

/-- The loop calling `provider.Initial()` on every declared provider. -/
def initialProviderLoop : List (String × P) → Except ProxiesError Unit
  | [] => .ok ()
  | (_, provider) :: rest =>
    match C.providerInitial provider with
    | .error msg => .error (.providerInitial (C.providerName provider) msg)
    | .ok _ => initialProviderLoop rest

/-- The `// parse proxy group` loop of `parseProxies`. -/
def parseGroupLoop (providersMap : String → Option P) :
    Nat → List M → (String → Option (ProxyValue A G)) →
    Except ProxiesError (String → Option (ProxyValue A G))
  | _, [], proxies => .ok proxies
  | idx, mapping :: rest, proxies =>
    match C.ParseProxyGroup mapping proxies providersMap with
    | .error msg => .error (.group idx msg)
    | .ok group =>
      if (proxies (C.groupName group)).isSome then
        .error (.duplicateGroup (C.groupName group))
      else
        parseGroupLoop providersMap (idx + 1) rest
          (mapSet proxies (C.groupName group) (.group group))

/-- The `// initial compatible provider` loop. -/
def initialCompatibleLoop : List (String × P) → Except ProxiesError Unit
  | [] => .ok ()
  | (_, pd) :: rest =>
    if !C.providerIsCompatible pd then initialCompatibleLoop rest
    else
      match C.providerInitial pd with
      | .error msg => .error (.compatibleInitial msg)
      | .ok _ => initialCompatibleLoop rest

/-- The declared providers as a lookup map. -/
def providerLookup (providersMap : List (String × P)) (name : String) : Option P :=
  (providersMap.reverse.find? (fun e => e.1 = name)).map (·.2)

/-- Go `parseProxies(cfg)` with `cfg.Proxy = proxiesConfig`,
`cfg.ProxyGroup = groupsConfig` and `cfg.ProxyProvider` the map whose entries,
in iteration order, are `providersConfig`. -/
def parseProxies (proxiesConfig groupsConfig : List M) (providersConfig : List (String × M)) :
    Except ProxiesError
      ((String → Option (ProxyValue A G)) × (String → Option (ProviderValue P A G))) :=
  let proxies : String → Option (ProxyValue A G) :=
    mapSet (mapSet mapEmpty "DIRECT" .direct) "REJECT" .reject
  let proxyList := ["DIRECT", "REJECT"]
  match parseProxyLoop C 0 proxiesConfig proxies proxyList with
  | .error e => .error e
  | .ok (proxies, proxyList) =>
  match collectGroupNames C 0 groupsConfig proxyList with
  | .error e => .error e
  | .ok proxyList =>
  match C.proxyGroupsDagSort groupsConfig with
  | .error msg => .error (.dagSort msg)
  | .ok groupsConfig =>
  match parseProviderLoop C providersConfig [] with
  | .error e => .error e
  | .ok providersMap =>
  match initialProviderLoop C providersMap with
  | .error e => .error e
  | .ok _ =>
  match parseGroupLoop C (providerLookup providersMap) 0 groupsConfig proxies with
  | .error e => .error e
  | .ok proxies =>
  match initialCompatibleLoop C providersMap with
  | .error e => .error e
  | .ok _ =>
    let ps := proxyList.map proxies
    let pd : ProviderValue P A G := .compatible C.ReservedName ps
    let providers : String → Option (ProviderValue P A G) :=
      mapSet (fun name => (providerLookup providersMap name).map .declared) C.ReservedName pd
    .ok (mapSet proxies "GLOBAL" .globalSelector, providers)

end Proxies

/-- A raw declaration reduced to what the example collaborators read. -/
structure NamedMapping where
  name : Option String
  deriving DecidableEq, Repr

/-- Example collaborators: every declaration that has a name is accepted, the
built proxy, group or provider is identified with its name, groups are left
in declared order and `provider.ReservedName` is `default`. -/
def namedCollab : ProxyCollab NamedMapping String String String where
  ParseProxy m := match m.name with
    | some n => .ok n
    | none => .error "missing name"
  proxyName a := a
  mappingName m := m.name
  proxyGroupsDagSort gs := .ok gs
  ReservedName := "default"
  ParseProxyProvider n _ := .ok n
  providerName p := p
  providerInitial _ := .ok ()
  providerIsCompatible _ := false
  ParseProxyGroup m _ _ := match m.name with
    | some n => .ok n
    | none => .error "missing name"
  groupName g := g

/-- The value a successful `parseProxies` stores under `key`; `none` when
`parseProxies` failed, `some none` when it succeeded without that key. -/
def proxiesResultAt {A G P : Type}
    (r : Except ProxiesError
      ((String → Option (ProxyValue A G)) × (String → Option (ProviderValue P A G))))
    (key : String) : Option (Option (ProxyValue A G)) :=
  match r with
  | .error _ => none
  | .ok (proxies, _) => some (proxies key)

/-- The error of a failed `parseProxies`, `none` when it succeeded. -/
def proxiesError {A G P : Type}
    (r : Except ProxiesError
      ((String → Option (ProxyValue A G)) × (String → Option (ProviderValue P A G)))) :
    Option ProxiesError :=
  match r with
  | .error e => some e
  | .ok _ => none

/-! ## Package `net`: host and port -/

/-- Go `strings.IndexByte(s, c)` on characters; `none` stands for `-1`. -/
def indexByte (c : Char) : List Char → Option Nat
  | [] => none
  | x :: xs => if x = c then some 0 else (indexByte c xs).map (· + 1)

/-- Go `strings.LastIndexByte(s, c)` on characters; `none` stands for `-1`. -/
def lastIndexByte (c : Char) : List Char → Option Nat
  | [] => none
  | x :: xs =>
    match lastIndexByte c xs with
    | some i => some (i + 1)
    | none => if x = c then some 0 else none

/-- Go `net.SplitHostPort(hostport)`; the error carries the `AddrError` reason. -/
def SplitHostPort (hostport : String) : Except String (String × String) :=
  let s := hostport.data
  match lastIndexByte ':' s with
  | none => .error "missing port in address"
  | some i =>
    let bracketed : Except String (List Char × Nat × Nat) :=
      if s.head? = some '[' then
        match indexByte ']' s with
        | none => .error "missing ']' in address"
        | some e =>
          if e + 1 = s.length then .error "missing port in address"
          else if e + 1 = i then .ok ((s.take e).drop 1, 1, e + 1)
          else if s.get? (e + 1) = some ':' then .error "too many colons in address"
          else .error "missing port in address"
      else if (indexByte ':' (s.take i)).isSome then .error "too many colons in address"
      else .ok (s.take i, 0, 0)
    match bracketed with
    | .error e => .error e
    | .ok (host, j, k) =>
      if (indexByte '[' (s.drop j)).isSome then .error "unexpected '[' in address"
      else if (indexByte ']' (s.drop k)).isSome then .error "unexpected ']' in address"
      else .ok (String.mk host, String.mk (s.drop (i + 1)))

/-- Go `net.JoinHostPort(host, port)`: a host with a colon is bracketed. -/
def JoinHostPort (host port : String) : String :=
  if (indexByte ':' host.data).isSome then "[" ++ host ++ "]:" ++ port
  else host ++ ":" ++ port

/-! ## `config/config.go`: nameservers -/

/-- Go `hostWithDefaultPort(host, defPort)`. -/
def hostWithDefaultPort (host defPort : String) : Except String String :=
  let host := if !containsChar host ':' then host ++ ":" else host
  match SplitHostPort host with
  | .error e => .error e
  | .ok (hostname, port) =>
    let port := if port = "" then defPort else port
    .ok (JoinHostPort hostname port)

/-- Go `url.Userinfo`. -/
structure Userinfo where
  username : String
  password : String
  passwordSet : Bool
  deriving DecidableEq, Repr

/-- The fields of Go `url.URL` that `parseNameServer` reads. -/
structure URL where
  Scheme : String
  User : Option Userinfo
  Host : String
  Path : String
  Fragment : String
  deriving DecidableEq, Repr

/-- Go `dns.NameServer`. -/
structure NameServer where
  Net : String
  Addr : String
  Interface : String
  deriving DecidableEq, Repr

/-- The `fmt.Errorf` call sites of `parseNameServer`. -/
inductive NameServerError where
  /-- Text `DNS NameServer[idx] format error: msg`. -/
  | format (idx : Nat) (msg : String)
  /-- Text `DNS NameServer[idx] unsupport scheme: scheme`. -/
  | unsupportScheme (idx : Nat) (scheme : String)
  deriving DecidableEq, Repr

/-- The text handed to `url.Parse`: an entry without `://` gets `udp://` in
front. -/
def withDefaultScheme (server : String) : String :=
  if !stringsContains server "://" then "udp://" ++ server else server

/-- The `switch u.Scheme` of `parseNameServer`: `(addr, err, dnsNetType)` of
each arm, `none` for the `default` arm. `urlString` is Go `URL.String`. -/
def schemeSwitch (urlString : URL → String) (u : URL) :
    Option (Except String String × String) :=
  if u.Scheme = "udp" then some (hostWithDefaultPort u.Host "53", "")
  else if u.Scheme = "tcp" then some (hostWithDefaultPort u.Host "53", "tcp")
  else if u.Scheme = "tls" then some (hostWithDefaultPort u.Host "853", "tcp-tls")
  else if u.Scheme = "https" then
    some (.ok (urlString
      { Scheme := "https", Host := u.Host, Path := u.Path, User := u.User, Fragment := "" }),
      "https")
  else if u.Scheme = "dhcp" then some (.ok u.Host, "dhcp")
  else none

/-- The body of the `for idx, server := range servers` loop of
`parseNameServer`: the nameserver appended for `server`, or the error
returned. `urlParse` is Go `url.Parse`, `urlString` Go `URL.String`. -/
def nameServerEntry (urlParse : String → Except String URL) (urlString : URL → String)
    (idx : Nat) (server : String) : Except NameServerError NameServer :=
  match urlParse (withDefaultScheme server) with
  | .error msg => .error (.format idx msg)
  | .ok u =>
    let interfaceName := u.Fragment
    match schemeSwitch urlString u with
    | none => .error (.unsupportScheme idx u.Scheme)
    | some (.error msg, _) => .error (.format idx msg)
    | some (.ok addr, dnsNetType) =>
      .ok { Net := dnsNetType, Addr := addr, Interface := interfaceName }

/-- The `for idx, server := range servers` loop of `parseNameServer`, from
index `idx` on, `nameservers` being the slice built so far. -/
def parseNameServerFrom (urlParse : String → Except String URL) (urlString : URL → String) :
    Nat → List String → List NameServer → Except NameServerError (List NameServer)
  | _, [], nameservers => .ok nameservers
  | idx, server :: rest, nameservers =>
    match nameServerEntry urlParse urlString idx server with
    | .error e => .error e
    | .ok ns => parseNameServerFrom urlParse urlString (idx + 1) rest (nameservers ++ [ns])

/-- Go `parseNameServer(servers)`. -/
def parseNameServer (urlParse : String → Except String URL) (urlString : URL → String)
    (servers : List String) : Except NameServerError (List NameServer) :=
  parseNameServerFrom urlParse urlString 0 servers []

/-- The URL library reads `text` as a URL with the given scheme, host and
fragment, without userinfo or path. -/
def parsesTo (urlParse : String → Except String URL) (text scheme host fragment : String) :
    Prop :=
  urlParse text =
    .ok { Scheme := scheme, User := none, Host := host, Path := "", Fragment := fragment }

instance (urlParse : String → Except String URL) (text scheme host fragment : String) :
    Decidable (parsesTo urlParse text scheme host fragment) := by
  unfold parsesTo; infer_instance

/-! ### A reference `url.Parse`

Go `net/url.Parse` restricted to texts of the shape
`[scheme:][//[userinfo@]host[:port]][/path][?query][#fragment]` that carry no
percent escape and no byte that `net/url` rejects or rewrites; on those it
returns the fields Go returns. It instantiates the `urlParse` parameter in
closed examples. -/

/-- Go `strings.Cut(s, string(sep))` on characters. -/
def cutChar (sep : Char) : List Char → List Char × Option (List Char)
  | [] => ([], none)
  | c :: cs =>
    if c = sep then ([], some cs)
    else
      let r := cutChar sep cs
      (c :: r.1, r.2)

/-- Go `url.getScheme`: `(scheme, rest)`; `acc` is the prefix read so far. -/
def getSchemeFrom : List Char → List Char → Except String (List Char × List Char)
  | acc, [] => .ok ([], acc)
  | acc, c :: cs =>
    if c.isAlpha then getSchemeFrom (acc ++ [c]) cs
    else if c.isDigit ∨ c = '+' ∨ c = '-' ∨ c = '.' then
      if acc.isEmpty then .ok ([], c :: cs) else getSchemeFrom (acc ++ [c]) cs
    else if c = ':' then
      if acc.isEmpty then .error "missing protocol scheme" else .ok (acc, cs)
    else .ok ([], acc ++ c :: cs)

/-- Go `url.validOptionalPort`. -/
def validOptionalPort : List Char → Bool
  | [] => true
  | c :: cs => c == ':' && cs.all Char.isDigit

/-- Go `url.parseHost` without unescaping: the host text is returned as
written once its port part is checked. -/
def parseHostRef (host : List Char) : Except String (List Char) :=
  if host.head? = some '[' then
    match lastIndexByte ']' host with
    | none => .error "missing ']' in host"
    | some i =>
      if validOptionalPort (host.drop (i + 1)) then .ok host
      else .error "invalid port after host"
  else
    match lastIndexByte ':' host with
    | none => .ok host
    | some i =>
      if validOptionalPort (host.drop i) then .ok host
      else .error "invalid port after host"

/-- Go `url.parseAuthority` without unescaping: userinfo is what stands before
the last `@`. -/
def parseAuthorityRef (authority : List Char) : Except String (Option Userinfo × List Char) :=
  match lastIndexByte '@' authority with
  | none => (parseHostRef authority).map (fun h => (none, h))
  | some i =>
    match parseHostRef (authority.drop (i + 1)) with
    | .error e => .error e
    | .ok h =>
      let userinfo := authority.take i
      match cutChar ':' userinfo with
      | (u, none) => .ok (some ⟨String.mk u, "", false⟩, h)
      | (u, some p) => .ok (some ⟨String.mk u, String.mk p, true⟩, h)

/-- The reference `url.Parse`. -/
def urlParseRef (rawURL : String) : Except String URL :=
  let (u, frag) := cutChar '#' rawURL.data
  let fragment := String.mk (frag.getD [])
  if u.any (fun c => c.toNat < 32 ∨ c.toNat = 127) then
    .error "net/url: invalid control character in URL"
  else if u = ['*'] then
    .ok { Scheme := "", User := none, Host := "", Path := "*", Fragment := fragment }
  else
    match getSchemeFrom [] u with
    | .error e => .error e
    | .ok (scheme, rest) =>
      let scheme := String.mk (scheme.map Char.toLower)
      let rest := (cutChar '?' rest).1
      if rest.head? ≠ some '/' ∧ scheme ≠ "" then
        .ok { Scheme := scheme, User := none, Host := "", Path := "", Fragment := fragment }
      else if rest.head? ≠ some '/' ∧ containsChar (String.mk (cutChar '/' rest).1) ':' then
        .error "first path segment in URL cannot contain colon"
      else if hasPrefixChars rest ['/', '/'] ∧
          (scheme ≠ "" ∨ ¬ hasPrefixChars rest ['/', '/', '/']) then
        let authority := (cutChar '/' (rest.drop 2)).1
        let path := (rest.drop 2).drop authority.length
        match parseAuthorityRef authority with
        | .error e => .error e
        | .ok (user, host) =>
          .ok { Scheme := scheme, User := user, Host := String.mk host,
                Path := String.mk path, Fragment := fragment }
      else
        .ok { Scheme := scheme, User := none, Host := "", Path := String.mk rest,
              Fragment := fragment }

/-- A stand-in for Go `URL.String` on a URL without fragment:
`scheme://[userinfo@]host/path`, nothing escaped. -/
def urlStringRef (u : URL) : String :=
  let user := match u.User with
    | none => ""
    | some ui => if ui.passwordSet then ui.username ++ ":" ++ ui.password ++ "@"
                 else ui.username ++ "@"
  u.Scheme ++ "://" ++ user ++ u.Host ++ u.Path

/-! ## Package `strconv` -/

/-- Go `strconv.NumError.Err` as returned by `ParseUint` and `ParseInt`. -/
inductive NumError where
  | errSyntax
  | errRange
  deriving DecidableEq, Repr

/-- The value of a decimal digit. -/
def digitValue (c : Char) : Option Nat :=
  if '0' ≤ c ∧ c ≤ '9' then some (c.toNat - '0'.toNat) else none

/-- The digit loop of Go `strconv.ParseUint` in base 10: `n` is the value read
so far, `maxVal` the largest value of the bit size. -/
def parseUintLoop (maxVal : Nat) : List Char → Nat → Except NumError Nat
  | [], n => .ok n
  | c :: cs, n =>
    match digitValue c with
    | none => .error .errSyntax
    | some d =>
      if n * 10 + d > maxVal then .error .errRange
      else parseUintLoop maxVal cs (n * 10 + d)

/-- Go `strconv.ParseUint(s, 10, bitSize)`. -/
def ParseUint (s : String) (bitSize : Nat) : Except NumError Nat :=
  if s = "" then .error .errSyntax
  else parseUintLoop (2 ^ bitSize - 1) s.data 0

/-- Go `strconv.ParseInt(s, 10, bitSize)`. -/
def ParseInt (s : String) (bitSize : Nat) : Except NumError Int :=
  match s.data with
  | [] => .error .errSyntax
  | c :: cs =>
    let neg := c = '-'
    let digits := if c = '+' ∨ c = '-' then String.mk cs else s
    match ParseUint digits bitSize with
    | .error .errSyntax => .error .errSyntax
    | r =>
      let un := match r with
        | .ok v => v
        | .error _ => 2 ^ bitSize - 1
      let cutoff := 2 ^ (bitSize - 1)
      if ¬ neg ∧ un ≥ cutoff then .error .errRange
      else if neg ∧ un > cutoff then .error .errRange
      else .ok (if neg then -(un : Int) else (un : Int))

/-! ## `listener/sing_tun/server.go`: UID ranges -/

/-- Go `ranges.Range[uint32]`: the inclusive range `[Start, End]`. -/
structure UidRange where
  Start : Nat
  End : Nat
  deriving DecidableEq, Repr

/-- Go `uint32(x)`. -/
def toUint32 (x : Nat) : Nat := x % 2 ^ 32

/-- Go `uidToRange(uidList)`: every UID becomes `ranges.NewSingle(uid)`. -/
def uidToRange (uidList : List Nat) : List UidRange :=
  uidList.map (fun uid => ⟨uid, uid⟩)

/-- The error returns of `parseRange`. -/
inductive RangeError where
  /-- Text `missing ':' in range: uidRange`. -/
  | missingColon (uidRange : String)
  /-- Text `missing range start: uidRange`. -/
  | missingStart (uidRange : String)
  /-- Text `missing range end: uidRange`. -/
  | missingEnd (uidRange : String)
  /-- The `strconv` error wrapped by `parse range start`. -/
  | parseStart (cause : NumError)
  /-- The `strconv` error wrapped by `parse range end`. -/
  | parseEnd (cause : NumError)
  deriving DecidableEq, Repr

/-- Go `strings.Index(s, string(c))`: the index of the first `c`, `-1` when
there is none. -/
def stringsIndex (s : String) (c : Char) : Int :=
  match indexByte c s.data with
  | none => -1
  | some i => (i : Int)

/-- Go `parseRange(uidRanges, rangeList)`. -/
def parseRange (uidRanges : List UidRange) : List String → Except RangeError (List UidRange)
  | [] => .ok uidRanges
  | uidRange :: rest =>
    if !containsChar uidRange ':' then .error (.missingColon uidRange)
    else
      let subIndex := stringsIndex uidRange ':'
      if subIndex = 0 then .error (.missingStart uidRange)
      else if subIndex = (uidRange.data.length : Int) - 1 then .error (.missingEnd uidRange)
      else
        match ParseUint (String.mk (uidRange.data.take subIndex.toNat)) 32 with
        | .error err => .error (.parseStart err)
        | .ok start =>
          match ParseUint (String.mk (uidRange.data.drop (subIndex.toNat + 1))) 32 with
          | .error err => .error (.parseEnd err)
          | .ok «end» =>
            parseRange (uidRanges ++ [⟨toUint32 start, toUint32 «end»⟩]) rest

/-! ## Package `netip` -/

/-- Go `netip.Addr`: the zero value, an IPv4 address or an IPv6 address with
its zone, addresses being numbers. -/
inductive Addr where
  | zero
  | v4 (a : Nat)
  | v6 (a : Nat) (zone : String)
  deriving DecidableEq, Repr

/-- Go `Addr.Next()`: the following address, the zero `Addr` after the last. -/
def Addr.Next : Addr → Addr
  | .zero => .zero
  | .v4 a => if a + 1 < 2 ^ 32 then .v4 (a + 1) else .zero
  | .v6 a z => if a + 1 < 2 ^ 128 then .v6 (a + 1) z else .zero

/-- Go `netip.AddrPort`. -/
structure AddrPort where
  ip : Addr
  port : Nat
  deriving DecidableEq, Repr

/-- Go `netip.Prefix`: `Addr()` is `ip`, `Bits()` is `bits`. -/
structure Cidr where
  ip : Addr
  bits : Nat
  deriving DecidableEq, Repr

/-! ## `listener/sing_tun/server.go`: the listener -/

/-- Go `strings.Cut(s, sep)` on characters: `(before, after)` when `sep` occurs. -/
def cutSub (sep : List Char) : List Char → Option (List Char × List Char)
  | [] => if sep.isEmpty then some ([], []) else none
  | c :: cs =>
    if hasPrefixChars (c :: cs) sep then some ([], (c :: cs).drop sep.length)
    else (cutSub sep cs).map (fun r => (c :: r.1, r.2))

/-- Go `strings.Replace(s, old, new, 1)` on characters, `old` not empty. -/
def replaceFirst (old new : List Char) : List Char → List Char
  | [] => []
  | c :: cs =>
    if hasPrefixChars (c :: cs) old then new ++ (c :: cs).drop old.length
    else c :: replaceFirst old new cs

/-- Go `config.Tun`, the listener's options. -/
structure Tun where
  Enable : Bool
  Device : String
  Stack : String
  DNSHijack : List String
  AutoRoute : Bool
  AutoDetectInterface : Bool
  MTU : Nat
  Inet4Address : List Cidr
  Inet6Address : List Cidr
  StrictRoute : Bool
  Inet4RouteAddress : List Cidr
  Inet6RouteAddress : List Cidr
  IncludeUID : List Nat
  IncludeUIDRange : List String
  ExcludeUID : List Nat
  ExcludeUIDRange : List String
  IncludeAndroidUser : List Int
  IncludePackage : List String
  ExcludePackage : List String
  EndpointIndependentNat : Bool
  UDPTimeout : Int
  FileDescriptor : Int
  deriving DecidableEq, Repr

/-- Go `tun.Options` as filled by `New` (the monitor and the logger left out). -/
structure TunOptions where
  Name : String
  MTU : Nat
  Inet4Address : List Cidr
  Inet6Address : List Cidr
  AutoRoute : Bool
  StrictRoute : Bool
  Inet4RouteAddress : List Cidr
  Inet6RouteAddress : List Cidr
  IncludeUID : List UidRange
  ExcludeUID : List UidRange
  IncludeAndroidUser : List Int
  IncludePackage : List String
  ExcludePackage : List String
  FileDescriptor : Int
  TableIndex : Nat
  deriving DecidableEq, Repr

/-- Go `tun.StackOptions` as filled by `New` (context, interface, handler and
logger left out). -/
structure StackOptions where
  MTU : Nat
  Name : String
  Inet4Address : List Cidr
  Inet6Address : List Cidr
  EndpointIndependentNat : Bool
  UDPTimeout : Int
  ForwarderBindInterface : Bool
  deriving DecidableEq, Repr

/-- Go `DnsListenerHandler`: the UDP timeout in seconds and the hijack set. -/
structure DnsListenerHandler where
  UDPTimeout : Int
  DnsAdds : List AddrPort
  deriving DecidableEq, Repr

/-- The resources a `Listener` owns, in the order `Close` releases them. -/
inductive Resource where
  | tunStack
  | tunIf
  | defaultInterfaceMonitor
  | networkUpdateMonitor
  | packageManager
  deriving DecidableEq, Repr

/-- Go `Listener`; a resource field is `true` when it holds a handle. -/
structure Listener where
  closed : Bool
  options : Tun
  handler : DnsListenerHandler
  tunName : String
  addr : String
  tunIf : Bool
  tunStack : Bool
  networkUpdateMonitor : Bool
  defaultInterfaceMonitor : Bool
  packageManager : Bool
  deriving DecidableEq, Repr

/-- What `New` and `Close` do to the platform, in order. -/
inductive Event where
  | acquire (r : Resource)
  | start (r : Resource)
  | release (r : Resource)
  | tunNew (o : TunOptions)
  | newStack (kind : String) (o : StackOptions)
  deriving DecidableEq, Repr

/-- Go `(l *Listener).Close()`: sets the closed flag, then `common.Close`
closes every field that holds a handle, in the order stack, interface,
default-interface monitor, network-update monitor, package manager. -/
def Listener.Close (l : Listener) : Listener × List Event :=
  ({ l with closed := true },
    (if l.tunStack then [Event.release .tunStack] else []) ++
    (if l.tunIf then [Event.release .tunIf] else []) ++
    (if l.defaultInterfaceMonitor then [Event.release .defaultInterfaceMonitor] else []) ++
    (if l.networkUpdateMonitor then [Event.release .networkUpdateMonitor] else []) ++
    (if l.packageManager then [Event.release .packageManager] else []))

/-- Go `(l *Listener).Config()`. -/
def Listener.Config (l : Listener) : Tun := l.options

/-- The collaborators of `New` that live outside `server.go`: the platform, the
`sing-tun` library and the declarations of package `sing_tun` in other files. -/
structure TunPlatform where
  /-- Go `runtime.GOOS == "darwin"`. -/
  darwin : Bool
  /-- Go `tun.CalculateInterfaceName(name)`. -/
  tunCalculateInterfaceName : String → String
  /-- Go `int64(UDPTimeout.Seconds())`, `UDPTimeout` being a package variable. -/
  defaultUDPTimeout : Int
  /-- Go `netip.ParseAddrPort(s)`. -/
  ParseAddrPort : String → Except String AddrPort
  /-- Go `tun.NewNetworkUpdateMonitor(logger)`. -/
  NewNetworkUpdateMonitor : Except String Unit
  /-- Go `networkUpdateMonitor.Start()`. -/
  startNetworkUpdateMonitor : Except String Unit
  /-- Go `tun.NewDefaultInterfaceMonitor(...)`. -/
  NewDefaultInterfaceMonitor : Except String Unit
  /-- Go `defaultInterfaceMonitor.Start()`. -/
  startDefaultInterfaceMonitor : Except String Unit
  /-- Go `l.buildAndroidRules(&tunOptions)`: whether it stored a package
  manager in the listener, and the options it leaves, or its error. -/
  buildAndroidRules : TunOptions → Bool × Except String TunOptions
  /-- Go `tunNew(tunOptions)`. -/
  tunNew : TunOptions → Except String Unit
  /-- Go `getTunnelName(fd)`: the name returned, and the error if any. -/
  getTunnelName : Int → String × Option String
  /-- Go `tun.NewStack(stack, stackOptions)`. -/
  NewStack : String → StackOptions → Except String Unit
  /-- Go `l.tunStack.Start()`. -/
  startStack : Except String Unit
  /-- Go `fmt.Sprintf` of the listener's address summary. -/
  describe : String → List Cidr → List Cidr → Nat → Bool → String → String

/-- Go `int32(x)`. -/
def toInt32 (x : Int) : Int := (x + 2 ^ 31) % 2 ^ 32 - 2 ^ 31

/-- Go `InterfaceName`. -/
def InterfaceName : String := "Clash for Flutter"

/-- Go `CalculateInterfaceName(name)`. -/
def CalculateInterfaceName (P : TunPlatform) (name : String) : String :=
  if P.darwin then P.tunCalculateInterfaceName name else name

/-- Go `checkTunName(tunName)` (the warning it logs left out). -/
def checkTunName (P : TunPlatform) (tunName : String) : Bool :=
  if P.darwin then
    if tunName.data.length ≤ 4 then false
    else if String.mk (tunName.data.take 4) ≠ "utun" then false
    else
      match ParseInt (String.mk (tunName.data.drop 4)) 16 with
      | .error _ => false
      | .ok _ => true
  else true

/-- The error returns of `New`. -/
inductive NewError where
  /-- Cause wrapped by `parse include_uid_range`. -/
  | parseIncludeUidRange (cause : RangeError)
  /-- Cause wrapped by `parse exclude_uid_range`. -/
  | parseExcludeUidRange (cause : RangeError)
  /-- Text `parse dns-hijack url error: msg`. -/
  | parseDnsHijack (msg : String)
  /-- Cause wrapped by `create NetworkUpdateMonitor`. -/
  | createNetworkUpdateMonitor (msg : String)
  /-- Cause wrapped by `start NetworkUpdateMonitor`. -/
  | startNetworkUpdateMonitor (msg : String)
  /-- Cause wrapped by `create DefaultInterfaceMonitor`. -/
  | createDefaultInterfaceMonitor (msg : String)
  /-- Cause wrapped by `start DefaultInterfaceMonitor`. -/
  | startDefaultInterfaceMonitor (msg : String)
  /-- Cause wrapped by `build android rules`. -/
  | buildAndroidRules (msg : String)
  /-- Cause wrapped by `configure tun interface`. -/
  | configureTunInterface (msg : String)
  /-- The error of `tun.NewStack`, returned as is. -/
  | newStack (msg : String)
  /-- The error of `l.tunStack.Start()`, returned as is. -/
  | startStack (msg : String)
  deriving DecidableEq, Repr

/-- The explicit part of the `// parse dns hijack` loop of `New`. -/
def parseDnsHijack (P : TunPlatform) : List String → List AddrPort →
    Except NewError (List AddrPort)
  | [], dnsAdds => .ok dnsAdds
  | d :: rest, dnsAdds =>
    let d := match cutSub "://".data d.data with
      | some (_, after) => after
      | none => d.data
    let d := replaceFirst "any".data "0.0.0.0".data d
    match P.ParseAddrPort (String.mk d) with
    | .error msg => .error (.parseDnsHijack msg)
    | .ok addrPort => parseDnsHijack P rest (dnsAdds ++ [addrPort])

/-- What `New` has computed when it allocates the listener: the effective
options, device name, MTU, UDP timeout, UID sets and hijack set. -/
structure Prepared where
  options : Tun
  tunName : String
  tunMTU : Nat
  udpTimeout : Int
  includeUID : List UidRange
  excludeUID : List UidRange
  dnsAdds : List AddrPort
  deriving DecidableEq, Repr

/-- The first statement of `New`: an empty or unsupported device name is
replaced by the calculated one, in the options too. Returns the options and
`tunName`. -/
def deviceDefault (P : TunPlatform) (options : Tun) : Tun × String :=
  let tunName := options.Device
  if tunName = "" || !checkTunName P tunName then
    let tunName := CalculateInterfaceName P InterfaceName
    ({ options with Device := tunName }, tunName)
  else (options, tunName)

/-- Go `New` up to the allocation of the listener: default filling, UID
parsing, hijack set. An error here returns `nil, err` at once. -/
def NewPrepare (P : TunPlatform) (options : Tun) : Except NewError Prepared :=
  let tunName := (deviceDefault P options).2
  let options := (deviceDefault P options).1
  let tunMTU := if options.MTU = 0 then 9000 else options.MTU
  let udpTimeout := if options.UDPTimeout ≠ 0 then options.UDPTimeout else P.defaultUDPTimeout
  let includeUID := uidToRange options.IncludeUID
  let includeUID : Except NewError (List UidRange) :=
    if options.IncludeUIDRange.length > 0 then
      match parseRange includeUID options.IncludeUIDRange with
      | .error err => .error (.parseIncludeUidRange err)
      | .ok r => .ok r
    else .ok includeUID
  match includeUID with
  | .error e => .error e
  | .ok includeUID =>
  let excludeUID := uidToRange options.ExcludeUID
  let excludeUID : Except NewError (List UidRange) :=
    if options.ExcludeUIDRange.length > 0 then
      match parseRange excludeUID options.ExcludeUIDRange with
      | .error err => .error (.parseExcludeUidRange err)
      | .ok r => .ok r
    else .ok excludeUID
  match excludeUID with
  | .error e => .error e
  | .ok excludeUID =>
  match parseDnsHijack P options.DNSHijack [] with
  | .error e => .error e
  | .ok dnsAdds =>
    let dnsAdds := dnsAdds ++ options.Inet4Address.map (fun a => ⟨a.ip.Next, 53⟩)
    let dnsAdds := dnsAdds ++ options.Inet6Address.map (fun a => ⟨a.ip.Next, 53⟩)
    .ok { options := options, tunName := tunName, tunMTU := tunMTU, udpTimeout := udpTimeout,
          includeUID := includeUID, excludeUID := excludeUID, dnsAdds := dnsAdds }

/-- The deferred function of `New`: on an error the listener is closed and
`nil` is returned with the error. -/
def failStart (l : Listener) (events : List Event) (err : NewError) :
    Except NewError Listener × List Event :=
  (.error err, events ++ (l.Close).2)

/-- Go `New` from the allocation of the listener on: the start sequence, with
the events it causes. -/
def NewStart (P : TunPlatform) (p : Prepared) : Except NewError Listener × List Event :=
  let l : Listener :=
    { closed := false, options := p.options,
      handler := { UDPTimeout := p.udpTimeout, DnsAdds := p.dnsAdds },
      tunName := "", addr := "", tunIf := false, tunStack := false,
      networkUpdateMonitor := false, defaultInterfaceMonitor := false,
      packageManager := false }
  match P.NewNetworkUpdateMonitor with
  | .error msg => failStart l [] (.createNetworkUpdateMonitor msg)
  | .ok _ =>
  let l := { l with networkUpdateMonitor := true }
  let ev := [Event.acquire .networkUpdateMonitor]
  match P.startNetworkUpdateMonitor with
  | .error msg => failStart l ev (.startNetworkUpdateMonitor msg)
  | .ok _ =>
  let ev := ev ++ [Event.start .networkUpdateMonitor]
  match P.NewDefaultInterfaceMonitor with
  | .error msg => failStart l ev (.createDefaultInterfaceMonitor msg)
  | .ok _ =>
  let l := { l with defaultInterfaceMonitor := true }
  let ev := ev ++ [Event.acquire .defaultInterfaceMonitor]
  match P.startDefaultInterfaceMonitor with
  | .error msg => failStart l ev (.startDefaultInterfaceMonitor msg)
  | .ok _ =>
  let ev := ev ++ [Event.start .defaultInterfaceMonitor]
  let tunOptions : TunOptions :=
    { Name := p.tunName, MTU := p.tunMTU,
      Inet4Address := p.options.Inet4Address, Inet6Address := p.options.Inet6Address,
      AutoRoute := p.options.AutoRoute, StrictRoute := p.options.StrictRoute,
      Inet4RouteAddress := p.options.Inet4RouteAddress,
      Inet6RouteAddress := p.options.Inet6RouteAddress,
      IncludeUID := p.includeUID, ExcludeUID := p.excludeUID,
      IncludeAndroidUser := p.options.IncludeAndroidUser,
      IncludePackage := p.options.IncludePackage,
      ExcludePackage := p.options.ExcludePackage,
      FileDescriptor := p.options.FileDescriptor, TableIndex := 2022 }
  let android := P.buildAndroidRules tunOptions
  let l := { l with packageManager := android.1 }
  let ev := ev ++ (if android.1 then [Event.acquire .packageManager] else [])
  match android.2 with
  | .error msg => failStart l ev (.buildAndroidRules msg)
  | .ok tunOptions =>
  let ev := ev ++ [Event.tunNew tunOptions]
  match P.tunNew tunOptions with
  | .error msg => failStart l ev (.configureTunInterface msg)
  | .ok _ =>
  let ev := ev ++ [Event.acquire .tunIf]
  let stackOptions : StackOptions :=
    { MTU := tunOptions.MTU, Name := tunOptions.Name,
      Inet4Address := tunOptions.Inet4Address, Inet6Address := tunOptions.Inet6Address,
      EndpointIndependentNat := p.options.EndpointIndependentNat,
      UDPTimeout := p.udpTimeout, ForwarderBindInterface := false }
  let stackOptions :=
    if p.options.FileDescriptor > 0 then
      match P.getTunnelName (toInt32 p.options.FileDescriptor) with
      | (tunName, some _) =>
        { stackOptions with Name := tunName, ForwarderBindInterface := true }
      | (_, none) => stackOptions
    else stackOptions
  let l := { l with tunIf := true }
  let ev := ev ++ [Event.newStack p.options.Stack.toLower stackOptions]
  match P.NewStack p.options.Stack.toLower stackOptions with
  | .error msg => failStart l ev (.newStack msg)
  | .ok _ =>
  let l := { l with tunStack := true }
  let ev := ev ++ [Event.acquire .tunStack]
  match P.startStack with
  | .error msg => failStart l ev (.startStack msg)
  | .ok _ =>
  let ev := ev ++ [Event.start .tunStack]
  let addr := P.describe p.tunName tunOptions.Inet4Address tunOptions.Inet6Address
    p.tunMTU p.options.AutoRoute p.options.Stack
  (.ok { l with addr := addr }, ev)

/-- Go `New(options, tcpIn, udpIn)`: the listener or the error, and the
events caused. -/
def New (P : TunPlatform) (options : Tun) : Except NewError Listener × List Event :=
  match NewPrepare P options with
  | .error e => (.error e, [])
  | .ok p => NewStart P p

/-- A platform on which every call of the start sequence succeeds: not
darwin, no android rules, UDP timeout 300 seconds, no hijack entry parses. -/
def okPlatform : TunPlatform where
  darwin := false
  tunCalculateInterfaceName name := name
  defaultUDPTimeout := 300
  ParseAddrPort _ := .error "unsupported"
  NewNetworkUpdateMonitor := .ok ()
  startNetworkUpdateMonitor := .ok ()
  NewDefaultInterfaceMonitor := .ok ()
  startDefaultInterfaceMonitor := .ok ()
  buildAndroidRules o := (false, .ok o)
  tunNew _ := .ok ()
  getTunnelName _ := ("", none)
  NewStack _ _ := .ok ()
  startStack := .ok ()
  describe name _ _ _ _ _ := name

/-- Options with every list empty and every number zero. -/
def emptyTun : Tun where
  Enable := true
  Device := "tun0"
  Stack := "gVisor"
  DNSHijack := []
  AutoRoute := true
  AutoDetectInterface := true
  MTU := 0
  Inet4Address := []
  Inet6Address := []
  StrictRoute := false
  Inet4RouteAddress := []
  Inet6RouteAddress := []
  IncludeUID := []
  IncludeUIDRange := []
  ExcludeUID := []
  ExcludeUIDRange := []
  IncludeAndroidUser := []
  IncludePackage := []
  ExcludePackage := []
  EndpointIndependentNat := false
  UDPTimeout := 0
  FileDescriptor := 0

/-! ## `listener/sing_tun/server.go`: `ConnectTun` -/

/-- What `ConnectTun` has computed when it allocates the listener: the UDP
timeout and the hijack set. -/
structure ConnectPrepared where
  options : Tun
  udpTimeout : Int
  dnsAdds : List AddrPort
  deriving DecidableEq, Repr

/-- Go `ConnectTun` up to the allocation of the listener. Its hijack loops are
written out a second time in the source, with the same text as in `New`. -/
def ConnectPrepare (P : TunPlatform) (options : Tun) : Except NewError ConnectPrepared :=
  let udpTimeout := if options.UDPTimeout ≠ 0 then options.UDPTimeout else P.defaultUDPTimeout
  match parseDnsHijack P options.DNSHijack [] with
  | .error e => .error e
  | .ok dnsAdds =>
    let dnsAdds := dnsAdds ++ options.Inet4Address.map (fun a => ⟨a.ip.Next, 53⟩)
    let dnsAdds := dnsAdds ++ options.Inet6Address.map (fun a => ⟨a.ip.Next, 53⟩)
    .ok { options := options, udpTimeout := udpTimeout, dnsAdds := dnsAdds }

/-- Go `ConnectTun` from the allocation of the listener on. `libTunNew` is the
library's `tun.New`, called on options that only carry the file descriptor
and the MTU. -/
def ConnectStart (P : TunPlatform) (libTunNew : TunOptions → Except String Unit)
    (p : ConnectPrepared) : Except NewError Listener × List Event :=
  let l : Listener :=
    { closed := false, options := p.options,
      handler := { UDPTimeout := p.udpTimeout, DnsAdds := p.dnsAdds },
      tunName := "", addr := "", tunIf := false, tunStack := false,
      networkUpdateMonitor := false, defaultInterfaceMonitor := false,
      packageManager := false }
  let tunOptions : TunOptions :=
    { Name := "", MTU := p.options.MTU, Inet4Address := [], Inet6Address := [],
      AutoRoute := false, StrictRoute := false, Inet4RouteAddress := [],
      Inet6RouteAddress := [], IncludeUID := [], ExcludeUID := [], IncludeAndroidUser := [],
      IncludePackage := [], ExcludePackage := [],
      FileDescriptor := p.options.FileDescriptor, TableIndex := 0 }
  let ev := [Event.tunNew tunOptions]
  match libTunNew tunOptions with
  | .error msg => failStart l ev (.configureTunInterface msg)
  | .ok _ =>
  let ev := ev ++ [Event.acquire .tunIf]
  let stackOptions : StackOptions :=
    { MTU := p.options.MTU, Name := p.options.Device,
      Inet4Address := p.options.Inet4Address, Inet6Address := p.options.Inet6Address,
      EndpointIndependentNat := p.options.EndpointIndependentNat,
      UDPTimeout := p.udpTimeout, ForwarderBindInterface := false }
  let stackOptions :=
    match P.getTunnelName (toInt32 p.options.FileDescriptor) with
    | (tunName, some _) => { stackOptions with Name := tunName, ForwarderBindInterface := true }
    | (_, none) => stackOptions
  let l := { l with tunIf := true }
  let ev := ev ++ [Event.newStack p.options.Stack.toLower stackOptions]
  match P.NewStack p.options.Stack.toLower stackOptions with
  | .error msg => failStart l ev (.newStack msg)
  | .ok _ =>
  let l := { l with tunStack := true }
  let ev := ev ++ [Event.acquire .tunStack]
  match P.startStack with
  | .error msg => failStart l ev (.startStack msg)
  | .ok _ =>
  let ev := ev ++ [Event.start .tunStack]
  let addr := P.describe stackOptions.Name stackOptions.Inet4Address stackOptions.Inet6Address
    stackOptions.MTU p.options.AutoRoute p.options.Stack
  (.ok { l with addr := addr }, ev)

/-- Go `ConnectTun(options, tcpIn, udpIn)`. -/
def ConnectTun (P : TunPlatform) (libTunNew : TunOptions → Except String Unit)
    (options : Tun) : Except NewError Listener × List Event :=
  match ConnectPrepare P options with
  | .error e => (.error e, [])
  | .ok p => ConnectStart P libTunNew p

/-! ### A reference `netip.ParseAddrPort` for IPv4

Go `netip.ParseAddrPort` and `netip.ParsePrefix` on texts whose address is an
IPv4 literal; any other text is rejected here. They instantiate the
collaborators in closed examples. -/

/-- One field of an IPv4 literal: one to three digits, no leading zero, at
most 255. -/
def parseOctet (cs : List Char) : Option Nat :=
  if cs.length = 0 ∨ cs.length > 3 then none
  else if cs.length > 1 ∧ cs.head? = some '0' then none
  else
    match parseUintLoop 255 cs 0 with
    | .ok v => some v
    | .error _ => none

/-- Go `netip.ParseAddr` on an IPv4 literal: four fields split on dots. -/
def parseIPv4Ref (cs : List Char) : Option Addr :=
  match (splitOnChar '.' cs).map parseOctet with
  | [some a, some b, some c, some d] => some (.v4 (((a * 256 + b) * 256 + c) * 256 + d))
  | _ => none

/-- The reference `netip.ParseAddrPort`: `a.b.c.d:port`. -/
def parseAddrPortRef (s : String) : Except String AddrPort :=
  match lastIndexByte ':' s.data with
  | none => .error "not an ip:port"
  | some i =>
    let ip := s.data.take i
    let port := s.data.drop (i + 1)
    if ip.length = 0 then .error "no IP"
    else if port.length = 0 then .error "no port"
    else
      match ParseUint (String.mk port) 16 with
      | .error _ => .error "invalid port"
      | .ok port16 =>
        match parseIPv4Ref ip with
        | none => .error "unable to parse IP"
        | some a => .ok ⟨a, port16⟩

/-- The platform `okPlatform` with the reference `netip.ParseAddrPort`. -/
def refPlatform : TunPlatform :=
  { okPlatform with ParseAddrPort := parseAddrPortRef }

/-- The listener of a successful construction. -/
def listenerOf (r : Except NewError Listener × List Event) : Option Listener :=
  match r.1 with
  | .ok l => some l
  | .error _ => none

/-- The resources acquired in a run, in order. -/
def acquiredOf (events : List Event) : List Resource :=
  events.filterMap (fun e => match e with
    | .acquire r => some r
    | _ => none)

/-- The resources released in a run, in order. -/
def releasedOf (events : List Event) : List Resource :=
  events.filterMap (fun e => match e with
    | .release r => some r
    | _ => none)

/-! ## `listener/sing_tun/server.go`: `FlushDefaultInterface` -/

/-- The process-wide state `FlushDefaultInterface` writes: the atomic string
`dialer.DefaultInterface` and the number of `iface.FlushCache()` calls. -/
structure DialerState where
  DefaultInterface : String
  cacheFlushes : Nat
  deriving DecidableEq, Repr

/-- The destinations probed, in order: `netip.IPv4Unspecified()`,
`netip.IPv6Unspecified()`, `netip.MustParseAddr("1.1.1.1")`. -/
def probeDestinations : List Addr := [.v4 0, .v6 0 "", .v4 16843009]

/-- The `for _, destination := range ...` loop of `FlushDefaultInterface`.
`monitor` is `l.defaultInterfaceMonitor.DefaultInterfaceName`; the second
component lists the destinations consulted. -/
def flushProbe (l : Listener) (monitor : Addr → String) :
    List Addr → DialerState → List Addr → DialerState × List Addr
  | [], st, consulted => (st, consulted)
  | destination :: rest, st, consulted =>
    let autoDetectInterfaceName := monitor destination
    if autoDetectInterfaceName = l.tunName then
      flushProbe l monitor rest st (consulted ++ [destination])
    else if autoDetectInterfaceName = "" ∨ autoDetectInterfaceName = "<nil>" then
      flushProbe l monitor rest st (consulted ++ [destination])
    else
      let targetInterface := autoDetectInterfaceName
      if st.DefaultInterface ≠ targetInterface then
        ({ DefaultInterface := targetInterface, cacheFlushes := st.cacheFlushes + 1 },
          consulted ++ [destination])
      else (st, consulted ++ [destination])

/-- Go `(l *Listener).FlushDefaultInterface()`. -/
def Listener.FlushDefaultInterface (l : Listener) (monitor : Addr → String)
    (st : DialerState) : DialerState × List Addr :=
  if l.options.AutoDetectInterface then flushProbe l monitor probeDestinations st []
  else (st, [])

/-- The platform `okPlatform` on which starting the packet stack fails. -/
def stackStartFails : TunPlatform :=
  { okPlatform with startStack := .error "start failed" }

/-- The text the `// parse dns hijack` loop hands to `netip.ParseAddrPort` for
the entry `d`: what follows the first `://` when there is one, with the first
`any` replaced by `0.0.0.0`. -/
def hijackText (d : String) : String :=
  String.mk (replaceFirst "any".data "0.0.0.0".data
    (match cutSub "://".data d.data with
      | some (_, after) => after
      | none => d.data))

/-- Go `Addr.BitLen()`. -/
def Addr.BitLen : Addr → Nat
  | .zero => 0
  | .v4 _ => 32
  | .v6 _ _ => 128

/-- Go `Addr.withoutZone()`. -/
def Addr.withoutZone : Addr → Addr
  | .v6 a _ => .v6 a ""
  | a => a

/-- The IPv4 address `a.b.c.d`. -/
def ipv4 (a b c d : Nat) : Addr :=
  .v4 (((a * 256 + b) * 256 + c) * 256 + d)

/-- Go `Prefix.IsValid()`. A `Cidr` whose address is not the zero `Addr` and
whose bit count fits the address stands for the Go prefix with these two
fields; every other `Cidr` stands for an invalid Go prefix with that address. -/
def Cidr.IsValid (p : Cidr) : Bool :=
  decide (p.ip ≠ .zero) && decide (p.bits ≤ p.ip.BitLen)

/-- Go `netip.PrefixFrom(ip, bits)` for `bits ≥ 0`. -/
def PrefixFrom (ip : Addr) (bits : Nat) : Cidr :=
  ⟨ip.withoutZone, bits⟩

/-- Go `Prefix.Masked()`: the prefix with the host bits of its address cleared,
the zero prefix for an invalid one. -/
def Cidr.Masked (p : Cidr) : Cidr :=
  if p.IsValid then
    match p.ip with
    | .zero => ⟨.zero, 0⟩
    | .v4 a => ⟨.v4 (a / 2 ^ (32 - p.bits) * 2 ^ (32 - p.bits)), p.bits⟩
    | .v6 a _ => ⟨.v6 (a / 2 ^ (128 - p.bits) * 2 ^ (128 - p.bits)) "", p.bits⟩
  else ⟨.zero, 0⟩

/-- The reference `netip.ParsePrefix` on `a.b.c.d/bits`. -/
def parsePrefixRef (s : String) : Except String Cidr :=
  match lastIndexByte '/' s.data with
  | none => .error "no '/'"
  | some i =>
    match parseIPv4Ref (s.data.take i) with
    | none => .error "unable to parse IP"
    | some ip =>
      let bitsStr := s.data.drop (i + 1)
      if bitsStr.length = 0 then .error "bad bits after slash"
      else if bitsStr.length > 1 ∧ bitsStr.head? = some '0' then
        .error "bad bits after slash"
      else
        match parseUintLoop (2 ^ 63 - 1) bitsStr 0 with
        | .error _ => .error "bad bits after slash"
        | .ok bits =>
          if bits > 32 then .error "prefix length out of range"
          else .ok (PrefixFrom ip bits)

/-- The reference `net.ParseCIDR` on `a.b.c.d/bits`: the network of the
prefix. -/
def parseCIDRRef (s : String) : Except String Cidr :=
  match parsePrefixRef s with
  | .error e => .error e
  | .ok p => .ok p.Masked

/-- The reference `net.ParseIP` on `a.b.c.d`. -/
def parseIPRef (s : String) : Option Addr :=
  parseIPv4Ref s.data

/-! ## `config/config.go`: DNS settings -/

/-- Go `C.DNSMode`; `config.go` names one of its values, `C.DNSFakeIP`. -/
inductive DNSMode where
  | DNSFakeIP
  | other (tag : Nat)
  deriving DecidableEq, Repr

/-- Go `config.RawFallbackFilter`. -/
structure RawFallbackFilter where
  GeoIP : Bool
  GeoIPCode : String
  IPCIDR : List String
  Domain : List String
  deriving DecidableEq, Repr

/-- Go `config.RawDNS`. `NameServerPolicy` lists the entries of the Go map in
the order in which the `range` loop of `parseNameServerPolicy` visits them. -/
structure RawDNS where
  Enable : Bool
  IPv6 : Option Bool
  UseHosts : Bool
  NameServer : List String
  Fallback : List String
  FallbackFilter : RawFallbackFilter
  Listen : String
  EnhancedMode : DNSMode
  FakeIPRange : String
  FakeIPFilter : List String
  DefaultNameserver : List String
  NameServerPolicy : List (String × String)
  SearchDomains : List String
  deriving DecidableEq, Repr

/-- Go `config.Profile`. -/
structure Profile where
  StoreSelected : Bool
  StoreFakeIP : Bool
  deriving DecidableEq, Repr

/-- Go `config.FallbackFilter`; a `*net.IPNet` is the network as a `Cidr`. -/
structure FallbackFilter where
  GeoIP : Bool
  GeoIPCode : String
  IPCIDR : List Cidr
  Domain : List String
  deriving DecidableEq, Repr

/-- Go `fakeip.Options` as filled by `parseDNS`; the host trie is the list of
the domains inserted, in order, `none` for the nil trie. -/
structure FakeipOptions where
  IPNet : Cidr
  Size : Nat
  Host : Option (List String)
  Persistence : Bool
  deriving DecidableEq, Repr

/-- Go `config.DNS`; `Pool` is `*fakeip.Pool` and `H` is `*trie.DomainTrie`,
`none` being nil. -/
structure DNS (Pool H : Type) where
  Enable : Bool
  IPv6 : Bool
  NameServer : List CffCore.NameServer
  Fallback : List CffCore.NameServer
  FallbackFilter : CffCore.FallbackFilter
  Listen : String
  EnhancedMode : DNSMode
  DefaultNameserver : List CffCore.NameServer
  FakeIPRange : Option Pool
  Hosts : Option H
  NameServerPolicy : String → Option CffCore.NameServer
  SearchDomains : List String

/-- The library calls of `parseDNS` and of the functions it calls. -/
structure DnsCollab (Pool : Type) where
  /-- Go `url.Parse`. -/
  urlParse : String → Except String URL
  /-- Go `URL.String`. -/
  urlString : URL → String
  /-- Go `trie.ValidAndSplitDomain(domain)`, its `valid` result. -/
  validDomain : String → Bool
  /-- Go `net.ParseIP(s)`, `none` being nil. -/
  ParseIP : String → Option Addr
  /-- Go `netip.ParsePrefix(s)`. -/
  ParsePrefix : String → Except String Cidr
  /-- Go `net.ParseCIDR(s)`, its `*net.IPNet` result. -/
  ParseCIDR : String → Except String Cidr
  /-- Go `fakeip.New(options)`. -/
  fakeipNew : FakeipOptions → Except String Pool

/-- The errors `parseDNS` returns, one per site. -/
inductive DNSError where
  /-- Text `if DNS configuration is turned on, NameServer cannot be empty`. -/
  | nameServerEmpty
  /-- An error of `parseNameServer`. -/
  | nameServer (e : NameServerError)
  /-- Text `DNS ResoverRule invalid domain: domain`. -/
  | invalidDomain (domain : String)
  /-- Text `default nameserver should have at least one nameserver`. -/
  | defaultNameserverEmpty
  /-- Text `default nameserver should be pure IP`. -/
  | defaultNameserverNotIP
  /-- The error of `net.ParseCIDR(cfg.FakeIPRange)`. -/
  | fakeIPRange (msg : String)
  /-- The error of `fakeip.New`. -/
  | fakeipNew (msg : String)
  /-- Text `search domains should not start or end with '.'`. -/
  | searchDomainDot
  /-- Text `search domains are for ipv4 only and should not contain ports`. -/
  | searchDomainPort
  deriving DecidableEq, Repr

/-- The error of `parseFallbackIPCIDR`: text
`DNS FallbackIP[idx] format error: msg`. -/
structure FallbackIPError where
  idx : Nat
  msg : String
  deriving DecidableEq, Repr

/-- The `range nsPolicy` loop of `parseNameServerPolicy`, `policy` being the
map built so far. A successful `parseNameServer` of one entry returns one
nameserver, so `nameservers[0]` exists. -/
def parseNameServerPolicyFrom {Pool : Type} (D : DnsCollab Pool) :
    List (String × String) → (String → Option NameServer) →
    Except DNSError (String → Option NameServer)
  | [], policy => .ok policy
  | (domain, server) :: rest, policy =>
    match parseNameServer D.urlParse D.urlString [server] with
    | .error e => .error (.nameServer e)
    | .ok nameservers =>
      if !D.validDomain domain then .error (.invalidDomain domain)
      else
        match nameservers.head? with
        | none => .ok policy
        | some ns => parseNameServerPolicyFrom D rest (mapSet policy domain ns)

/-- Go `parseNameServerPolicy(nsPolicy)`. -/
def parseNameServerPolicy {Pool : Type} (D : DnsCollab Pool)
    (nsPolicy : List (String × String)) : Except DNSError (String → Option NameServer) :=
  parseNameServerPolicyFrom D nsPolicy mapEmpty

/-- The `for idx, ip := range ips` loop of `parseFallbackIPCIDR`, from index
`idx` on. -/
def parseFallbackIPCIDRFrom (ParseCIDR : String → Except String Cidr) :
    Nat → List String → List Cidr → Except FallbackIPError (List Cidr)
  | _, [], ipNets => .ok ipNets
  | idx, ip :: rest, ipNets =>
    match ParseCIDR ip with
    | .error msg => .error ⟨idx, msg⟩
    | .ok ipnet => parseFallbackIPCIDRFrom ParseCIDR (idx + 1) rest (ipNets ++ [ipnet])

/-- Go `parseFallbackIPCIDR(ips)`. -/
def parseFallbackIPCIDR (ParseCIDR : String → Except String Cidr) (ips : List String) :
    Except FallbackIPError (List Cidr) :=
  parseFallbackIPCIDRFrom ParseCIDR 0 ips []

/-- The test of the loop `for _, ns := range dnsCfg.DefaultNameserver`:
`net.SplitHostPort(ns.Addr)` succeeds and `net.ParseIP(host)` is not nil. -/
def pureIP (ParseIP : String → Option Addr) (ns : NameServer) : Bool :=
  match SplitHostPort ns.Addr with
  | .error _ => false
  | .ok (host, _) => (ParseIP host).isSome

/-- Go `strings.HasSuffix` on characters. -/
def hasSuffixChars (s suffix : List Char) : Bool :=
  hasPrefixChars s.reverse suffix.reverse

/-- The `for _, domain := range cfg.SearchDomains` loop of `parseDNS`: the
error it returns, if any. -/
def searchDomainsCheck : List String → Option DNSError
  | [] => none
  | domain :: rest =>
    if hasPrefixChars domain.data ['.'] || hasSuffixChars domain.data ['.'] then
      some .searchDomainDot
    else if containsChar domain ':' then some .searchDomainPort
    else searchDomainsCheck rest

/-- The state of package `tunnel` that package `config` writes and reads:
the prefix that `T.SetFakeIPRange` stores and `T.FakeIPRange()` returns. The
package lies outside the embedded sources; the two calls are taken as the
setter and the getter of one variable. -/
structure TunnelState where
  fakeIPRange : Cidr
  deriving DecidableEq, Repr

/-- The `if cfg.EnhancedMode == C.DNSFakeIP` block of `parseDNS`: the pool
stored in `dnsCfg.FakeIPRange`, nil outside fake-ip mode. -/
def fakeIPPool {Pool : Type} (D : DnsCollab Pool) (cfg : RawDNS) (profile : Profile) :
    Except DNSError (Option Pool) :=
  if cfg.EnhancedMode = .DNSFakeIP then
    match D.ParseCIDR cfg.FakeIPRange with
    | .error msg => .error (.fakeIPRange msg)
    | .ok ipnet =>
      let host := if cfg.FakeIPFilter.length ≠ 0 then some cfg.FakeIPFilter else none
      match D.fakeipNew
        { IPNet := ipnet, Size := 1000, Host := host, Persistence := profile.StoreFakeIP } with
      | .error msg => .error (.fakeipNew msg)
      | .ok pool => .ok (some pool)
  else .ok none

/-- Go `parseDNS(rawCfg, hosts)`: `cfg` is `rawCfg.DNS`, `rawIPv6` is
`rawCfg.IPv6`, `profile` is `rawCfg.Profile`. The result is paired with the
state of package `tunnel` after the call. -/
def parseDNS {Pool H : Type} (D : DnsCollab Pool) (cfg : RawDNS) (rawIPv6 : Bool)
    (profile : Profile) (hosts : H) (st : TunnelState) :
    Except DNSError (DNS Pool H) × TunnelState :=
  if cfg.Enable ∧ cfg.NameServer.length = 0 then (.error .nameServerEmpty, st)
  else
  match parseNameServer D.urlParse D.urlString cfg.NameServer with
  | .error e => (.error (.nameServer e), st)
  | .ok nameServer =>
  match parseNameServer D.urlParse D.urlString cfg.Fallback with
  | .error e => (.error (.nameServer e), st)
  | .ok fallback =>
  match parseNameServerPolicy D cfg.NameServerPolicy with
  | .error e => (.error e, st)
  | .ok policy =>
  if cfg.DefaultNameserver.length = 0 then (.error .defaultNameserverEmpty, st)
  else
  match parseNameServer D.urlParse D.urlString cfg.DefaultNameserver with
  | .error e => (.error (.nameServer e), st)
  | .ok defaultNameserver =>
  if !defaultNameserver.all (pureIP D.ParseIP) then (.error .defaultNameserverNotIP, st)
  else
  let fakeIPRange : Cidr :=
    match D.ParsePrefix cfg.FakeIPRange with
    | .ok p => p
    | .error _ => ⟨.zero, 0⟩
  let st : TunnelState := { fakeIPRange := fakeIPRange }
  match fakeIPPool D cfg profile with
  | .error e => (.error e, st)
  | .ok pool =>
  let ipcidr : List Cidr :=
    match parseFallbackIPCIDR D.ParseCIDR cfg.FallbackFilter.IPCIDR with
    | .ok fallbackip => fallbackip
    | .error _ => []
  let fallbackFilter : FallbackFilter :=
    { GeoIP := cfg.FallbackFilter.GeoIP, GeoIPCode := cfg.FallbackFilter.GeoIPCode,
      IPCIDR := ipcidr, Domain := cfg.FallbackFilter.Domain }
  match searchDomainsCheck cfg.SearchDomains with
  | some e => (.error e, st)
  | none =>
    (.ok
      { Enable := cfg.Enable, IPv6 := cfg.IPv6.getD rawIPv6, NameServer := nameServer,
        Fallback := fallback, FallbackFilter := fallbackFilter, Listen := cfg.Listen,
        EnhancedMode := cfg.EnhancedMode, DefaultNameserver := defaultNameserver,
        FakeIPRange := pool, Hosts := if cfg.UseHosts then some hosts else none,
        NameServerPolicy := policy, SearchDomains := cfg.SearchDomains }, st)

/-! ## `config/config.go`: TUN settings -/

/-- Go `config.RawTun`. -/
structure RawTun where
  Enable : Bool
  Device : String
  Stack : String
  DNSHijack : List String
  AutoRoute : Bool
  AutoDetectInterface : Bool
  RedirectToTun : List String
  MTU : Nat
  Inet6Address : List Cidr
  StrictRoute : Bool
  Inet4RouteAddress : List Cidr
  Inet6RouteAddress : List Cidr
  Inet4RouteExcludeAddress : List Cidr
  Inet6RouteExcludeAddress : List Cidr
  IncludeUID : List Nat
  IncludeUIDRange : List String
  ExcludeUID : List Nat
  ExcludeUIDRange : List String
  IncludeAndroidUser : List Int
  IncludePackage : List String
  ExcludePackage : List String
  EndpointIndependentNat : Bool
  UDPTimeout : Int
  FileDescriptor : Int
  deriving DecidableEq, Repr

/-- The fields of Go `config.General` that `parseTun` reads or writes. -/
structure General where
  IPv6 : Bool
  Tun : Tun
  deriving DecidableEq, Repr

/-- Go `netip.MustParsePrefix("198.18.0.1/16")`. -/
def defaultFakeIPRange : Cidr := ⟨ipv4 198 18 0 1, 16⟩

/-- Go `parseTun(rawTun, general)`: `general` after the call (the error
returned is always nil). `st` is the state of package `tunnel`, `verifyIP6`
the result of the call `verifyIP6()`. -/
def parseTun (st : TunnelState) (verifyIP6 : Bool) (rawTun : RawTun) (general : General) :
    General :=
  let tunAddress := st.fakeIPRange
  let tunAddress := if !tunAddress.IsValid then defaultFakeIPRange else tunAddress
  let tunAddress := PrefixFrom tunAddress.ip 30
  let inet6Address := if !general.IPv6 || !verifyIP6 then [] else rawTun.Inet6Address
  { general with
    Tun :=
      { Enable := rawTun.Enable
        Device := rawTun.Device
        Stack := rawTun.Stack
        DNSHijack := rawTun.DNSHijack
        AutoRoute := rawTun.AutoRoute
        AutoDetectInterface := rawTun.AutoDetectInterface
        MTU := rawTun.MTU
        Inet4Address := [tunAddress]
        Inet6Address := inet6Address
        StrictRoute := rawTun.StrictRoute
        Inet4RouteAddress := rawTun.Inet4RouteAddress
        Inet6RouteAddress := rawTun.Inet6RouteAddress
        IncludeUID := rawTun.IncludeUID
        IncludeUIDRange := rawTun.IncludeUIDRange
        ExcludeUID := rawTun.ExcludeUID
        ExcludeUIDRange := rawTun.ExcludeUIDRange
        IncludeAndroidUser := rawTun.IncludeAndroidUser
        IncludePackage := rawTun.IncludePackage
        ExcludePackage := rawTun.ExcludePackage
        EndpointIndependentNat := rawTun.EndpointIndependentNat
        UDPTimeout := rawTun.UDPTimeout
        FileDescriptor := rawTun.FileDescriptor } }

/-! ### Example inputs -/

/-- Reference collaborators for `parseDNS`: the reference URL and address
parsers, every domain valid, the pool being its options. -/
def refDns : DnsCollab FakeipOptions where
  urlParse := urlParseRef
  urlString := urlStringRef
  validDomain _ := true
  ParseIP := parseIPRef
  ParsePrefix := parsePrefixRef
  ParseCIDR := parseCIDRRef
  fakeipNew o := .ok o

/-- The `RawDNS` defaults of `UnmarshalRawConfig`. -/
def defaultRawDNS : RawDNS where
  Enable := false
  IPv6 := none
  UseHosts := true
  NameServer := []
  Fallback := []
  FallbackFilter := { GeoIP := true, GeoIPCode := "CN", IPCIDR := [], Domain := [] }
  Listen := ""
  EnhancedMode := .other 0
  FakeIPRange := "198.18.0.1/16"
  FakeIPFilter := []
  DefaultNameserver := ["114.114.114.114", "8.8.8.8"]
  NameServerPolicy := []
  SearchDomains := []

/-- The `RawDNS` defaults with the single default nameserver `dns.google`. -/
def hostnameDefaultDNS : RawDNS :=
  { defaultRawDNS with DefaultNameserver := ["dns.google"] }

/-- The `RawTun` defaults of `UnmarshalRawConfig`. -/
def defaultRawTun : RawTun where
  Enable := false
  Device := ""
  Stack := "gVisor"
  DNSHijack := ["0.0.0.0:53"]
  AutoRoute := true
  AutoDetectInterface := true
  RedirectToTun := []
  MTU := 0
  Inet6Address := [⟨.v6 337618003249386967822528969801788817409 "", 126⟩]
  StrictRoute := false
  Inet4RouteAddress := []
  Inet6RouteAddress := []
  Inet4RouteExcludeAddress := []
  Inet6RouteExcludeAddress := []
  IncludeUID := []
  IncludeUIDRange := []
  ExcludeUID := []
  ExcludeUIDRange := []
  IncludeAndroidUser := []
  IncludePackage := []
  ExcludePackage := []
  EndpointIndependentNat := false
  UDPTimeout := 0
  FileDescriptor := 0

/-- The DNS settings of a successful `parseDNS`. -/
def dnsOf {Pool H : Type} (r : Except DNSError (DNS Pool H) × TunnelState) :
    Option (DNS Pool H) :=
  match r.1 with
  | .ok d => some d
  | .error _ => none

/-- The error of a failed `parseDNS`. -/
def dnsErrorOf {Pool H : Type} (r : Except DNSError (DNS Pool H) × TunnelState) :
    Option DNSError :=
  match r.1 with
  | .ok _ => none
  | .error e => some e

/-! ## The proxy-group resolver

`parseProxies` calls `proxyGroupsDagSort(groupsConfig)`, which is declared in
a file of package `config` that is not part of the embedded sources. -/

section DagSort

variable {M : Type} (nameOf : M → Option String) (membersOf : M → List String)

/-- Modelled from the spec: the edge of the resolver's graph, "group →
member-group": the declaration `g` lists the name of the declaration `h`
among its members. -/
def refersTo (g h : M) : Bool :=
  (membersOf g).any (fun n => nameOf h == some n)

/-- Modelled from the spec: the members of `g` "are already resolved (a proxy,
a provider, or a previously resolved group)": no member of `g` names a group
that is still unresolved. -/
def isResolved (unresolved : List M) (g : M) : Bool :=
  unresolved.all (fun h => !refersTo nameOf membersOf g h)

/-- Modelled from the spec: the passes of the resolver. Each pass extracts,
in declared order, the unresolved groups whose members are already resolved;
"if a pass makes no progress while unresolved groups remain, fail, naming
every group left in the stuck set". The first argument bounds the number of
passes. -/
def dagSortLoop : Nat → List M → List M → Except (List M) (List M)
  | 0, resolved, unresolved =>
    if unresolved.isEmpty then .ok resolved else .error unresolved
  | fuel + 1, resolved, unresolved =>
    if unresolved.isEmpty then .ok resolved
    else if (unresolved.filter (isResolved nameOf membersOf unresolved)).isEmpty then
      .error unresolved
    else
      dagSortLoop fuel
        (resolved ++ unresolved.filter (isResolved nameOf membersOf unresolved))
        (unresolved.filter (fun g => !isResolved nameOf membersOf unresolved g))

/-- Modelled from the spec: section 4.2, "Proxy Group DAG Resolver". Go
`proxyGroupsDagSort(groupsConfig)` is called by `parseProxies` but is not
part of the embedded sources. The result is the instantiation order, or the
groups left in the stuck set. Every pass that does not end the run extracts a
group, so one pass per declaration is enough. -/
def proxyGroupsDagSort (groupsConfig : List M) : Except (List M) (List M) :=
  dagSortLoop nameOf membersOf groupsConfig.length [] groupsConfig

/-- The reference graph of a declaration list: `g` and `h` are declared and
`g` lists the name of `h` among its members. -/
def dependsOn (groupsConfig : List M) (g h : M) : Prop :=
  g ∈ groupsConfig ∧ h ∈ groupsConfig ∧ refersTo nameOf membersOf g h = true

end DagSort

/-- Modelled from the spec: the collaborators `C` with `proxyGroupsDagSort`
being the resolver of section 4.2; `membersOf` reads the member names of a
declaration and `render` writes the error that names the stuck groups. -/
def withDagSort {M A G P : Type} (C : ProxyCollab M A G P) (membersOf : M → List String)
    (render : List M → String) : ProxyCollab M A G P :=
  { C with
    proxyGroupsDagSort := fun groupsConfig =>
      match proxyGroupsDagSort C.mappingName membersOf groupsConfig with
      | .ok sorted => .ok sorted
      | .error stuck => .error (render stuck) }

/-- A group declaration reduced to its name and its member names. -/
structure GroupDecl where
  name : String
  proxies : List String
  deriving DecidableEq, Repr

/-- The names of the declarations, separated by commas. -/
def joinNames : List GroupDecl → String
  | [] => ""
  | [g] => g.name
  | g :: rest => g.name ++ ", " ++ joinNames rest

/-- Example collaborators over `GroupDecl`: a proxy or provider is its name,
a group is built from its declaration once every member is a key of the proxy
map, and `proxyGroupsDagSort` leaves the declared order. -/
def declaredOrderCollab : ProxyCollab GroupDecl String String String where
  ParseProxy m := .ok m.name
  proxyName a := a
  mappingName m := some m.name
  proxyGroupsDagSort gs := .ok gs
  ReservedName := "default"
  ParseProxyProvider n _ := .ok n
  providerName p := p
  providerInitial _ := .ok ()
  providerIsCompatible _ := false
  ParseProxyGroup m proxies _ :=
    if m.proxies.all (fun n => (proxies n).isSome) then .ok m.name
    else .error "proxy not found"
  groupName g := g

/-- The example collaborators with the resolver of section 4.2. -/
def dagCollab : ProxyCollab GroupDecl String String String :=
  withDagSort declaredOrderCollab (fun m => m.proxies) joinNames

/-- The declarations A→{B,C}, B→{DIRECT}, C→{B,DIRECT}. -/
def dagExample : List GroupDecl :=
  [⟨"A", ["B", "C"]⟩, ⟨"B", ["DIRECT"]⟩, ⟨"C", ["B", "DIRECT"]⟩]

/-- The declarations A→{B}, B→{A}. -/
def cycleExample : List GroupDecl :=
  [⟨"A", ["B"]⟩, ⟨"B", ["A"]⟩]

/-! ## `listener/sing_tun/server.go`: what the interface is given -/

/-- The options handed to `tun.New` in a run. -/
def tunNewOptionsOf (events : List Event) : List TunOptions :=
  events.filterMap (fun e => match e with
    | .tunNew o => some o
    | _ => none)

/-- The UID set in the words of the specification: the literal UIDs as
singleton ranges, followed by the parsed range strings. -/
def uidSetSpec (uids : List Nat) (rangeList : List String) : Except RangeError (List UidRange) :=
  match parseRange [] rangeList with
  | .error e => .error e
  | .ok parsed => .ok (uids.map (fun u => ⟨u, u⟩) ++ parsed)

/-- The number written by a text, in the words of the specification: a
non-empty text of decimal digits stands for its value, any other text for no
number. -/
def decimalNumber (cs : List Char) : Option Nat :=
  if cs = [] then none
  else if cs.all (fun c => (digitValue c).isSome) then
    some (cs.foldl (fun n c => n * 10 + (digitValue c).getD 0) 0)
  else none

/-- The range written by a string, in the words of the specification: the
text before the first `:` is the number `r.Start`, the text after it the
number `r.End`, both at most `2^32 - 1`. -/
def rangeWritten (s : String) (r : UidRange) : Prop :=
  ∃ a b : List Char, s.data = a ++ ':' :: b ∧ ':' ∉ a ∧
    decimalNumber a = some r.Start ∧ decimalNumber b = some r.End ∧
    r.Start ≤ 2 ^ 32 - 1 ∧ r.End ≤ 2 ^ 32 - 1

/-- Options with no device name, no MTU and no UDP timeout. -/
def unsetTun : Tun :=
  { emptyTun with Device := "" }

/-- Options with literal UIDs and UID ranges on both sides. -/
def uidExampleTun : Tun where
  Enable := true
  Device := "tun0"
  Stack := "gVisor"
  DNSHijack := []
  AutoRoute := true
  AutoDetectInterface := true
  MTU := 1500
  Inet4Address := []
  Inet6Address := []
  StrictRoute := false
  Inet4RouteAddress := []
  Inet6RouteAddress := []
  IncludeUID := [1000, 0]
  IncludeUIDRange := ["2000:2999", "5:5"]
  ExcludeUID := [1001]
  ExcludeUIDRange := ["3000:3999"]
  IncludeAndroidUser := []
  IncludePackage := []
  ExcludePackage := []
  EndpointIndependentNat := false
  UDPTimeout := 60
  FileDescriptor := 0

/-! ### Example inputs: proxies, providers and DNS -/

/-- Whether a successful `parseProxies` stores the compatible provider, with
the reserved name inside, under `key`; `none` when `parseProxies` failed. -/
def providersCompatibleAt {A G P : Type}
    (r : Except ProxiesError
      ((String → Option (ProxyValue A G)) × (String → Option (ProviderValue P A G))))
    (key : String) : Option Bool :=
  match r with
  | .error _ => none
  | .ok (_, providers) =>
    match providers key with
    | some (.compatible name _) => some (name = key)
    | _ => some false

/-- The `RawDNS` defaults in fake-ip mode, with a skip list. -/
def fakeIPRawDNS : RawDNS :=
  { defaultRawDNS with EnhancedMode := .DNSFakeIP, FakeIPFilter := ["*.lan"] }

/-- The `RawDNS` defaults in fake-ip mode with a fake-ip range that is no CIDR. -/
def badRangeRawDNS : RawDNS :=
  { defaultRawDNS with EnhancedMode := .DNSFakeIP, FakeIPRange := "198.18.0.1" }

/-- The `RawDNS` defaults with a fallback-filter CIDR list whose second entry
is no CIDR. -/
def badFallbackRawDNS : RawDNS :=
  { defaultRawDNS with
    FallbackFilter :=
      { GeoIP := true, GeoIPCode := "CN", IPCIDR := ["10.0.0.0/8", "not-a-cidr"], Domain := [] } }

/-- The `RawDNS` defaults with a well-formed fallback-filter CIDR list. -/
def goodFallbackRawDNS : RawDNS :=
  { defaultRawDNS with
    FallbackFilter :=
      { GeoIP := true, GeoIPCode := "CN", IPCIDR := ["10.0.0.0/8", "172.16.0.0/12"],
        Domain := [] } }

/-! ## `config/config.go`: tunnels -/

/-- Go `unicode.IsSpace(c)`. -/
def isSpace (c : Char) : Bool :=
  let n := c.toNat
  decide (n = 9 ∨ n = 10 ∨ n = 11 ∨ n = 12 ∨ n = 13 ∨ n = 32 ∨ n = 133 ∨ n = 160 ∨
    n = 5760 ∨ (8192 ≤ n ∧ n ≤ 8202) ∨ n = 8232 ∨ n = 8233 ∨ n = 8239 ∨ n = 8287 ∨
    n = 12288)

/-- Go `strings.TrimSpace(s)`. -/
def TrimSpace (s : String) : String :=
  String.mk ((s.data.dropWhile isSpace).reverse.dropWhile isSpace).reverse

/-- Go `config.tunnel` and `config.Tunnel`. -/
structure Tunnel where
  Network : List String
  Address : String
  Target : String
  Proxy : String
  deriving DecidableEq, Repr

/-- The error returns of `Tunnel.UnmarshalYAML`. -/
inductive TunnelError where
  /-- The error of `unmarshal(&inner)`, returned as is. -/
  | unmarshal (msg : String)
  /-- Text `invalid tunnel config tp`. -/
  | invalidConfig (tp : String)
  /-- Text `invalid tunnel network n`. -/
  | invalidNetwork (n : String)
  /-- Text `invalid tunnel target or address addr`. -/
  | invalidAddress (addr : String)
  deriving DecidableEq, Repr

/-- The `// validate network` loop of `UnmarshalYAML`: the error returned for
the first entry that is neither `tcp` nor `udp`. -/
def validateNetwork : List String → Option TunnelError
  | [] => none
  | n :: rest =>
    if n = "tcp" ∨ n = "udp" then validateNetwork rest
    else some (.invalidNetwork n)

/-- The `// validate address and target` loop of `UnmarshalYAML`: the error
returned for the first address that `net.SplitHostPort` rejects. -/
def validateAddresses : List String → Option TunnelError
  | [] => none
  | addr :: rest =>
    match SplitHostPort addr with
    | .error _ => some (.invalidAddress addr)
    | .ok _ => validateAddresses rest

/-- Go `(t *Tunnel).UnmarshalYAML(unmarshal)`: the value stored in `*t`, or
the error. `asString` is the result of `unmarshal(&tp)` (the node decoded as a
string), `asRecord` the result of `unmarshal(&inner)` (the node decoded as a
`tunnel` record). -/
def Tunnel.UnmarshalYAML (asString : Except String String) (asRecord : Except String Tunnel) :
    Except TunnelError Tunnel :=
  match asString with
  | .error _ =>
    match asRecord with
    | .error msg => .error (.unmarshal msg)
    | .ok inner => .ok inner
  | .ok tp =>
    let parts := (stringsSplit tp ',').map TrimSpace
    if parts.length ≠ 4 then .error (.invalidConfig tp)
    else
      let network := stringsSplit (parts.getD 0 "") '/'
      match validateNetwork network with
      | some e => .error e
      | none =>
        let address := parts.getD 1 ""
        let target := parts.getD 2 ""
        match validateAddresses [address, target] with
        | some e => .error e
        | none =>
          .ok { Network := network, Address := address, Target := target,
                Proxy := parts.getD 3 "" }

/-! ## `config/config.go`: `ParseRawConfig` -/

/-- Go `config.Experimental`. -/
structure Experimental where
  UDPFallbackMatch : Bool
  deriving DecidableEq, Repr

/-- Go `auth.AuthUser`. -/
structure AuthUser where
  User : String
  Pass : String
  deriving DecidableEq, Repr

/-- Go `config.RawConfig`. `M` is a raw `map[string]any` declaration, `I` is
`C.Inbound`; `Mode` and `LogLevel` are the numbers of the enumeration values;
`ProxyProvider` and `Hosts` list the entries of the Go maps in the order in
which the `range` loops visit them. -/
structure RawConfig (M I : Type) where
  Port : Int
  SocksPort : Int
  RedirPort : Int
  TProxyPort : Int
  MixedPort : Int
  Authentication : List String
  AllowLan : Bool
  BindAddress : String
  Mode : Nat
  LogLevel : Nat
  IPv6 : Bool
  ExternalController : String
  ExternalUI : String
  Secret : String
  Interface : String
  RoutingMark : Int
  Tunnels : List Tunnel
  ProxyProvider : List (String × M)
  Hosts : List (String × String)
  Inbounds : List I
  DNS : RawDNS
  Tun : RawTun
  Experimental : CffCore.Experimental
  Profile : CffCore.Profile
  Proxy : List M
  ProxyGroup : List M
  Rule : List String

/-- Go `config.Config`. A `*trie.DomainTrie` is the list of the `Insert` calls
made on it, in order. -/
structure Config (A G P ρ Pool I : Type) where
  General : CffCore.General
  DNS : CffCore.DNS Pool (List (String × Addr))
  Experimental : CffCore.Experimental
  Hosts : List (String × Addr)
  Profile : CffCore.Profile
  Inbounds : List I
  Rules : List ρ
  Users : List AuthUser
  Proxies : String → Option (ProxyValue A G)
  Providers : String → Option (ProviderValue P A G)
  Tunnels : List Tunnel

/-- The collaborators of `ParseRawConfig` that live outside `config.go`. -/
structure ConfigCollab (M A G P ρ Pool : Type) where
  /-- Go `C.Path.Resolve(path)`. -/
  pathResolve : String → String
  /-- Go `os.IsNotExist(err)` for the error of `os.Stat(path)`. -/
  statNotExist : String → Bool
  /-- The collaborators of `parseProxies`. -/
  proxy : ProxyCollab M A G P
  /-- Go `R.ParseRule`. -/
  ParseRule : String → String → String → List String → Except String ρ
  /-- The library calls of `parseHosts` and `parseDNS`. -/
  dns : DnsCollab Pool
  /-- The result of the call `verifyIP6()`. -/
  verifyIP6 : Bool

/-- The errors `ParseRawConfig` returns. -/
inductive ConfigError where
  /-- Text `external-ui: path not exist`. -/
  | externalUI (path : String)
  /-- An error of `parseProxies`. -/
  | proxies (e : ProxiesError)
  /-- An error of `parseRules`. -/
  | rules (e : RuleError)
  /-- Text `ipStr is not a valid IP`. -/
  | hosts (ipStr : String)
  /-- An error of `parseDNS`. -/
  | dns (e : DNSError)
  /-- Text `tunnel proxy proxy not found`. -/
  | tunnelProxyNotFound (proxy : String)
  deriving DecidableEq, Repr

/-- The zero value of Go `config.Tun`. -/
def zeroTun : Tun where
  Enable := false
  Device := ""
  Stack := ""
  DNSHijack := []
  AutoRoute := false
  AutoDetectInterface := false
  MTU := 0
  Inet4Address := []
  Inet6Address := []
  StrictRoute := false
  Inet4RouteAddress := []
  Inet6RouteAddress := []
  IncludeUID := []
  IncludeUIDRange := []
  ExcludeUID := []
  ExcludeUIDRange := []
  IncludeAndroidUser := []
  IncludePackage := []
  ExcludePackage := []
  EndpointIndependentNat := false
  UDPTimeout := 0
  FileDescriptor := 0

/-- Go `parseGeneral(cfg)`: the `external-ui` check, and the result reduced to
the fields that `General` keeps (the ports, the controller fields, mode, log
level, interface and routing mark are copied from `cfg` as they are). -/
def parseGeneral {M A G P ρ Pool I : Type} (E : ConfigCollab M A G P ρ Pool)
    (cfg : RawConfig M I) : Except ConfigError General :=
  let externalUI := cfg.ExternalUI
  if externalUI ≠ "" ∧ E.statNotExist (E.pathResolve externalUI) = true then
    .error (.externalUI (E.pathResolve externalUI))
  else .ok { IPv6 := cfg.IPv6, Tun := zeroTun }

/-- The `range cfg.Hosts` loop of `parseHosts`, `tree` being the insertions
made so far. -/
def parseHostsFrom (ParseIP : String → Option Addr) :
    List (String × String) → List (String × Addr) → Except ConfigError (List (String × Addr))
  | [], tree => .ok tree
  | (domain, ipStr) :: rest, tree =>
    match ParseIP ipStr with
    | none => .error (.hosts ipStr)
    | some ip => parseHostsFrom ParseIP rest (tree ++ [(domain, ip)])

/-- Go `parseHosts(cfg)` with `cfg.Hosts = hosts`. -/
def parseHosts (ParseIP : String → Option Addr) (hosts : List (String × String)) :
    Except ConfigError (List (String × Addr)) :=
  parseHostsFrom ParseIP hosts [("localhost", ipv4 127 0 0 1)]

/-- Go `parseAuthentication(rawRecords)`. -/
def parseAuthentication : List String → List AuthUser
  | [] => []
  | line :: rest =>
    match cutSub [':'] line.data with
    | some (user, pass) => ⟨String.mk user, String.mk pass⟩ :: parseAuthentication rest
    | none => parseAuthentication rest

/-- The `// verify tunnels` loop of `ParseRawConfig`: the error returned for
the first tunnel whose proxy is not a key of the proxy map. -/
def verifyTunnels {π : Type} (proxies : String → Option π) : List Tunnel → Option ConfigError
  | [] => none
  | t :: rest =>
    if (proxies t.Proxy).isNone then some (.tunnelProxyNotFound t.Proxy)
    else verifyTunnels proxies rest

/-- Go `ParseRawConfig(rawCfg)`: the configuration or the error, paired with
the state of package `tunnel` after the call, `st` being the state before. -/
def ParseRawConfig {M A G P ρ Pool I : Type} (E : ConfigCollab M A G P ρ Pool)
    (rawCfg : RawConfig M I) (st : TunnelState) :
    Except ConfigError (Config A G P ρ Pool I) × TunnelState :=
  match parseGeneral E rawCfg with
  | .error e => (.error e, st)
  | .ok general =>
  match parseProxies E.proxy rawCfg.Proxy rawCfg.ProxyGroup rawCfg.ProxyProvider with
  | .error e => (.error (.proxies e), st)
  | .ok (proxies, providers) =>
  match parseRules E.ParseRule proxies rawCfg.Rule with
  | .error e => (.error (.rules e), st)
  | .ok rules =>
  match parseHosts E.dns.ParseIP rawCfg.Hosts with
  | .error e => (.error e, st)
  | .ok hosts =>
  match parseDNS E.dns rawCfg.DNS rawCfg.IPv6 rawCfg.Profile hosts st with
  | (.error e, st) => (.error (.dns e), st)
  | (.ok dnsCfg, st) =>
  let general := parseTun st E.verifyIP6 rawCfg.Tun general
  let users := parseAuthentication rawCfg.Authentication
  match verifyTunnels proxies rawCfg.Tunnels with
  | some e => (.error e, st)
  | none =>
    (.ok
      { General := general
        DNS := dnsCfg
        Experimental := rawCfg.Experimental
        Hosts := hosts
        Profile := rawCfg.Profile
        Inbounds := rawCfg.Inbounds
        Rules := rules
        Users := users
        Proxies := proxies
        Providers := providers
        Tunnels := rawCfg.Tunnels }, st)

/-- Whether `parseDNS` returns the error after its call of
`T.SetFakeIPRange`: the errors of the fake-ip block and of the search-domain
loop. -/
def DNSError.afterRecord : DNSError → Bool
  | .fakeIPRange _ => true
  | .fakeipNew _ => true
  | .searchDomainDot => true
  | .searchDomainPort => true
  | _ => false

/-- Whether `ParseRawConfig` returns the error after `parseDNS` has called
`T.SetFakeIPRange`. -/
def ConfigError.afterRecord : ConfigError → Bool
  | .dns e => e.afterRecord
  | .tunnelProxyNotFound _ => true
  | _ => false

/-- The prefix that `parseDNS` hands to `T.SetFakeIPRange`: the result of
`netip.ParsePrefix(cfg.FakeIPRange)`, the zero prefix when that fails. -/
def recordedRange {Pool : Type} (D : DnsCollab Pool) (cfg : RawDNS) : Cidr :=
  match D.ParsePrefix cfg.FakeIPRange with
  | .ok p => p
  | .error _ => ⟨.zero, 0⟩

/-! ### Example inputs: documents -/

/-- Reference collaborators for `ParseRawConfig`: every path exists, the
example proxy collaborators, the recording rule factory and the reference DNS
collaborators. -/
def refConfig : ConfigCollab NamedMapping String String String RuleCall FakeipOptions where
  pathResolve p := p
  statNotExist _ := false
  proxy := namedCollab
  ParseRule := recordRule
  dns := refDns
  verifyIP6 := true

/-- The defaults of `UnmarshalRawConfig`. -/
def defaultRawConfig : RawConfig NamedMapping Unit where
  Port := 0
  SocksPort := 0
  RedirPort := 0
  TProxyPort := 0
  MixedPort := 0
  Authentication := []
  AllowLan := false
  BindAddress := "*"
  Mode := 0
  LogLevel := 0
  IPv6 := false
  ExternalController := ""
  ExternalUI := ""
  Secret := ""
  Interface := ""
  RoutingMark := 0
  Tunnels := []
  ProxyProvider := []
  Hosts := []
  Inbounds := []
  DNS := defaultRawDNS
  Tun := defaultRawTun
  Experimental := ⟨false⟩
  Profile := ⟨true, false⟩
  Proxy := []
  ProxyGroup := []
  Rule := []

/-- A document with one proxy `p1` and a tunnel through it. -/
def tunnelDocument : RawConfig NamedMapping Unit :=
  { defaultRawConfig with
    Proxy := [⟨some "p1"⟩]
    Tunnels := [⟨["tcp"], "127.0.0.1:6553", "114.114.114.114:53", "p1"⟩] }

/-- A document with the fake-ip range `10.0.0.1/8` whose tunnels name the
proxy `p1` and the undeclared proxy `ghost`. -/
def ghostTunnelDocument : RawConfig NamedMapping Unit :=
  { defaultRawConfig with
    Proxy := [⟨some "p1"⟩]
    DNS := { defaultRawDNS with FakeIPRange := "10.0.0.1/8" }
    Tunnels := [⟨["tcp"], "127.0.0.1:6553", "114.114.114.114:53", "p1"⟩,
                ⟨["udp"], "127.0.0.1:6554", "8.8.8.8:53", "ghost"⟩] }

/-- A document with the fake-ip range `10.0.0.1/8` whose only rule names the
undeclared proxy `ghost`. -/
def ghostRuleDocument : RawConfig NamedMapping Unit :=
  { defaultRawConfig with
    DNS := { defaultRawDNS with FakeIPRange := "10.0.0.1/8" }
    Rule := ["MATCH,ghost"] }

/-- The configuration of a successful `ParseRawConfig`. -/
def configOf {A G P ρ Pool I : Type}
    (r : Except ConfigError (Config A G P ρ Pool I) × TunnelState) :
    Option (Config A G P ρ Pool I) :=
  match r.1 with
  | .ok c => some c
  | .error _ => none

/-- The error of a failed `ParseRawConfig`. -/
def configErrorOf {A G P ρ Pool I : Type}
    (r : Except ConfigError (Config A G P ρ Pool I) × TunnelState) : Option ConfigError :=
  match r.1 with
  | .ok _ => none
  | .error e => some e

/-- The `tun.Options` literal of `New`, as handed to `buildAndroidRules`. -/
def newTunOptions (p : Prepared) : TunOptions :=
  { Name := p.tunName, MTU := p.tunMTU,
    Inet4Address := p.options.Inet4Address, Inet6Address := p.options.Inet6Address,
    AutoRoute := p.options.AutoRoute, StrictRoute := p.options.StrictRoute,
    Inet4RouteAddress := p.options.Inet4RouteAddress,
    Inet6RouteAddress := p.options.Inet6RouteAddress,
    IncludeUID := p.includeUID, ExcludeUID := p.excludeUID,
    IncludeAndroidUser := p.options.IncludeAndroidUser,
    IncludePackage := p.options.IncludePackage,
    ExcludePackage := p.options.ExcludePackage,
    FileDescriptor := p.options.FileDescriptor, TableIndex := 2022 }

/-- The `tun.StackOptions` literal of `New` on the interface options
`tunOptions` that `buildAndroidRules` left, after the
`if options.FileDescriptor > 0` block that follows the literal. -/
def newStackOptions (P : TunPlatform) (p : Prepared) (tunOptions : TunOptions) :
    StackOptions :=
  let stackOptions : StackOptions :=
    { MTU := tunOptions.MTU, Name := tunOptions.Name,
      Inet4Address := tunOptions.Inet4Address, Inet6Address := tunOptions.Inet6Address,
      EndpointIndependentNat := p.options.EndpointIndependentNat,
      UDPTimeout := p.udpTimeout, ForwarderBindInterface := false }
  if p.options.FileDescriptor > 0 then
    match P.getTunnelName (toInt32 p.options.FileDescriptor) with
    | (tunName, some _) =>
      { stackOptions with Name := tunName, ForwarderBindInterface := true }
    | (_, none) => stackOptions
  else stackOptions

/-- What `NewPrepare` returns on `emptyTun` where the platform is not darwin and
its default UDP timeout is 300 seconds. -/
def emptyPrepared : Prepared :=
  { options := emptyTun, tunName := "tun0", tunMTU := 9000, udpTimeout := 300,
    includeUID := [], excludeUID := [], dnsAdds := [] }

/-! # Properties -/

/-! ## Lemmas: trimming -/

theorem trimLeftSpaces_head (cs : List Char) : (trimLeftSpaces cs).head? ≠ some ' ' := by
  induction cs with
  | nil => simp [trimLeftSpaces]
  | cons c cs ih =>
    by_cases h : c = ' '
    · simpa [trimLeftSpaces, h] using ih
    · simp [trimLeftSpaces, h]

theorem trimLeftSpaces_of_head (cs : List Char) (h : cs.head? ≠ some ' ') :
    trimLeftSpaces cs = cs := by
  cases cs with
  | nil => rfl
  | cons c cs =>
    have hc : c ≠ ' ' := by simpa using h
    simp [trimLeftSpaces, hc]

theorem trimLeftSpaces_suffix (cs : List Char) : ∃ p, cs = p ++ trimLeftSpaces cs := by
  induction cs with
  | nil => exact ⟨[], rfl⟩
  | cons c cs ih =>
    by_cases h : c = ' '
    · obtain ⟨p, hp⟩ := ih
      refine ⟨c :: p, ?_⟩
      simp only [trimLeftSpaces, h, if_true, List.cons_append]
      rw [← hp]
    · exact ⟨[], by simp [trimLeftSpaces, h]⟩

theorem trimSpacesChars_idem (cs : List Char) :
    trimSpacesChars (trimSpacesChars cs) = trimSpacesChars cs := by
  unfold trimSpacesChars
  set a := trimLeftSpaces cs with ha
  set b := trimLeftSpaces a.reverse with hb
  have hhead : b.reverse.head? ≠ some ' ' := by
    obtain ⟨p, hp⟩ := trimLeftSpaces_suffix a.reverse
    rw [← hb] at hp
    have ha' : a = b.reverse ++ p.reverse := by
      have := congrArg List.reverse hp
      simpa using this
    cases hr : b.reverse with
    | nil => simp
    | cons x xs =>
      have h1 := trimLeftSpaces_head cs
      rw [← ha, ha', hr] at h1
      simpa using h1
  rw [trimLeftSpaces_of_head _ hhead, List.reverse_reverse,
    trimLeftSpaces_of_head b (by rw [hb]; exact trimLeftSpaces_head _)]

theorem stringsTrim_idem (s : String) :
    stringsTrim (stringsTrim s) = stringsTrim s := by
  simp [stringsTrim, trimSpacesChars_idem]

theorem trimArr_idem (arr : List String) : trimArr (trimArr arr) = trimArr arr := by
  simp [trimArr, List.map_map, Function.comp_def, stringsTrim_idem]

theorem trimArr_length (arr : List String) : (trimArr arr).length = arr.length := by
  simp [trimArr]

theorem trimArr_drop (n : Nat) (arr : List String) :
    trimArr (arr.drop n) = (trimArr arr).drop n := by
  simp [trimArr, List.map_drop]

/-! ## Lemmas: the rule loop -/

theorem splitOnChar_ne_nil (sep : Char) (cs : List Char) : splitOnChar sep cs ≠ [] := by
  induction cs with
  | nil => simp [splitOnChar]
  | cons c cs ih =>
    by_cases h : c = sep
    · simp [splitOnChar, h]
    · cases hs : splitOnChar sep cs with
      | nil => exact absurd hs ih
      | cons x xs => simp [splitOnChar, h, hs]

theorem ruleFields_eq_none (rule : List String) : ruleFields rule = none ↔ rule.length < 2 := by
  unfold ruleFields
  simp only []
  split_ifs <;> simp <;> omega

section RuleLoop

variable {ρ π : Type} (ParseRule : String → String → String → List String → Except String ρ)
  (proxies : String → Option π)

theorem parseRulesFrom_append (pre post : List String) (idx : Nat) (acc : List ρ) :
    parseRulesFrom ParseRule proxies idx (pre ++ post) acc =
      match parseRulesFrom ParseRule proxies idx pre acc with
      | .ok rs => parseRulesFrom ParseRule proxies (idx + pre.length) post rs
      | .error e => .error e := by
  induction pre generalizing idx acc with
  | nil => simp [parseRulesFrom]
  | cons line rest ih =>
    simp only [List.cons_append, parseRulesFrom, List.length_cons]
    cases hf : ruleFields (trimArr (stringsSplit line ',')) with
    | none => simp
    | some t =>
      obtain ⟨payload, target, params⟩ := t
      simp only []
      split_ifs with hp
      · rfl
      · cases hr : ParseRule ((trimArr (trimArr (stringsSplit line ','))).getD 0 "") payload target
          (trimArr params) with
        | error msg => simp
        | ok parsed =>
          simp only []
          rw [List.append_eq, ih]
          have : idx + 1 + rest.length = idx + (rest.length + 1) := by omega
          rw [this]

theorem parseRulesFrom_ok_iff (lines : List String) (idx : Nat) (acc rs : List ρ) :
    parseRulesFrom ParseRule proxies idx lines acc = .ok rs ↔
      ∃ out, rs = acc ++ out ∧ List.Forall₂ (ruleLineParses ParseRule proxies) lines out := by
  induction lines generalizing idx acc with
  | nil =>
    simp only [parseRulesFrom, Except.ok.injEq, List.forall₂_nil_left_iff]
    constructor
    · intro h; exact ⟨[], by simp [h], rfl⟩
    · rintro ⟨out, h, rfl⟩; simp [h]
  | cons line rest ih =>
    simp only [parseRulesFrom]
    have hlen := trimArr_length (stringsSplit line ',')
    cases hf : ruleFields (trimArr (stringsSplit line ',')) with
    | none =>
      have hlt := (ruleFields_eq_none _).1 hf
      simp only [false_iff, reduceCtorEq]
      rintro ⟨out, -, hall⟩
      cases hall with
      | cons h _ =>
        obtain ⟨f, rfl, h2 | h3 | h4⟩ := h <;> omega
    | some t =>
      obtain ⟨payload, target, params⟩ := t
      simp only [trimArr_idem]
      unfold ruleFields at hf
      simp only [] at hf
      constructor
      · intro h
        split_ifs at h with hp
        cases hr : ParseRule ((trimArr (stringsSplit line ',')).getD 0 "") payload target
          (trimArr params) with
        | error msg => rw [hr] at h; simp at h
        | ok parsed =>
          rw [hr] at h
          obtain ⟨out, rfl, hout⟩ := (ih _ _).1 h
          refine ⟨parsed :: out, by simp, List.Forall₂.cons ?_ hout⟩
          refine ⟨_, rfl, ?_⟩
          have hp' : (proxies target).isSome := by
            cases hq : proxies target <;> simp_all
          split_ifs at hf with h2 h3 h4
          · simp only [Option.some.injEq, Prod.mk.injEq] at hf
            obtain ⟨rfl, rfl, rfl⟩ := hf
            exact Or.inl ⟨h2, hp', by simpa [trimArr] using hr⟩
          · simp only [Option.some.injEq, Prod.mk.injEq] at hf
            obtain ⟨rfl, rfl, rfl⟩ := hf
            exact Or.inr (Or.inl ⟨h3, hp', by simpa [trimArr] using hr⟩)
          · simp only [Option.some.injEq, Prod.mk.injEq] at hf
            obtain ⟨rfl, rfl, rfl⟩ := hf
            refine Or.inr (Or.inr ⟨h4, hp', ?_⟩)
            rw [trimArr_drop, trimArr_idem] at hr
            exact hr
      · rintro ⟨out, rfl, hall⟩
        cases hall with
        | cons h htail =>
          rename_i r out'
          obtain ⟨f, rfl, ⟨h2, hp, hr⟩ | ⟨h3, hp, hr⟩ | ⟨h4, hp, hr⟩⟩ := h
          · rw [if_pos h2] at hf
            simp only [Option.some.injEq, Prod.mk.injEq] at hf
            obtain ⟨rfl, rfl, rfl⟩ := hf
            have hn : ¬ (proxies ((trimArr (stringsSplit line ',')).getD 1 "")).isNone = true := by
              cases hq : proxies ((trimArr (stringsSplit line ',')).getD 1 "") <;> simp_all
            rw [if_neg hn]
            simp only [trimArr, List.map_nil] at hr ⊢
            rw [hr]
            exact (ih _ _).2 ⟨out', by simp, htail⟩
          · have h2 : ¬ (trimArr (stringsSplit line ',')).length = 2 := by omega
            rw [if_neg h2, if_pos h3] at hf
            simp only [Option.some.injEq, Prod.mk.injEq] at hf
            obtain ⟨rfl, rfl, rfl⟩ := hf
            have hn : ¬ (proxies ((trimArr (stringsSplit line ',')).getD 2 "")).isNone = true := by
              cases hq : proxies ((trimArr (stringsSplit line ',')).getD 2 "") <;> simp_all
            rw [if_neg hn]
            simp only [trimArr, List.map_nil] at hr ⊢
            rw [hr]
            exact (ih _ _).2 ⟨out', by simp, htail⟩
          · have h2 : ¬ (trimArr (stringsSplit line ',')).length = 2 := by omega
            have h3 : ¬ (trimArr (stringsSplit line ',')).length = 3 := by omega
            rw [if_neg h2, if_neg h3, if_pos h4] at hf
            simp only [Option.some.injEq, Prod.mk.injEq] at hf
            obtain ⟨rfl, rfl, rfl⟩ := hf
            have hn : ¬ (proxies ((trimArr (stringsSplit line ',')).getD 2 "")).isNone = true := by
              cases hq : proxies ((trimArr (stringsSplit line ',')).getD 2 "") <;> simp_all
            rw [if_neg hn, trimArr_drop, trimArr_idem, hr]
            exact (ih _ _).2 ⟨out', by simp, htail⟩

end RuleLoop

/-! ## Rules: the claims -/

/-- C1: `parseRules` succeeds with rules `rs` exactly when `rs` pairs off with
the lines one-to-one and in input order, each line having `n ≥ 2` trimmed
comma-split fields and an existing target, the rule being what the factory
returns for type = field 0 and: `n = 2`, empty payload, target = field 1, no
params; `n = 3`, payload = field 1, target = field 2, no params; `n ≥ 4`,
payload = field 1, target = field 2, params = fields 3.. in order. The two
example lines of the specification give the stated factory calls. -/
theorem parseRules_maps_lines_in_order {ρ π : Type}
    (ParseRule : String → String → String → List String → Except String ρ)
    (proxies : String → Option π) (lines : List String) (rs : List ρ) :
    (parseRules ParseRule proxies lines = .ok rs ↔
      List.Forall₂
        (fun line r => ∃ f : List String, f = trimArr (stringsSplit line ',') ∧
          ((f.length = 2 ∧ (proxies (f.getD 1 "")).isSome ∧
              ParseRule (f.getD 0 "") "" (f.getD 1 "") [] = .ok r) ∨
           (f.length = 3 ∧ (proxies (f.getD 2 "")).isSome ∧
              ParseRule (f.getD 0 "") (f.getD 1 "") (f.getD 2 "") [] = .ok r) ∨
           (4 ≤ f.length ∧ (proxies (f.getD 2 "")).isSome ∧
              ParseRule (f.getD 0 "") (f.getD 1 "") (f.getD 2 "") (f.drop 3) = .ok r)))
        lines rs) ∧
    parseRules recordRule (proxyMapOf ["PROXY"])
        ["DOMAIN,example.com,PROXY", "IP-CIDR,10.0.0.0/8,PROXY,no-resolve", "MATCH,PROXY"] =
      .ok [⟨"DOMAIN", "example.com", "PROXY", []⟩,
           ⟨"IP-CIDR", "10.0.0.0/8", "PROXY", ["no-resolve"]⟩,
           ⟨"MATCH", "", "PROXY", []⟩] := by
  refine ⟨?_, by decide⟩
  have h := parseRulesFrom_ok_iff ParseRule proxies lines 0 [] rs
  simp only [List.nil_append, exists_eq_left'] at h
  exact h

/-- C2: a line with fewer than two comma-separated fields makes `parseRules`
fail whatever the proxy map and the other lines are; when the lines before it
parse, the error is `format invalid` with that line's index and text. -/
theorem parseRules_single_field_fails {ρ π : Type}
    (ParseRule : String → String → String → List String → Except String ρ)
    (proxies : String → Option π) (pre post : List String) (line : String)
    (hline : (stringsSplit line ',').length < 2) :
    (∃ e, parseRules ParseRule proxies (pre ++ line :: post) = .error e) ∧
    (∀ rs, parseRules ParseRule proxies pre = .ok rs →
      parseRules ParseRule proxies (pre ++ line :: post) =
        .error (.formatInvalid pre.length line)) := by
  have hnone : ruleFields (trimArr (stringsSplit line ',')) = none :=
    (ruleFields_eq_none _).2 (by rw [trimArr_length]; exact hline)
  have hstep : ∀ idx (acc : List ρ), parseRulesFrom ParseRule proxies idx (line :: post) acc =
      .error (.formatInvalid idx line) := by
    intro idx acc
    simp [parseRulesFrom, hnone]
  have happ := parseRulesFrom_append ParseRule proxies pre (line :: post) 0 []
  unfold parseRules
  constructor
  · rw [happ]
    cases parseRulesFrom ParseRule proxies 0 pre [] with
    | error e => exact ⟨e, rfl⟩
    | ok rs => exact ⟨_, hstep _ _⟩
  · intro rs hrs
    rw [happ, hrs]
    simp [hstep]

/-- Witness for C2: the empty line after one good line. -/
theorem parseRules_single_field_fails_witness :
    (stringsSplit "" ',').length < 2 ∧
    ((∃ e, parseRules recordRule (proxyMapOf ["PROXY"])
        (["MATCH,PROXY"] ++ "" :: ["DOMAIN,a.com,PROXY"]) = .error e) ∧
     (∀ rs, parseRules recordRule (proxyMapOf ["PROXY"]) ["MATCH,PROXY"] = .ok rs →
        parseRules recordRule (proxyMapOf ["PROXY"])
          (["MATCH,PROXY"] ++ "" :: ["DOMAIN,a.com,PROXY"]) =
          .error (.formatInvalid ["MATCH,PROXY"].length ""))) :=
  ⟨by decide,
   parseRules_single_field_fails recordRule (proxyMapOf ["PROXY"]) ["MATCH,PROXY"]
     ["DOMAIN,a.com,PROXY"] "" (by decide)⟩

/-- C3: a line with at least two fields whose target (field 1 of two, field 2
otherwise) is not a key of the proxy map makes `parseRules` fail; when the
lines before it parse, the error is `proxy not found` with that line's index,
text and target. Conversely a successful `parseRules` built every rule from a
target that is a key of the proxy map. -/
theorem parseRules_unknown_target_fails {ρ π : Type}
    (ParseRule : String → String → String → List String → Except String ρ)
    (proxies : String → Option π) (pre post : List String) (line : String)
    (f : List String) (target : String)
    (hf : f = trimArr (stringsSplit line ','))
    (hlen : 2 ≤ f.length)
    (ht : target = if f.length = 2 then f.getD 1 "" else f.getD 2 "")
    (hmiss : proxies target = none) :
    (∃ e, parseRules ParseRule proxies (pre ++ line :: post) = .error e) ∧
    (∀ rs, parseRules ParseRule proxies pre = .ok rs →
      parseRules ParseRule proxies (pre ++ line :: post) =
        .error (.proxyNotFound pre.length line target)) ∧
    (∀ (lines : List String) (rs : List ρ), parseRules ParseRule proxies lines = .ok rs →
      List.Forall₂
        (fun _ r => ∃ type payload tgt params,
          ParseRule type payload tgt params = .ok r ∧ (proxies tgt).isSome)
        lines rs) := by
  have hfields : ∃ payload params,
      ruleFields (trimArr (stringsSplit line ',')) = some (payload, target, params) := by
    rw [← hf]
    unfold ruleFields
    simp only []
    by_cases h2 : f.length = 2
    · exact ⟨_, _, by rw [if_pos h2, ht, if_pos h2]⟩
    · by_cases h3 : f.length = 3
      · exact ⟨_, _, by rw [if_neg h2, if_pos h3, ht, if_neg h2]⟩
      · have h4 : f.length ≥ 4 := by omega
        exact ⟨_, _, by rw [if_neg h2, if_neg h3, if_pos h4, ht, if_neg h2]⟩
  obtain ⟨payload, params, hfields⟩ := hfields
  have hstep : ∀ idx (acc : List ρ), parseRulesFrom ParseRule proxies idx (line :: post) acc =
      .error (.proxyNotFound idx line target) := by
    intro idx acc
    simp [parseRulesFrom, hfields, hmiss]
  have happ := parseRulesFrom_append ParseRule proxies pre (line :: post) 0 []
  unfold parseRules
  refine ⟨?_, ?_, ?_⟩
  · rw [happ]
    cases parseRulesFrom ParseRule proxies 0 pre [] with
    | error e => exact ⟨e, rfl⟩
    | ok rs => exact ⟨_, hstep _ _⟩
  · intro rs hrs
    rw [happ, hrs]
    simp [hstep]
  · intro lines rs hok
    obtain ⟨out, hout, hall⟩ := (parseRulesFrom_ok_iff ParseRule proxies lines 0 [] rs).1 hok
    simp only [List.nil_append] at hout
    subst hout
    refine hall.imp ?_
    rintro l r ⟨g, -, ⟨-, hp, hr⟩ | ⟨-, hp, hr⟩ | ⟨-, hp, hr⟩⟩
    · exact ⟨_, _, _, _, hr, hp⟩
    · exact ⟨_, _, _, _, hr, hp⟩
    · exact ⟨_, _, _, _, hr, hp⟩

/-- Witness for C3: the second line names the unknown proxy `NOPE`. -/
theorem parseRules_unknown_target_fails_witness :
    parseRules recordRule (proxyMapOf ["PROXY"])
        (["MATCH,PROXY"] ++ "DOMAIN,a.com,NOPE" :: []) =
      .error (.proxyNotFound 1 "DOMAIN,a.com,NOPE" "NOPE") :=
  (parseRules_unknown_target_fails recordRule (proxyMapOf ["PROXY"]) ["MATCH,PROXY"] []
    "DOMAIN,a.com,NOPE" ["DOMAIN", "a.com", "NOPE"] "NOPE" (by decide) (by decide) (by decide)
    (by decide)).2.1 [⟨"MATCH", "", "PROXY", []⟩] (by decide)

/-! ## Lemmas: proxies and groups -/

theorem mapSet_isSome {V : Type} (m : String → Option V) (k : String) (v : V) (k' : String) :
    ((mapSet m k v) k').isSome = true ↔ (k' = k ∨ (m k').isSome = true) := by
  unfold mapSet
  by_cases h : k' = k <;> simp [h]

section ProxiesLemmas

variable {M A G P : Type} (C : ProxyCollab M A G P)

theorem parseProxyLoop_ok (ms : List M) :
    ∀ (idx : Nat) (proxies : String → Option (ProxyValue A G)) (pl : List String)
      (proxies' : String → Option (ProxyValue A G)) (pl' : List String),
      parseProxyLoop C idx ms proxies pl = .ok (proxies', pl') →
      ∃ as : List A,
        List.Forall₂ (fun m a => C.ParseProxy m = .ok a) ms as ∧
        pl' = pl ++ as.map C.proxyName ∧
        (∀ k, (proxies' k).isSome = true ↔
          ((proxies k).isSome = true ∨ k ∈ as.map C.proxyName)) ∧
        (as.map C.proxyName).Nodup ∧
        (∀ n ∈ as.map C.proxyName, ¬ (proxies n).isSome = true) := by
  induction ms with
  | nil =>
    intro idx proxies pl proxies' pl' h
    simp only [parseProxyLoop, Except.ok.injEq, Prod.mk.injEq] at h
    obtain ⟨rfl, rfl⟩ := h
    exact ⟨[], List.Forall₂.nil, by simp, by simp, by simp, by simp⟩
  | cons m rest ih =>
    intro idx proxies pl proxies' pl' h
    simp only [parseProxyLoop] at h
    cases hp : C.ParseProxy m with
    | error msg => rw [hp] at h; simp at h
    | ok a =>
      rw [hp] at h
      simp only [] at h
      split_ifs at h with hdup
      obtain ⟨as, hall, hpl, hkeys, hnd, hfresh⟩ := ih _ _ _ _ _ h
      refine ⟨a :: as, List.Forall₂.cons hp hall, ?_, ?_, ?_, ?_⟩
      · simp [hpl]
      · intro k
        rw [hkeys k, mapSet_isSome]
        simp only [List.map_cons, List.mem_cons]
        tauto
      · simp only [List.map_cons, List.nodup_cons]
        refine ⟨?_, hnd⟩
        intro hmem
        exact hfresh _ hmem ((mapSet_isSome _ _ _ _).2 (Or.inl rfl))
      · intro n hn
        simp only [List.map_cons, List.mem_cons] at hn
        rcases hn with rfl | hn
        · exact hdup
        · intro hsome
          exact hfresh n hn ((mapSet_isSome _ _ _ _).2 (Or.inr hsome))

theorem parseGroupLoop_ok (pv : String → Option P) (ms : List M) :
    ∀ (idx : Nat) (proxies proxies' : String → Option (ProxyValue A G)),
      parseGroupLoop C pv idx ms proxies = .ok proxies' →
      ∃ gs : List G,
        List.Forall₂ (fun m g => ∃ px, C.ParseProxyGroup m px pv = .ok g) ms gs ∧
        (∀ k, (proxies' k).isSome = true ↔
          ((proxies k).isSome = true ∨ k ∈ gs.map C.groupName)) ∧
        (gs.map C.groupName).Nodup ∧
        (∀ n ∈ gs.map C.groupName, ¬ (proxies n).isSome = true) := by
  induction ms with
  | nil =>
    intro idx proxies proxies' h
    simp only [parseGroupLoop, Except.ok.injEq] at h
    subst h
    exact ⟨[], List.Forall₂.nil, by simp, by simp, by simp⟩
  | cons m rest ih =>
    intro idx proxies proxies' h
    simp only [parseGroupLoop] at h
    cases hp : C.ParseProxyGroup m proxies pv with
    | error msg => rw [hp] at h; simp at h
    | ok g =>
      rw [hp] at h
      simp only [] at h
      split_ifs at h with hdup
      obtain ⟨gs, hall, hkeys, hnd, hfresh⟩ := ih _ _ _ h
      refine ⟨g :: gs, List.Forall₂.cons ⟨_, hp⟩ hall, ?_, ?_, ?_⟩
      · intro k
        rw [hkeys k, mapSet_isSome]
        simp only [List.map_cons, List.mem_cons]
        tauto
      · simp only [List.map_cons, List.nodup_cons]
        refine ⟨?_, hnd⟩
        intro hmem
        exact hfresh _ hmem ((mapSet_isSome _ _ _ _).2 (Or.inl rfl))
      · intro n hn
        simp only [List.map_cons, List.mem_cons] at hn
        rcases hn with rfl | hn
        · exact hdup
        · intro hsome
          exact hfresh n hn ((mapSet_isSome _ _ _ _).2 (Or.inr hsome))

theorem parseProxies_ok_nodup (pc gc : List M) (prc : List (String × M))
    (res : (String → Option (ProxyValue A G)) × (String → Option (ProviderValue P A G)))
    (h : parseProxies C pc gc prc = .ok res) :
    ∃ (as : List A) (sorted : List M) (gs : List G),
      List.Forall₂ (fun m a => C.ParseProxy m = .ok a) pc as ∧
      C.proxyGroupsDagSort gc = .ok sorted ∧
      List.Forall₂ (fun m g => ∃ px pv, C.ParseProxyGroup m px pv = .ok g) sorted gs ∧
      ("DIRECT" :: "REJECT" :: (as.map C.proxyName ++ gs.map C.groupName)).Nodup := by
  unfold parseProxies at h
  simp only [] at h
  cases h1 : parseProxyLoop C 0 pc (mapSet (mapSet mapEmpty "DIRECT" .direct) "REJECT" .reject)
      ["DIRECT", "REJECT"] with
  | error e => rw [h1] at h; simp at h
  | ok r1 =>
    obtain ⟨proxies1, pl1⟩ := r1
    rw [h1] at h
    simp only [] at h
    cases h2 : collectGroupNames C 0 gc pl1 with
    | error e => rw [h2] at h; simp at h
    | ok pl2 =>
      rw [h2] at h
      simp only [] at h
      cases h3 : C.proxyGroupsDagSort gc with
      | error e => rw [h3] at h; simp at h
      | ok sorted =>
        rw [h3] at h
        simp only [] at h
        cases h4 : parseProviderLoop C prc [] with
        | error e => rw [h4] at h; simp at h
        | ok pm =>
          rw [h4] at h
          simp only [] at h
          cases h5 : initialProviderLoop C pm with
          | error e => rw [h5] at h; simp at h
          | ok u =>
            rw [h5] at h
            simp only [] at h
            cases h6 : parseGroupLoop C (providerLookup pm) 0 sorted proxies1 with
            | error e => rw [h6] at h; simp at h
            | ok proxies2 =>
              obtain ⟨as, hall, -, hkeys, hnd, hfresh⟩ := parseProxyLoop_ok C pc _ _ _ _ _ h1
              obtain ⟨gs, gall, -, gnd, gfresh⟩ := parseGroupLoop_ok C _ sorted _ _ _ h6
              refine ⟨as, sorted, gs, hall, rfl, gall.imp (fun _ _ ⟨px, hpx⟩ => ⟨px, _, hpx⟩), ?_⟩
              have hseed : ∀ k, ((mapSet (mapSet (mapEmpty : String → Option (ProxyValue A G))
                  "DIRECT" .direct) "REJECT" .reject) k).isSome = true ↔
                  (k = "REJECT" ∨ k = "DIRECT") := by
                intro k
                rw [mapSet_isSome, mapSet_isSome]
                simp [mapEmpty]
              have hA : ∀ n ∈ as.map C.proxyName, n ≠ "DIRECT" ∧ n ≠ "REJECT" := by
                intro n hn
                have := hfresh n hn
                rw [hseed] at this
                tauto
              have hG : ∀ n ∈ gs.map C.groupName,
                  n ≠ "DIRECT" ∧ n ≠ "REJECT" ∧ n ∉ as.map C.proxyName := by
                intro n hn
                have := gfresh n hn
                rw [hkeys, hseed] at this
                tauto
              have hDR : ("DIRECT" : String) ≠ "REJECT" := by decide
              rw [List.nodup_cons, List.nodup_cons, List.nodup_append]
              refine ⟨?_, ?_, hnd, gnd, ?_⟩
              · simp only [List.mem_cons, List.mem_append, not_or]
                refine ⟨hDR, fun hm => (hA _ hm).1 rfl, fun hm => (hG _ hm).1 rfl⟩
              · simp only [List.mem_append, not_or]
                exact ⟨fun hm => (hA _ hm).2 rfl, fun hm => (hG _ hm).2.1 rfl⟩
              · intro n hn hn'
                exact (hG n hn').2.2 hn

end ProxiesLemmas

/-! ## Proxies and groups: the claim -/

/-- C4: whenever `parseProxies` succeeds, the names `DIRECT`, `REJECT`, those
of the user proxies and those of the groups are pairwise distinct, so a
collision among them fails compilation: two user proxies of one name, a user
proxy named `DIRECT`, a group named like a user proxy all fail. The reserved
name `GLOBAL` is not covered: with a user proxy or a group named `GLOBAL`
`parseProxies` succeeds and the `GLOBAL` selector silently replaces it. -/
theorem parseProxies_name_collisions :
    (∀ (M A G P : Type) (C : ProxyCollab M A G P) (pc gc : List M) (prc : List (String × M))
        (res : (String → Option (ProxyValue A G)) × (String → Option (ProviderValue P A G))),
      parseProxies C pc gc prc = .ok res →
      ∃ (as : List A) (sorted : List M) (gs : List G),
        List.Forall₂ (fun m a => C.ParseProxy m = .ok a) pc as ∧
        C.proxyGroupsDagSort gc = .ok sorted ∧
        List.Forall₂ (fun m g => ∃ px pv, C.ParseProxyGroup m px pv = .ok g) sorted gs ∧
        ("DIRECT" :: "REJECT" :: (as.map C.proxyName ++ gs.map C.groupName)).Nodup) ∧
    proxiesError (parseProxies namedCollab [⟨some "a"⟩, ⟨some "a"⟩] [] []) =
      some (.duplicateProxy "a") ∧
    proxiesError (parseProxies namedCollab [⟨some "DIRECT"⟩] [] []) =
      some (.duplicateProxy "DIRECT") ∧
    proxiesError (parseProxies namedCollab [⟨some "a"⟩] [⟨some "a"⟩] []) =
      some (.duplicateGroup "a") ∧
    proxiesError (parseProxies namedCollab [] [⟨some "g"⟩, ⟨some "g"⟩] []) =
      some (.duplicateGroup "g") ∧
    proxiesError (parseProxies namedCollab [⟨some "GLOBAL"⟩] [] []) = none ∧
    proxiesResultAt (parseProxies namedCollab [⟨some "GLOBAL"⟩] [] []) "GLOBAL" =
      some (some .globalSelector) ∧
    proxiesError (parseProxies namedCollab [] [⟨some "GLOBAL"⟩] []) = none ∧
    proxiesResultAt (parseProxies namedCollab [] [⟨some "GLOBAL"⟩] []) "GLOBAL" =
      some (some .globalSelector) := by
  refine ⟨?_, by decide, by decide, by decide, by decide, by decide, by decide, by decide,
    by decide⟩
  intro M A G P C pc gc prc res h
  exact parseProxies_ok_nodup C pc gc prc res h

/-! ## Lemmas: host and port -/

theorem indexByte_eq_none (c : Char) (l : List Char) (h : c ∉ l) : indexByte c l = none := by
  induction l with
  | nil => rfl
  | cons x xs ih =>
    simp only [List.mem_cons, not_or] at h
    have hx : ¬ x = c := fun e => h.1 e.symm
    simp [indexByte, hx, ih h.2]

theorem lastIndexByte_eq_none (c : Char) (l : List Char) (h : c ∉ l) :
    lastIndexByte c l = none := by
  induction l with
  | nil => rfl
  | cons x xs ih =>
    simp only [List.mem_cons, not_or] at h
    have hx : ¬ x = c := fun e => h.1 e.symm
    simp [lastIndexByte, hx, ih h.2]

theorem indexByte_append (c : Char) (pre post : List Char) (h : c ∉ pre) :
    indexByte c (pre ++ c :: post) = some pre.length := by
  induction pre with
  | nil => simp [indexByte]
  | cons x xs ih =>
    simp only [List.mem_cons, not_or] at h
    have hx : ¬ x = c := fun e => h.1 e.symm
    simp [indexByte, hx, ih h.2]

theorem lastIndexByte_append (c : Char) (pre post : List Char) (h : c ∉ post) :
    lastIndexByte c (pre ++ c :: post) = some pre.length := by
  induction pre with
  | nil => simp [lastIndexByte, lastIndexByte_eq_none c post h]
  | cons x xs ih => simp [lastIndexByte, ih]

theorem indexByte_lt (c : Char) (l : List Char) (i : Nat) (h : indexByte c l = some i) :
    i < l.length := by
  induction l generalizing i with
  | nil => simp [indexByte] at h
  | cons x xs ih =>
    simp only [indexByte] at h
    split_ifs at h with hx
    · simp only [Option.some.injEq] at h
      subst h
      simp
    · cases hi : indexByte c xs with
      | none => simp [hi] at h
      | some j =>
        simp only [hi, Option.map_some', Option.some.injEq] at h
        subst h
        have := ih j hi
        simp only [List.length_cons]
        omega

theorem indexByte_isSome_of_mem (c : Char) (l : List Char) (h : c ∈ l) :
    ∃ i, indexByte c l = some i := by
  induction l with
  | nil => simp at h
  | cons x xs ih =>
    by_cases hx : x = c
    · exact ⟨0, by simp [indexByte, hx]⟩
    · have hm : c ∈ xs := by
        simp only [List.mem_cons] at h
        rcases h with h | h
        · exact absurd h.symm hx
        · exact h
      obtain ⟨i, hi⟩ := ih hm
      exact ⟨i + 1, by simp [indexByte, hx, hi]⟩

theorem containsChar_eq_false (s : String) (c : Char) :
    containsChar s c = false ↔ c ∉ s.data := by
  simp [containsChar]

theorem hasPrefixChars_append (p rest : List Char) : hasPrefixChars (p ++ rest) p = true := by
  induction p with
  | nil => cases rest <;> rfl
  | cons x xs ih => simp [hasPrefixChars, ih]

theorem containsChars_append (pre sub post : List Char) (hsub : sub ≠ []) :
    containsChars (pre ++ sub ++ post) sub = true := by
  induction pre with
  | nil =>
    cases sub with
    | nil => exact absurd rfl hsub
    | cons x xs =>
      have := hasPrefixChars_append (x :: xs) post
      simp only [List.nil_append, List.cons_append] at this ⊢
      simp [containsChars, this]
  | cons y ys ih =>
    simp only [List.cons_append, containsChars, Bool.or_eq_true]
    exact Or.inr (by simpa using ih)

theorem containsChars_of_not_mem (c : Char) (sub s : List Char) (h : c ∉ s) :
    containsChars s (c :: sub) = false := by
  induction s with
  | nil => rfl
  | cons x xs ih =>
    simp only [List.mem_cons, not_or] at h
    have hx : ¬ x = c := fun e => h.1 e.symm
    simp [containsChars, hasPrefixChars, hx, ih h.2]

theorem containsChars_nil (l : List Char) : containsChars l [] = true := by
  cases l <;> simp [containsChars, hasPrefixChars]

theorem hasPrefixChars_append_right (a b sub : List Char) (h : hasPrefixChars a sub = true) :
    hasPrefixChars (a ++ b) sub = true := by
  induction sub generalizing a with
  | nil => cases hab : a ++ b <;> rfl
  | cons x xs ih =>
    cases a with
    | nil => simp [hasPrefixChars] at h
    | cons y ys =>
      simp only [hasPrefixChars, Bool.and_eq_true] at h
      simp [hasPrefixChars, h.1, ih ys h.2]

theorem containsChars_append_right (a b sub : List Char) (h : containsChars a sub = true) :
    containsChars (a ++ b) sub = true := by
  induction a with
  | nil =>
    have : sub = [] := by simpa [containsChars] using h
    subst this
    exact containsChars_nil _
  | cons y ys ih =>
    simp only [containsChars, Bool.or_eq_true] at h
    simp only [List.cons_append, containsChars, Bool.or_eq_true]
    rcases h with h | h
    · exact Or.inl (by simpa using hasPrefixChars_append_right (y :: ys) b sub h)
    · exact Or.inr (ih h)

theorem withDefaultScheme_of_contains (a b : String) (h : stringsContains a "://" = true) :
    withDefaultScheme (a ++ b) = a ++ b := by
  have : stringsContains (a ++ b) "://" = true := by
    unfold stringsContains at h ⊢
    rw [String.data_append]
    exact containsChars_append_right _ _ _ h
  simp [withDefaultScheme, this]

theorem withDefaultScheme_of_no_colon (s : String) (h : ':' ∉ s.data) :
    withDefaultScheme s = "udp://" ++ s := by
  have : stringsContains s "://" = false := containsChars_of_not_mem ':' ['/', '/'] s.data h
  simp [withDefaultScheme, this]

theorem withDefaultScheme_of_scheme (scheme rest : String) :
    withDefaultScheme (scheme ++ "://" ++ rest) = scheme ++ "://" ++ rest := by
  have : stringsContains (scheme ++ "://" ++ rest) "://" = true := by
    unfold stringsContains
    rw [String.data_append, String.data_append]
    exact containsChars_append _ _ _ (by decide)
  simp [withDefaultScheme, this]

theorem SplitHostPort_plain (h p : List Char)
    (hc : ':' ∉ h) (hl : '[' ∉ h) (hr : ']' ∉ h)
    (pc : ':' ∉ p) (pl : '[' ∉ p) (pr : ']' ∉ p) :
    SplitHostPort (String.mk (h ++ ':' :: p)) = .ok (String.mk h, String.mk p) := by
  have hlast := lastIndexByte_append ':' h p pc
  have hhead : (h ++ ':' :: p).head? ≠ some '[' := by
    cases h with
    | nil => simp
    | cons x xs =>
      simp only [List.mem_cons, not_or] at hl
      simpa using fun e => hl.1 e.symm
  have hopen : indexByte '[' (h ++ ':' :: p) = none :=
    indexByte_eq_none _ _ (by simp [hl, pl])
  have hclose : indexByte ']' (h ++ ':' :: p) = none :=
    indexByte_eq_none _ _ (by simp [hr, pr])
  unfold SplitHostPort
  simp only [hlast, if_neg hhead, List.take_left', indexByte_eq_none ':' h hc, List.drop_zero,
    hopen, hclose, Option.isSome_none, Bool.false_eq_true, if_false]
  simp

theorem hostWithDefaultPort_no_port (host defPort : String)
    (hc : ':' ∉ host.data) (hl : '[' ∉ host.data) (hr : ']' ∉ host.data) :
    hostWithDefaultPort host defPort = .ok (host ++ ":" ++ defPort) := by
  have hcon : containsChar host ':' = false := (containsChar_eq_false _ _).2 hc
  have hsplit : SplitHostPort (host ++ ":") = .ok (host, "") := by
    have := SplitHostPort_plain host.data [] hc hl hr (by simp) (by simp) (by simp)
    simpa [String.ext_iff] using this
  unfold hostWithDefaultPort
  simp only [hcon, Bool.not_false, if_true, hsplit]
  simp [JoinHostPort, indexByte_eq_none ':' host.data hc]

theorem hostWithDefaultPort_with_port (h p defPort : String)
    (hc : ':' ∉ h.data) (hl : '[' ∉ h.data) (hr : ']' ∉ h.data)
    (pc : ':' ∉ p.data) (pl : '[' ∉ p.data) (pr : ']' ∉ p.data) (hp : p ≠ "") :
    hostWithDefaultPort (h ++ ":" ++ p) defPort = .ok (h ++ ":" ++ p) := by
  have hcon : containsChar (h ++ ":" ++ p) ':' = true := by
    simp [containsChar]
  have hsplit : SplitHostPort (h ++ ":" ++ p) = .ok (h, p) := by
    have := SplitHostPort_plain h.data p.data hc hl hr pc pl pr
    have e : h ++ ":" ++ p = String.mk (h.data ++ ':' :: p.data) := by
      simp [String.ext_iff]
    rw [e]; exact this
  unfold hostWithDefaultPort
  simp only [hcon, Bool.not_true, Bool.false_eq_true, if_false, hsplit, if_neg hp]
  simp [JoinHostPort, indexByte_eq_none ':' h.data hc]

theorem SplitHostPort_bracketed (h p : List Char)
    (hl : '[' ∉ h) (hr : ']' ∉ h) (pc : ':' ∉ p) (pl : '[' ∉ p) (pr : ']' ∉ p) :
    SplitHostPort (String.mk ('[' :: h ++ ']' :: ':' :: p)) = .ok (String.mk h, String.mk p) := by
  have hs : '[' :: h ++ ']' :: ':' :: p = ('[' :: h ++ [']']) ++ ':' :: p := by simp
  have hlast : lastIndexByte ':' ('[' :: h ++ ']' :: ':' :: p) = some (h.length + 2) := by
    rw [hs, lastIndexByte_append ':' _ p pc]
    simp
  have hclose : indexByte ']' ('[' :: h ++ ']' :: ':' :: p) = some (h.length + 1) := by
    have : ']' ∉ '[' :: h := by simp [hr]
    have e := indexByte_append ']' ('[' :: h) (':' :: p) this
    simpa using e
  have hlen : ('[' :: h ++ ']' :: ':' :: p).length = h.length + p.length + 3 := by
    simp; omega
  have htake : (('[' :: h ++ ']' :: ':' :: p).take (h.length + 1)).drop 1 = h := by
    have : '[' :: h ++ ']' :: ':' :: p = ('[' :: h) ++ ']' :: ':' :: p := by simp
    rw [this, List.take_left' (by simp)]
    rfl
  have hdrop1 : ('[' :: h ++ ']' :: ':' :: p).drop 1 = h ++ ']' :: ':' :: p := by simp
  have hdrop2 : ('[' :: h ++ ']' :: ':' :: p).drop (h.length + 1 + 1) = ':' :: p := by
    rw [hs, List.drop_left' (by simp)]
  have hdrop3 : ('[' :: h ++ ']' :: ':' :: p).drop (h.length + 2 + 1) = p := by
    have : '[' :: h ++ ']' :: ':' :: p = ('[' :: h ++ [']', ':']) ++ p := by simp
    rw [this, List.drop_left' (by simp)]
  have hopen : indexByte '[' (h ++ ']' :: ':' :: p) = none :=
    indexByte_eq_none _ _ (by simp [hl, pl])
  have hclose2 : indexByte ']' (':' :: p) = none :=
    indexByte_eq_none _ _ (by simp [pr])
  have hne : ¬ h.length + 1 + 1 = h.length + p.length + 3 := by omega
  have hhead : ('[' :: h ++ ']' :: ':' :: p).head? = some '[' := rfl
  unfold SplitHostPort
  simp only [hlast, hhead, if_true, hclose, hlen, if_neg hne, htake, hdrop1, hdrop2,
    hdrop3, hopen, hclose2, Option.isSome_none, Bool.false_eq_true, if_false]

theorem hostWithDefaultPort_bracketed (h p defPort : String)
    (hc : ':' ∈ h.data) (hl : '[' ∉ h.data) (hr : ']' ∉ h.data)
    (pc : ':' ∉ p.data) (pl : '[' ∉ p.data) (pr : ']' ∉ p.data) (hp : p ≠ "") :
    hostWithDefaultPort ("[" ++ h ++ "]:" ++ p) defPort = .ok ("[" ++ h ++ "]:" ++ p) := by
  have hcon : containsChar ("[" ++ h ++ "]:" ++ p) ':' = true := by
    simp [containsChar]
  have hsplit : SplitHostPort ("[" ++ h ++ "]:" ++ p) = .ok (h, p) := by
    have := SplitHostPort_bracketed h.data p.data hl hr pc pl pr
    have e : "[" ++ h ++ "]:" ++ p = String.mk ('[' :: h.data ++ ']' :: ':' :: p.data) := by
      simp [String.ext_iff]
    rw [e]; exact this
  obtain ⟨i, hi⟩ := indexByte_isSome_of_mem ':' h.data hc
  unfold hostWithDefaultPort
  simp only [hcon, Bool.not_true, Bool.false_eq_true, if_false, hsplit, if_neg hp]
  simp [JoinHostPort, hi]

/-! ## Lemmas: the nameserver loop -/

section NameServerLoop

variable (up : String → Except String URL) (us : URL → String)

theorem parseNameServerFrom_append (pre post : List String) (idx : Nat)
    (acc : List NameServer) :
    parseNameServerFrom up us idx (pre ++ post) acc =
      match parseNameServerFrom up us idx pre acc with
      | .ok ns => parseNameServerFrom up us (idx + pre.length) post ns
      | .error e => .error e := by
  induction pre generalizing idx acc with
  | nil => simp [parseNameServerFrom]
  | cons s rest ih =>
    simp only [List.cons_append, parseNameServerFrom, List.length_cons]
    cases nameServerEntry up us idx s with
    | error e => rfl
    | ok n =>
      simp only []
      rw [List.append_eq, ih]
      have : idx + 1 + rest.length = idx + (rest.length + 1) := by omega
      rw [this]

theorem nameServerEntry_eq (idx : Nat) (server : String) (u : URL) (addr tag : String)
    (hu : up (withDefaultScheme server) = .ok u)
    (hsw : schemeSwitch us u = some (.ok addr, tag)) :
    nameServerEntry up us idx server = .ok ⟨tag, addr, u.Fragment⟩ := by
  unfold nameServerEntry
  rw [hu]
  simp only [hsw]

theorem nameServerEntry_ok_iff (idx : Nat) (server : String) (n : NameServer) :
    nameServerEntry up us idx server = .ok n ↔
      ∃ u, up (withDefaultScheme server) = .ok u ∧ n.Interface = u.Fragment ∧
        ((u.Scheme = "udp" ∧ n.Net = "" ∧ hostWithDefaultPort u.Host "53" = .ok n.Addr) ∨
         (u.Scheme = "tcp" ∧ n.Net = "tcp" ∧ hostWithDefaultPort u.Host "53" = .ok n.Addr) ∨
         (u.Scheme = "tls" ∧ n.Net = "tcp-tls" ∧
            hostWithDefaultPort u.Host "853" = .ok n.Addr) ∨
         (u.Scheme = "https" ∧ n.Net = "https" ∧
            n.Addr = us { Scheme := "https", Host := u.Host, Path := u.Path, User := u.User,
                          Fragment := "" }) ∨
         (u.Scheme = "dhcp" ∧ n.Net = "dhcp" ∧ n.Addr = u.Host)) := by
  obtain ⟨net, addr, iface⟩ := n
  unfold nameServerEntry
  cases hu : up (withDefaultScheme server) with
  | error msg => simp
  | ok u =>
    simp only [Except.ok.injEq, exists_eq_left']
    unfold schemeSwitch
    by_cases h1 : u.Scheme = "udp"
    · simp only [h1, if_true]
      cases hh : hostWithDefaultPort u.Host "53" with
      | error e => simp
      | ok a => simp; tauto
    by_cases h2 : u.Scheme = "tcp"
    · simp only [h2, if_true]
      cases hh : hostWithDefaultPort u.Host "53" with
      | error e => simp
      | ok a => simp; tauto
    by_cases h3 : u.Scheme = "tls"
    · simp only [h3, if_true]
      cases hh : hostWithDefaultPort u.Host "853" with
      | error e => simp
      | ok a => simp; tauto
    by_cases h4 : u.Scheme = "https"
    · simp [h4]; tauto
    by_cases h5 : u.Scheme = "dhcp"
    · simp [h5]; tauto
    simp [h1, h2, h3, h4, h5]

theorem parseNameServerFrom_ok_iff (servers : List String) (idx : Nat)
    (acc ns : List NameServer) :
    parseNameServerFrom up us idx servers acc = .ok ns ↔
      ∃ out, ns = acc ++ out ∧
        List.Forall₂ (fun s n => nameServerEntry up us 0 s = .ok n) servers out := by
  induction servers generalizing idx acc with
  | nil =>
    simp only [parseNameServerFrom, Except.ok.injEq, List.forall₂_nil_left_iff]
    constructor
    · intro h; exact ⟨[], by simp [h], rfl⟩
    · rintro ⟨out, h, rfl⟩; simp [h]
  | cons s rest ih =>
    have hidx : ∀ n, nameServerEntry up us idx s = .ok n ↔ nameServerEntry up us 0 s = .ok n :=
      fun n => by rw [nameServerEntry_ok_iff, nameServerEntry_ok_iff]
    simp only [parseNameServerFrom]
    cases hs : nameServerEntry up us idx s with
    | error e =>
      simp only [false_iff, reduceCtorEq]
      rintro ⟨out, -, hall⟩
      cases hall with
      | cons h _ => rw [← hidx, hs] at h; simp at h
    | ok n =>
      simp only []
      rw [ih]
      constructor
      · rintro ⟨out, rfl, hall⟩
        exact ⟨n :: out, by simp, List.Forall₂.cons ((hidx n).1 hs) hall⟩
      · rintro ⟨out, rfl, hall⟩
        cases hall with
        | cons h htail =>
          rename_i n' out'
          rw [← hidx, hs] at h
          simp only [Except.ok.injEq] at h
          subst h
          exact ⟨out', by simp, htail⟩

end NameServerLoop

/-! ## Nameservers: the claims -/

/-- C5: `parseNameServer` returns one nameserver per entry, in input order,
each built by the scheme table (udp and no scheme: port 53, transport "";
tcp: port 53, "tcp"; tls: port 853, "tcp-tls"; https: rebuilt URL, "https";
dhcp: "dhcp", address = host). For a host that holds none of `:`, `[`, `]`
the entries `host`, `udp://host`, `tcp://host`, `tls://host` give `host:53`,
`host:53`, `host:53`, `host:853` and `dhcp://name` gives address `name`;
`8.8.8.8` gives `8.8.8.8:53`. A bracketed IPv6 literal written without a port
is rejected with `missing port in address` instead of getting the default
port. -/
theorem parseNameServer_scheme_table (up : String → Except String URL) (us : URL → String) :
    (∀ servers ns, parseNameServer up us servers = .ok ns ↔
      List.Forall₂
        (fun server n => ∃ u, up (withDefaultScheme server) = .ok u ∧
          n.Interface = u.Fragment ∧
          ((u.Scheme = "udp" ∧ n.Net = "" ∧ hostWithDefaultPort u.Host "53" = .ok n.Addr) ∨
           (u.Scheme = "tcp" ∧ n.Net = "tcp" ∧
              hostWithDefaultPort u.Host "53" = .ok n.Addr) ∨
           (u.Scheme = "tls" ∧ n.Net = "tcp-tls" ∧
              hostWithDefaultPort u.Host "853" = .ok n.Addr) ∨
           (u.Scheme = "https" ∧ n.Net = "https" ∧
              n.Addr = us { Scheme := "https", Host := u.Host, Path := u.Path,
                            User := u.User, Fragment := "" }) ∨
           (u.Scheme = "dhcp" ∧ n.Net = "dhcp" ∧ n.Addr = u.Host)))
        servers ns) ∧
    (∀ host name : String, ':' ∉ host.data → '[' ∉ host.data → ']' ∉ host.data →
      parsesTo up ("udp://" ++ host) "udp" host "" →
      parsesTo up ("tcp://" ++ host) "tcp" host "" →
      parsesTo up ("tls://" ++ host) "tls" host "" →
      parsesTo up ("dhcp://" ++ name) "dhcp" name "" →
      parseNameServer up us
          [host, "udp://" ++ host, "tcp://" ++ host, "tls://" ++ host, "dhcp://" ++ name] =
        .ok [⟨"", host ++ ":" ++ "53", ""⟩, ⟨"", host ++ ":" ++ "53", ""⟩,
             ⟨"tcp", host ++ ":" ++ "53", ""⟩, ⟨"tcp-tls", host ++ ":" ++ "853", ""⟩,
             ⟨"dhcp", name, ""⟩]) ∧
    parseNameServer urlParseRef urlStringRef
        ["8.8.8.8", "udp://8.8.8.8", "tcp://8.8.8.8", "tls://8.8.8.8", "dhcp://en0"] =
      .ok [⟨"", "8.8.8.8:53", ""⟩, ⟨"", "8.8.8.8:53", ""⟩, ⟨"tcp", "8.8.8.8:53", ""⟩,
           ⟨"tcp-tls", "8.8.8.8:853", ""⟩, ⟨"dhcp", "en0", ""⟩] ∧
    urlParseRef "tls://[2606:4700:4700::1111]" =
      .ok ⟨"tls", none, "[2606:4700:4700::1111]", "", ""⟩ ∧
    hostWithDefaultPort "[2606:4700:4700::1111]" "853" = .error "missing port in address" ∧
    parseNameServer urlParseRef urlStringRef ["tls://[2606:4700:4700::1111]"] =
      .error (.format 0 "missing port in address") := by
  refine ⟨?_, ?_, by decide, by decide, by decide, by decide⟩
  · intro servers ns
    have h := parseNameServerFrom_ok_iff up us servers 0 [] ns
    simp only [List.nil_append, exists_eq_left'] at h
    unfold parseNameServer
    rw [h]
    constructor
    · intro hall
      exact hall.imp (fun s n hs => (nameServerEntry_ok_iff up us 0 s n).1 hs)
    · intro hall
      exact hall.imp (fun s n hs => (nameServerEntry_ok_iff up us 0 s n).2 hs)
  · intro host name hc hl hr hudp htcp htls hdhcp
    have p53 := hostWithDefaultPort_no_port host "53" hc hl hr
    have p853 := hostWithDefaultPort_no_port host "853" hc hl hr
    unfold parsesTo at hudp htcp htls hdhcp
    have hudp0 : up (withDefaultScheme host) = _ :=
      (withDefaultScheme_of_no_colon host hc).symm ▸ hudp
    have hudp1 : up (withDefaultScheme ("udp://" ++ host)) = _ :=
      (withDefaultScheme_of_contains "udp://" host (by decide)).symm ▸ hudp
    have htcp1 : up (withDefaultScheme ("tcp://" ++ host)) = _ :=
      (withDefaultScheme_of_contains "tcp://" host (by decide)).symm ▸ htcp
    have htls1 : up (withDefaultScheme ("tls://" ++ host)) = _ :=
      (withDefaultScheme_of_contains "tls://" host (by decide)).symm ▸ htls
    have hdhcp1 : up (withDefaultScheme ("dhcp://" ++ name)) = _ :=
      (withDefaultScheme_of_contains "dhcp://" name (by decide)).symm ▸ hdhcp
    have s1 : schemeSwitch us ⟨"udp", none, host, "", ""⟩ =
        some (.ok (host ++ ":" ++ "53"), "") := by
      unfold schemeSwitch; dsimp only; rw [if_pos rfl, p53]
    have s2 : schemeSwitch us ⟨"tcp", none, host, "", ""⟩ =
        some (.ok (host ++ ":" ++ "53"), "tcp") := by
      unfold schemeSwitch; dsimp only; rw [if_neg (by decide), if_pos rfl, p53]
    have s3 : schemeSwitch us ⟨"tls", none, host, "", ""⟩ =
        some (.ok (host ++ ":" ++ "853"), "tcp-tls") := by
      unfold schemeSwitch; dsimp only; rw [if_neg (by decide), if_neg (by decide), if_pos rfl, p853]
    have s4 : schemeSwitch us ⟨"dhcp", none, name, "", ""⟩ = some (.ok name, "dhcp") := by
      unfold schemeSwitch
      dsimp only
      rw [if_neg (by decide), if_neg (by decide), if_neg (by decide), if_neg (by decide),
        if_pos rfl]
    simp only [parseNameServer, parseNameServerFrom,
      nameServerEntry_eq up us _ _ _ _ _ hudp0 s1, nameServerEntry_eq up us _ _ _ _ _ hudp1 s1,
      nameServerEntry_eq up us _ _ _ _ _ htcp1 s2, nameServerEntry_eq up us _ _ _ _ _ htls1 s3,
      nameServerEntry_eq up us _ _ _ _ _ hdhcp1 s4, List.nil_append, List.cons_append]

theorem parseNameServer_hostport_entries (up : String → Except String URL)
    (us : URL → String) (scheme hostport frag : String)
    (hs : scheme = "udp" ∨ scheme = "tcp" ∨ scheme = "tls")
    (hq : ∀ d, hostWithDefaultPort hostport d = .ok hostport)
    (hfrag : parsesTo up (scheme ++ "://" ++ (hostport ++ "#" ++ frag)) scheme hostport frag)
    (hplain : parsesTo up (scheme ++ "://" ++ hostport) scheme hostport "") :
    parseNameServer up us
        [scheme ++ "://" ++ (hostport ++ "#" ++ frag), scheme ++ "://" ++ hostport] =
      .ok [⟨if scheme = "udp" then "" else if scheme = "tcp" then "tcp" else "tcp-tls",
            hostport, frag⟩,
           ⟨if scheme = "udp" then "" else if scheme = "tcp" then "tcp" else "tcp-tls",
            hostport, ""⟩] := by
  have e1 := withDefaultScheme_of_scheme scheme (hostport ++ "#" ++ frag)
  have e2 := withDefaultScheme_of_scheme scheme hostport
  unfold parsesTo at hfrag hplain
  rw [← e1] at hfrag
  rw [← e2] at hplain
  have hsw : ∀ f, schemeSwitch us ⟨scheme, none, hostport, "", f⟩ =
      some (.ok hostport,
        if scheme = "udp" then "" else if scheme = "tcp" then "tcp" else "tcp-tls") := by
    intro f
    unfold schemeSwitch
    dsimp only
    rcases hs with rfl | rfl | rfl
    · rw [if_pos rfl, if_pos rfl, hq]
    · rw [if_neg (by decide), if_pos rfl, if_neg (by decide), if_pos rfl, hq]
    · rw [if_neg (by decide), if_neg (by decide), if_pos rfl, if_neg (by decide),
        if_neg (by decide), hq]
  simp only [parseNameServer, parseNameServerFrom,
    nameServerEntry_eq up us _ _ _ _ _ hfrag (hsw frag),
    nameServerEntry_eq up us _ _ _ _ _ hplain (hsw ""), List.nil_append, List.cons_append]

/-- C6: an udp, tcp or tls entry written `scheme://w:p#frag` with a port `p`
that is not empty, the host `w` being a name or IPv4 literal `h` or a
bracketed IPv6 literal `[h]`, yields the address `w:p` with the written port
(whatever the default port of the scheme is) and the fragment as interface;
written without fragment it yields the same address with an empty
interface. -/
theorem parseNameServer_explicit_port_fragment (up : String → Except String URL)
    (us : URL → String) (scheme h w p frag : String)
    (hs : scheme = "udp" ∨ scheme = "tcp" ∨ scheme = "tls")
    (hw : (':' ∉ h.data ∧ w = h) ∨ (':' ∈ h.data ∧ w = "[" ++ h ++ "]"))
    (hl : '[' ∉ h.data) (hr : ']' ∉ h.data)
    (pc : ':' ∉ p.data) (pl : '[' ∉ p.data) (pr : ']' ∉ p.data) (hp : p ≠ "")
    (hfrag : parsesTo up (scheme ++ "://" ++ (w ++ ":" ++ p ++ "#" ++ frag)) scheme
      (w ++ ":" ++ p) frag)
    (hplain : parsesTo up (scheme ++ "://" ++ (w ++ ":" ++ p)) scheme (w ++ ":" ++ p) "") :
    parseNameServer up us
        [scheme ++ "://" ++ (w ++ ":" ++ p ++ "#" ++ frag), scheme ++ "://" ++ (w ++ ":" ++ p)] =
      .ok [⟨if scheme = "udp" then "" else if scheme = "tcp" then "tcp" else "tcp-tls",
            w ++ ":" ++ p, frag⟩,
           ⟨if scheme = "udp" then "" else if scheme = "tcp" then "tcp" else "tcp-tls",
            w ++ ":" ++ p, ""⟩] := by
  have hq : ∀ d, hostWithDefaultPort (w ++ ":" ++ p) d = .ok (w ++ ":" ++ p) := by
    intro d
    rcases hw with ⟨hc, rfl⟩ | ⟨hc, rfl⟩
    · exact hostWithDefaultPort_with_port w p d hc hl hr pc pl pr hp
    · have e : "[" ++ h ++ "]" ++ ":" ++ p = "[" ++ h ++ "]:" ++ p := by
        simp [String.ext_iff]
      rw [e]
      exact hostWithDefaultPort_bracketed h p d hc hl hr pc pl pr hp
  exact parseNameServer_hostport_entries up us scheme (w ++ ":" ++ p) frag hs hq hfrag hplain

/-- Witness for C6: `tls://1.1.1.1:853#eth0` and, with a bracketed IPv6
literal, `tcp://[2001:db8::1]:5353#en0`, under the reference URL parser. -/
theorem parseNameServer_explicit_port_fragment_witness :
    parseNameServer urlParseRef urlStringRef
        ["tls" ++ "://" ++ ("1.1.1.1" ++ ":" ++ "853" ++ "#" ++ "eth0"),
         "tls" ++ "://" ++ ("1.1.1.1" ++ ":" ++ "853")] =
      .ok [⟨if "tls" = "udp" then "" else if "tls" = "tcp" then "tcp" else "tcp-tls",
            "1.1.1.1" ++ ":" ++ "853", "eth0"⟩,
           ⟨if "tls" = "udp" then "" else if "tls" = "tcp" then "tcp" else "tcp-tls",
            "1.1.1.1" ++ ":" ++ "853", ""⟩] ∧
    parseNameServer urlParseRef urlStringRef
        ["tcp" ++ "://" ++ ("[2001:db8::1]" ++ ":" ++ "5353" ++ "#" ++ "en0"),
         "tcp" ++ "://" ++ ("[2001:db8::1]" ++ ":" ++ "5353")] =
      .ok [⟨if "tcp" = "udp" then "" else if "tcp" = "tcp" then "tcp" else "tcp-tls",
            "[2001:db8::1]" ++ ":" ++ "5353", "en0"⟩,
           ⟨if "tcp" = "udp" then "" else if "tcp" = "tcp" then "tcp" else "tcp-tls",
            "[2001:db8::1]" ++ ":" ++ "5353", ""⟩] :=
  ⟨parseNameServer_explicit_port_fragment urlParseRef urlStringRef "tls" "1.1.1.1" "1.1.1.1"
    "853" "eth0" (by decide) (by decide) (by decide) (by decide) (by decide) (by decide)
    (by decide) (by decide) (by decide) (by decide),
   parseNameServer_explicit_port_fragment urlParseRef urlStringRef "tcp" "2001:db8::1"
    "[2001:db8::1]" "5353" "en0" (by decide) (by decide) (by decide) (by decide) (by decide)
    (by decide) (by decide) (by decide) (by decide) (by decide)⟩

/-- C7: an entry that the URL library reads with a scheme other than udp,
tcp, tls, https and dhcp makes `parseNameServer` fail, whatever stands around
it; when the entries before it parse, the error is `unsupport scheme` with
the entry's index and the scheme, and the entries parsed before it are not
returned. -/
theorem parseNameServer_unsupported_scheme (up : String → Except String URL)
    (us : URL → String) (pre post : List String) (entry : String) (u : URL)
    (hu : up (withDefaultScheme entry) = .ok u)
    (hs : u.Scheme ∉ ["udp", "tcp", "tls", "https", "dhcp"]) :
    (∃ e, parseNameServer up us (pre ++ entry :: post) = .error e) ∧
    (∀ ns, parseNameServer up us pre = .ok ns →
      parseNameServer up us (pre ++ entry :: post) =
        .error (.unsupportScheme pre.length u.Scheme)) := by
  simp only [List.mem_cons, List.mem_singleton, List.not_mem_nil, or_false, not_or] at hs
  obtain ⟨h1, h2, h3, h4, h5⟩ := hs
  have hstep : ∀ idx acc, parseNameServerFrom up us idx (entry :: post) acc =
      .error (.unsupportScheme idx u.Scheme) := by
    intro idx acc
    simp [parseNameServerFrom, nameServerEntry, schemeSwitch, hu, h1, h2, h3, h4, h5]
  have happ := parseNameServerFrom_append up us pre (entry :: post) 0 []
  unfold parseNameServer
  constructor
  · rw [happ]
    cases parseNameServerFrom up us 0 pre [] with
    | error e => exact ⟨e, rfl⟩
    | ok ns => exact ⟨_, hstep _ _⟩
  · intro ns hns
    rw [happ, hns]
    simp [hstep]

/-- Witness for C7: `foo://x` after `8.8.8.8` under the reference URL
parser. -/
theorem parseNameServer_unsupported_scheme_witness :
    parseNameServer urlParseRef urlStringRef (["8.8.8.8"] ++ "foo://x" :: ["1.1.1.1"]) =
      .error (.unsupportScheme 1 "foo") :=
  (parseNameServer_unsupported_scheme urlParseRef urlStringRef ["8.8.8.8"] ["1.1.1.1"]
    "foo://x" ⟨"foo", none, "x", "", ""⟩ (by decide) (by decide)).2
    [⟨"", "8.8.8.8:53", ""⟩] (by decide)

/-! ## Lemmas: decimal numbers -/

theorem digitValue_digitChar (v : Nat) (h : v < 10) : digitValue (Nat.digitChar v) = some v := by
  interval_cases v <;> decide

theorem digitChar_ne_colon (v : Nat) (h : v < 10) : Nat.digitChar v ≠ ':' := by
  interval_cases v <;> decide

theorem foldl_digits_ge (vs : List Nat) (acc : Nat) :
    acc ≤ vs.foldl (fun a d => a * 10 + d) acc := by
  induction vs generalizing acc with
  | nil => simp
  | cons v vs ih =>
    simp only [List.foldl_cons]
    exact le_trans (by omega) (ih (acc * 10 + v))

theorem parseUintLoop_digits (maxVal : Nat) (vs : List Nat) (rest : List Char) (acc : Nat)
    (hlt : ∀ v ∈ vs, v < 10) (hmax : vs.foldl (fun a d => a * 10 + d) acc ≤ maxVal) :
    parseUintLoop maxVal (vs.map Nat.digitChar ++ rest) acc =
      parseUintLoop maxVal rest (vs.foldl (fun a d => a * 10 + d) acc) := by
  induction vs generalizing acc with
  | nil => simp
  | cons v vs ih =>
    have hv : v < 10 := hlt v (by simp)
    simp only [List.foldl_cons] at hmax
    have hstep : ¬ acc * 10 + v > maxVal := by
      have := foldl_digits_ge vs (acc * 10 + v)
      omega
    simp only [List.map_cons, List.cons_append, parseUintLoop, digitValue_digitChar v hv,
      if_neg hstep, List.foldl_cons]
    exact ih _ (fun w hw => hlt w (by simp [hw])) hmax

theorem toDigitsCore_digits (fuel : Nat) :
    ∀ (n : Nat) (ds : List Char), n < fuel →
      ∃ vs : List Nat, vs ≠ [] ∧ (∀ v ∈ vs, v < 10) ∧
        vs.foldl (fun a d => a * 10 + d) 0 = n ∧
        Nat.toDigitsCore 10 fuel n ds = vs.map Nat.digitChar ++ ds := by
  induction fuel with
  | zero => intro n ds h; omega
  | succ fuel ih =>
    intro n ds h
    simp only [Nat.toDigitsCore]
    by_cases h0 : n / 10 = 0
    · refine ⟨[n % 10], by simp, ?_, ?_, ?_⟩
      · intro v hv
        simp only [List.mem_singleton] at hv
        omega
      · simp only [List.foldl_cons, List.foldl_nil]
        omega
      · simp [h0]
    · obtain ⟨vs, hne, hlt, hval, heq⟩ := ih (n / 10) (Nat.digitChar (n % 10) :: ds) (by omega)
      refine ⟨vs ++ [n % 10], by simp, ?_, ?_, ?_⟩
      · intro v hv
        simp only [List.mem_append, List.mem_singleton] at hv
        rcases hv with hv | hv
        · exact hlt v hv
        · omega
      · simp only [List.foldl_append, List.foldl_cons, List.foldl_nil, hval]
        omega
      · simp [h0, heq]

theorem toString_digits (n : Nat) :
    ∃ vs : List Nat, vs ≠ [] ∧ (∀ v ∈ vs, v < 10) ∧
      vs.foldl (fun a d => a * 10 + d) 0 = n ∧
      (toString n).data = vs.map Nat.digitChar := by
  obtain ⟨vs, hne, hlt, hval, heq⟩ := toDigitsCore_digits (n + 1) n [] (by omega)
  refine ⟨vs, hne, hlt, hval, ?_⟩
  show (Nat.repr n).data = _
  simp [Nat.repr, Nat.toDigits, heq, List.asString]

theorem ParseUint_digits (vs : List Nat) (bitSize : Nat) (hne : vs ≠ [])
    (hlt : ∀ v ∈ vs, v < 10)
    (hmax : vs.foldl (fun a d => a * 10 + d) 0 < 2 ^ bitSize) :
    ParseUint (String.mk (vs.map Nat.digitChar)) bitSize =
      .ok (vs.foldl (fun a d => a * 10 + d) 0) := by
  have hs : String.mk (vs.map Nat.digitChar) ≠ "" := by
    intro h
    have := congrArg String.data h
    simp only [List.map_eq_nil_iff] at this
    exact hne this
  unfold ParseUint
  rw [if_neg hs]
  have := parseUintLoop_digits (2 ^ bitSize - 1) vs [] 0 hlt (by omega)
  simpa [parseUintLoop] using this

/-! ## Lemmas: the range loop -/

theorem parseRange_append (pre post : List String) (rs : List UidRange) :
    parseRange rs (pre ++ post) =
      match parseRange rs pre with
      | .ok r => parseRange r post
      | .error e => .error e := by
  induction pre generalizing rs with
  | nil => simp [parseRange]
  | cons s rest ih =>
    simp only [List.cons_append, parseRange]
    split_ifs
    · rfl
    · rfl
    · rfl
    · cases ParseUint (String.mk (s.data.take (stringsIndex s ':').toNat)) 32 with
      | error e => rfl
      | ok a =>
        simp only []
        cases ParseUint (String.mk (s.data.drop ((stringsIndex s ':').toNat + 1))) 32 with
        | error e => rfl
        | ok b =>
          simp only []
          rw [List.append_eq, ih]

theorem parseRange_decimal (rs : List UidRange) (start stop : Nat)
    (hs : start < 2 ^ 32) (he : stop < 2 ^ 32) (rest : List String) :
    parseRange rs ((toString start ++ ":" ++ toString stop) :: rest) =
      parseRange (rs ++ [⟨start, stop⟩]) rest := by
  obtain ⟨vs, hvne, hvlt, hvval, hvs⟩ := toString_digits start
  obtain ⟨ws, hwne, hwlt, hwval, hws⟩ := toString_digits stop
  have hdata : (toString start ++ ":" ++ toString stop).data =
      vs.map Nat.digitChar ++ ':' :: ws.map Nat.digitChar := by
    simp [String.data_append, hvs, hws]
  have hnot : ':' ∉ vs.map Nat.digitChar := by
    intro hm
    obtain ⟨v, hv, hc⟩ := List.mem_map.1 hm
    exact digitChar_ne_colon v (hvlt v hv) hc
  have hidx : indexByte ':' (toString start ++ ":" ++ toString stop).data =
      some (vs.map Nat.digitChar).length := by
    rw [hdata]; exact indexByte_append _ _ _ hnot
  have hcon : containsChar (toString start ++ ":" ++ toString stop) ':' = true := by
    simp [containsChar, hdata]
  have hsub : stringsIndex (toString start ++ ":" ++ toString stop) ':' =
      ((vs.map Nat.digitChar).length : Int) := by
    simp only [stringsIndex, hidx]
  have hvpos : 0 < vs.length := List.length_pos.2 hvne
  have hwpos : 0 < ws.length := List.length_pos.2 hwne
  have h0 : ¬ ((vs.map Nat.digitChar).length : Int) = 0 := by
    simp only [List.length_map]; omega
  have h1 : ¬ ((vs.map Nat.digitChar).length : Int) =
      ((vs.map Nat.digitChar ++ ':' :: ws.map Nat.digitChar).length : Int) - 1 := by
    simp only [List.length_map, List.length_append, List.length_cons]; omega
  have hstart := ParseUint_digits vs 32 hvne hvlt (by rw [hvval]; exact hs)
  have hstop := ParseUint_digits ws 32 hwne hwlt (by rw [hwval]; exact he)
  rw [hvval] at hstart
  rw [hwval] at hstop
  rw [parseRange]
  simp only [hcon, Bool.not_true, Bool.false_eq_true, if_false, hsub, hdata, if_neg h0,
    if_neg h1, Int.toNat_ofNat, List.take_left, hstart]
  have hdrop : List.drop ((vs.map Nat.digitChar).length + 1)
      (vs.map Nat.digitChar ++ ':' :: ws.map Nat.digitChar) = ws.map Nat.digitChar := by
    rw [← List.drop_drop, List.drop_left]
    rfl
  rw [hdrop, hstop]
  simp only [toUint32, Nat.mod_eq_of_lt hs, Nat.mod_eq_of_lt he]

theorem parseRange_malformed_head (s : String)
    (hbad : ':' ∉ s.data ∨ s.data.head? = some ':' ∨
      indexByte ':' s.data = some (s.data.length - 1)) :
    ∃ e, ∀ (rs : List UidRange) (rest : List String), parseRange rs (s :: rest) = .error e := by
  rcases hbad with h | h | h
  · refine ⟨.missingColon s, fun rs rest => ?_⟩
    have : containsChar s ':' = false := (containsChar_eq_false _ _).2 h
    simp [parseRange, this]
  · refine ⟨.missingStart s, fun rs rest => ?_⟩
    cases hd : s.data with
    | nil => rw [hd] at h; simp at h
    | cons c cs =>
      rw [hd] at h
      simp only [List.head?_cons, Option.some.injEq] at h
      subst h
      have hcon : containsChar s ':' = true := by simp [containsChar, hd]
      have hidx : stringsIndex s ':' = 0 := by simp [stringsIndex, hd, indexByte]
      simp [parseRange, hcon, hidx]
  · have hlt := indexByte_lt _ _ _ h
    have hmem : ':' ∈ s.data := by
      by_contra hn
      rw [indexByte_eq_none _ _ hn] at h
      simp at h
    have hcon : containsChar s ':' = true := by simp [containsChar, hmem]
    have hidx : stringsIndex s ':' = ((s.data.length - 1 : Nat) : Int) := by
      simp only [stringsIndex, h]
    have hcast : ((s.data.length - 1 : Nat) : Int) = (s.data.length : Int) - 1 := by omega
    by_cases h0 : s.data.length - 1 = 0
    · refine ⟨.missingStart s, fun rs rest => ?_⟩
      have h0' : ((s.data.length - 1 : Nat) : Int) = 0 := by omega
      rw [parseRange]
      simp only [hcon, Bool.not_true, Bool.false_eq_true, if_false, hidx]
      rw [if_pos h0']
    · refine ⟨.missingEnd s, fun rs rest => ?_⟩
      have h0' : ¬ ((s.data.length - 1 : Nat) : Int) = 0 := by omega
      rw [parseRange]
      simp only [hcon, Bool.not_true, Bool.false_eq_true, if_false, hidx]
      rw [if_neg h0', if_pos hcast]

theorem parseRange_malformed_anywhere (rs : List UidRange) (pre post : List String)
    (s : String)
    (hbad : ':' ∉ s.data ∨ s.data.head? = some ':' ∨
      indexByte ':' s.data = some (s.data.length - 1)) :
    ∃ e, parseRange rs (pre ++ s :: post) = .error e := by
  obtain ⟨e, he⟩ := parseRange_malformed_head s hbad
  rw [parseRange_append]
  cases parseRange rs pre with
  | error e' => exact ⟨e', rfl⟩
  | ok r => exact ⟨e, he r post⟩

theorem NewStart_error_cases (P : TunPlatform) (p : Prepared) (c : RangeError) :
    (NewStart P p).1 ≠ .error (.parseIncludeUidRange c) ∧
    (NewStart P p).1 ≠ .error (.parseExcludeUidRange c) := by
  unfold NewStart
  simp only [failStart]
  constructor <;> (repeat' split) <;> simp

theorem deviceDefault_fields (P : TunPlatform) (o : Tun) :
    (deviceDefault P o).1.IncludeUID = o.IncludeUID ∧
    (deviceDefault P o).1.IncludeUIDRange = o.IncludeUIDRange ∧
    (deviceDefault P o).1.ExcludeUID = o.ExcludeUID ∧
    (deviceDefault P o).1.ExcludeUIDRange = o.ExcludeUIDRange := by
  unfold deviceDefault
  simp only []
  split <;> exact ⟨rfl, rfl, rfl, rfl⟩

theorem NewPrepare_include_error (P : TunPlatform) (o : Tun) (c : RangeError)
    (hlen : 0 < o.IncludeUIDRange.length)
    (h : parseRange (uidToRange o.IncludeUID) o.IncludeUIDRange = .error c) :
    NewPrepare P o = .error (.parseIncludeUidRange c) := by
  obtain ⟨h1, h2, -, -⟩ := deviceDefault_fields P o
  unfold NewPrepare
  simp only [h1, h2, gt_iff_lt, hlen, if_true, h]

theorem NewPrepare_exclude_error (P : TunPlatform) (o : Tun) (c : RangeError)
    (hlen : 0 < o.ExcludeUIDRange.length)
    (h : parseRange (uidToRange o.ExcludeUID) o.ExcludeUIDRange = .error c) :
    ∃ e, NewPrepare P o = .error e := by
  obtain ⟨h1, h2, h3, h4⟩ := deviceDefault_fields P o
  unfold NewPrepare
  simp only [h1, h2, h3, h4, gt_iff_lt, hlen, if_true, h]
  split
  · exact ⟨_, rfl⟩
  · exact ⟨_, rfl⟩

theorem parseDnsHijack_error (P : TunPlatform) (l : List String) (acc : List AddrPort)
    (e : NewError) (h : parseDnsHijack P l acc = .error e) : ∃ msg, e = .parseDnsHijack msg := by
  induction l generalizing acc with
  | nil => simp [parseDnsHijack] at h
  | cons d rest ih =>
    simp only [parseDnsHijack] at h
    split at h
    · simp only [Except.error.injEq] at h
      exact ⟨_, h.symm⟩
    · exact ih _ h

theorem NewPrepare_error_inv (P : TunPlatform) (o : Tun) (c : RangeError) :
    (NewPrepare P o = .error (.parseIncludeUidRange c) →
      parseRange (uidToRange o.IncludeUID) o.IncludeUIDRange = .error c) ∧
    (NewPrepare P o = .error (.parseExcludeUidRange c) →
      parseRange (uidToRange o.ExcludeUID) o.ExcludeUIDRange = .error c) := by
  obtain ⟨h1, h2, h3, h4⟩ := deviceDefault_fields P o
  unfold NewPrepare
  simp only [h1, h2, h3, h4, gt_iff_lt]
  cases hd : parseDnsHijack P (deviceDefault P o).1.DNSHijack [] with
  | error e =>
    obtain ⟨msg, rfl⟩ := parseDnsHijack_error P _ _ _ hd
    by_cases hi : 0 < o.IncludeUIDRange.length <;>
      by_cases he : 0 < o.ExcludeUIDRange.length <;>
      cases hpi : parseRange (uidToRange o.IncludeUID) o.IncludeUIDRange <;>
      cases hpe : parseRange (uidToRange o.ExcludeUID) o.ExcludeUIDRange <;>
      simp [hi, he]
  | ok d =>
    by_cases hi : 0 < o.IncludeUIDRange.length <;>
      by_cases he : 0 < o.ExcludeUIDRange.length <;>
      cases hpi : parseRange (uidToRange o.IncludeUID) o.IncludeUIDRange <;>
      cases hpe : parseRange (uidToRange o.ExcludeUID) o.ExcludeUIDRange <;>
      simp [hi, he]

/-! ## UID ranges: the claims -/

/-- C8: for unsigned 32-bit numbers `start ≤ stop` written in decimal,
`parseRange rs ["start:stop"]` succeeds with `rs` followed by the inclusive
range `[start, stop]`; a list of such strings yields `rs` followed by the
parsed ranges in input order; `"100:200"` parses to `[100, 200]`. -/
theorem parseRange_valid_ranges (rs : List UidRange) (start stop : Nat)
    (hle : start ≤ stop) (hstop : stop < 2 ^ 32) :
    parseRange rs [toString start ++ ":" ++ toString stop] = .ok (rs ++ [⟨start, stop⟩]) ∧
    (∀ pairs : List (Nat × Nat), (∀ q ∈ pairs, q.1 ≤ q.2 ∧ q.2 < 2 ^ 32) →
      parseRange rs (pairs.map (fun q => toString q.1 ++ ":" ++ toString q.2)) =
        .ok (rs ++ pairs.map (fun q => ⟨q.1, q.2⟩))) ∧
    parseRange rs ["100:200"] = .ok (rs ++ [⟨100, 200⟩]) := by
  refine ⟨?_, ?_, ?_⟩
  · rw [parseRange_decimal rs start stop (by omega) hstop]
    rfl
  · intro pairs
    induction pairs generalizing rs with
    | nil => intro _; simp [parseRange]
    | cons q qs ih =>
      intro hq
      have hq1 := hq q (by simp)
      rw [List.map_cons, parseRange_decimal rs q.1 q.2 (by omega) hq1.2,
        ih _ (fun r hr => hq r (by simp [hr]))]
      simp
  · have := parseRange_decimal rs 100 200 (by decide) (by decide) []
    have e : (toString 100 ++ ":" ++ toString 200 : String) = "100:200" := by decide
    rw [e] at this
    rw [this]
    rfl

/-- Witness for C8: `0:4294967295` after a singleton range. -/
theorem parseRange_valid_ranges_witness :
    parseRange [⟨7, 7⟩] [toString 0 ++ ":" ++ toString 4294967295] =
      .ok ([⟨7, 7⟩] ++ [⟨0, 4294967295⟩]) :=
  (parseRange_valid_ranges [⟨7, 7⟩] 0 4294967295 (by decide) (by decide)).1

/-- C9, as stated, fails: `"200:100"` is accepted by `parseRange`, and `New`
does not reject an include-uid-range or exclude-uid-range holding it. -/
theorem parseRange_reversed_not_rejected :
    parseRange [] ["200:100"] = .ok [⟨200, 100⟩] ∧
    (¬ ∃ e, parseRange [] ["200:100"] = .error e) ∧
    (¬ ∃ e, (New okPlatform { emptyTun with IncludeUIDRange := ["200:100"] }).1 = .error e) ∧
    (¬ ∃ e, (New okPlatform { emptyTun with ExcludeUIDRange := ["200:100"] }).1 = .error e) := by
  refine ⟨by decide, ?_, ?_, ?_⟩
  · rintro ⟨e, he⟩
    have h : parseRange [] ["200:100"] = .ok [⟨200, 100⟩] := by decide
    rw [h] at he
    exact absurd he (by simp)
  · rintro ⟨e, he⟩
    have h : ((New okPlatform { emptyTun with IncludeUIDRange := ["200:100"] }).1.toBool) =
        true := by decide
    rw [he] at h
    exact absurd h (by simp [Except.toBool])
  · rintro ⟨e, he⟩
    have h : ((New okPlatform { emptyTun with ExcludeUIDRange := ["200:100"] }).1.toBool) =
        true := by decide
    rw [he] at h
    exact absurd h (by simp [Except.toBool])

/-- C9, amended: for unsigned 32-bit numbers `start > stop`, `parseRange` on
`"start:stop"` succeeds and appends the range as written, start first; `New`
never fails with a UID-range error on an include-uid-range or
exclude-uid-range that consists of that string. -/
theorem parseRange_reversed_range_kept (rs : List UidRange) (start stop : Nat)
    (hgt : stop < start) (hstart : start < 2 ^ 32) :
    parseRange rs [toString start ++ ":" ++ toString stop] = .ok (rs ++ [⟨start, stop⟩]) ∧
    (∀ (P : TunPlatform) (options : Tun) (c : RangeError),
      options.IncludeUIDRange = [toString start ++ ":" ++ toString stop] →
      (New P options).1 ≠ .error (.parseIncludeUidRange c)) ∧
    (∀ (P : TunPlatform) (options : Tun) (c : RangeError),
      options.ExcludeUIDRange = [toString start ++ ":" ++ toString stop] →
      (New P options).1 ≠ .error (.parseExcludeUidRange c)) := by
  have hparse : ∀ rs', parseRange rs' [toString start ++ ":" ++ toString stop] =
      .ok (rs' ++ [⟨start, stop⟩]) := by
    intro rs'
    rw [parseRange_decimal rs' start stop hstart (by omega)]
    rfl
  refine ⟨hparse rs, ?_, ?_⟩
  · intro P options c hopt
    unfold New
    cases hprep : NewPrepare P options with
    | ok p => exact (NewStart_error_cases P p c).1
    | error e =>
      simp only [ne_eq, Except.error.injEq]
      rintro rfl
      have := (NewPrepare_error_inv P options c).1 hprep
      rw [hopt, hparse] at this
      exact absurd this (by simp)
  · intro P options c hopt
    unfold New
    cases hprep : NewPrepare P options with
    | ok p => exact (NewStart_error_cases P p c).2
    | error e =>
      simp only [ne_eq, Except.error.injEq]
      rintro rfl
      have := (NewPrepare_error_inv P options c).2 hprep
      rw [hopt, hparse] at this
      exact absurd this (by simp)

/-- Witness for C9 amended: `200:100` is kept as `[200, 100]`. -/
theorem parseRange_reversed_range_kept_witness :
    parseRange [] [toString 200 ++ ":" ++ toString 100] = .ok ([] ++ [⟨200, 100⟩]) :=
  (parseRange_reversed_range_kept [] 200 100 (by decide) (by decide)).1

/-- C10: a range list holding a string without `:`, a string that starts
with `:`, or a string whose first `:` is its last character makes
`parseRange` fail, whatever stands around it; `New` then returns an error, no
listener, and has acquired nothing. `":200"` and `"100:"` are such strings. -/
theorem parseRange_malformed_fails (rs : List UidRange) (pre post : List String) (s : String)
    (hbad : ':' ∉ s.data ∨ s.data.head? = some ':' ∨
      indexByte ':' s.data = some (s.data.length - 1)) :
    (∃ e, parseRange rs (pre ++ s :: post) = .error e) ∧
    (∀ (P : TunPlatform) (options : Tun),
      s ∈ options.IncludeUIDRange ∨ s ∈ options.ExcludeUIDRange →
      ∃ e, New P options = (.error e, [])) ∧
    parseRange rs [":200"] = .error (.missingStart ":200") ∧
    parseRange rs ["100:"] = .error (.missingEnd "100:") ∧
    parseRange rs ["100"] = .error (.missingColon "100") := by
  refine ⟨parseRange_malformed_anywhere rs pre post s hbad, ?_, rfl, rfl, rfl⟩
  · intro P options hmem
    have hfail : ∃ e, NewPrepare P options = .error e := by
      rcases hmem with hmem | hmem
      · obtain ⟨a, b, hab⟩ := List.append_of_mem hmem
        obtain ⟨e, he⟩ := parseRange_malformed_anywhere (uidToRange options.IncludeUID) a b s hbad
        rw [← hab] at he
        exact ⟨_, NewPrepare_include_error P options e (List.length_pos_of_mem hmem) he⟩
      · obtain ⟨a, b, hab⟩ := List.append_of_mem hmem
        obtain ⟨e, he⟩ := parseRange_malformed_anywhere (uidToRange options.ExcludeUID) a b s hbad
        rw [← hab] at he
        exact NewPrepare_exclude_error P options e (List.length_pos_of_mem hmem) he
    obtain ⟨e, he⟩ := hfail
    exact ⟨e, by simp [New, he]⟩

/-- Witness for C10: `":200"` among the include ranges. -/
theorem parseRange_malformed_fails_witness :
    ∃ e, New okPlatform { emptyTun with IncludeUIDRange := ["1:2", ":200"] } = (.error e, []) :=
  (parseRange_malformed_fails [] [] [] ":200" (by decide)).2.1 okPlatform
    { emptyTun with IncludeUIDRange := ["1:2", ":200"] } (by decide)


/-! ## Lemmas: the hijack set -/

theorem parseDnsHijack_cons (P : TunPlatform) (d : String) (rest : List String)
    (acc : List AddrPort) :
    parseDnsHijack P (d :: rest) acc =
      match P.ParseAddrPort (hijackText d) with
      | .error msg => .error (.parseDnsHijack msg)
      | .ok addrPort => parseDnsHijack P rest (acc ++ [addrPort]) := by
  rw [parseDnsHijack]
  rfl

theorem parseDnsHijack_ok_iff (P : TunPlatform) (ds : List String) (acc out : List AddrPort) :
    parseDnsHijack P ds acc = .ok out ↔
      ∃ xs, out = acc ++ xs ∧
        List.Forall₂ (fun d a => P.ParseAddrPort (hijackText d) = .ok a) ds xs := by
  induction ds generalizing acc with
  | nil =>
    simp only [parseDnsHijack, Except.ok.injEq, List.forall₂_nil_left_iff]
    constructor
    · intro h; exact ⟨[], by simp [h], rfl⟩
    · rintro ⟨xs, h, rfl⟩; simp [h]
  | cons d rest ih =>
    rw [parseDnsHijack_cons]
    cases hd : P.ParseAddrPort (hijackText d) with
    | error msg =>
      simp only [false_iff, reduceCtorEq]
      rintro ⟨xs, -, hall⟩
      cases hall with
      | cons h _ => rw [hd] at h; simp at h
    | ok a =>
      simp only []
      rw [ih]
      constructor
      · rintro ⟨xs, rfl, hall⟩
        exact ⟨a :: xs, by simp, List.Forall₂.cons hd hall⟩
      · rintro ⟨xs, rfl, hall⟩
        cases hall with
        | cons h htail =>
          rename_i a' xs'
          rw [hd] at h
          simp only [Except.ok.injEq] at h
          subst h
          exact ⟨xs', by simp, htail⟩

theorem parseDnsHijack_mem_error (P : TunPlatform) (ds : List String) (acc : List AddrPort)
    (d : String) (msg : String) (hd : d ∈ ds)
    (herr : P.ParseAddrPort (hijackText d) = .error msg) :
    ∃ e, parseDnsHijack P ds acc = .error e := by
  induction ds generalizing acc with
  | nil => simp at hd
  | cons x rest ih =>
    rw [parseDnsHijack_cons]
    cases hx : P.ParseAddrPort (hijackText x) with
    | error m => exact ⟨_, rfl⟩
    | ok a =>
      simp only []
      rcases List.mem_cons.1 hd with rfl | hmem
      · rw [herr] at hx; simp at hx
      · exact ih _ hmem

theorem deviceDefault_net_fields (P : TunPlatform) (o : Tun) :
    (deviceDefault P o).1.DNSHijack = o.DNSHijack ∧
    (deviceDefault P o).1.Inet4Address = o.Inet4Address ∧
    (deviceDefault P o).1.Inet6Address = o.Inet6Address ∧
    (deviceDefault P o).1.AutoDetectInterface = o.AutoDetectInterface ∧
    (deviceDefault P o).1.Device = (deviceDefault P o).2 := by
  unfold deviceDefault
  simp only []
  split <;> exact ⟨rfl, rfl, rfl, rfl, rfl⟩

theorem NewPrepare_ok (P : TunPlatform) (o : Tun) (p : Prepared)
    (h : NewPrepare P o = .ok p) :
    ∃ explicit, parseDnsHijack P o.DNSHijack [] = .ok explicit ∧
      p.dnsAdds = explicit ++ o.Inet4Address.map (fun a => ⟨a.ip.Next, 53⟩) ++
        o.Inet6Address.map (fun a => ⟨a.ip.Next, 53⟩) ∧
      p.options = (deviceDefault P o).1 := by
  obtain ⟨h1, h2, h3, -, -⟩ := deviceDefault_net_fields P o
  unfold NewPrepare at h
  simp only [h1, h2, h3] at h
  split at h
  · simp at h
  · split at h
    · simp at h
    · split at h
      · simp at h
      · rename_i explicit hexp
        simp only [Except.ok.injEq] at h
        subst h
        exact ⟨explicit, hexp, rfl, rfl⟩

theorem NewPrepare_hijack_error (P : TunPlatform) (o : Tun) (e : NewError)
    (h : parseDnsHijack P o.DNSHijack [] = .error e) :
    ∃ e', NewPrepare P o = .error e' := by
  cases hp : NewPrepare P o with
  | error e' => exact ⟨e', rfl⟩
  | ok p =>
    obtain ⟨explicit, hexp, -, -⟩ := NewPrepare_ok P o p hp
    rw [h] at hexp
    simp at hexp

theorem NewStart_ok (P : TunPlatform) (p : Prepared) (l : Listener)
    (h : (NewStart P p).1 = .ok l) :
    l.handler = { UDPTimeout := p.udpTimeout, DnsAdds := p.dnsAdds } ∧
    l.tunName = "" ∧ l.options = p.options ∧ l.closed = false := by
  unfold NewStart at h
  simp only [failStart] at h
  repeat' split at h
  all_goals first
    | (simp only [reduceCtorEq] at h; done)
    | (simp only [Except.ok.injEq] at h; subst h; exact ⟨rfl, rfl, rfl, rfl⟩)

theorem New_ok (P : TunPlatform) (o : Tun) (l : Listener) (h : (New P o).1 = .ok l) :
    ∃ p, NewPrepare P o = .ok p ∧ (NewStart P p).1 = .ok l := by
  unfold New at h
  cases hp : NewPrepare P o with
  | error e => rw [hp] at h; simp at h
  | ok p => rw [hp] at h; exact ⟨p, rfl, h⟩


theorem ConnectPrepare_ok (P : TunPlatform) (o : Tun) (p : ConnectPrepared)
    (h : ConnectPrepare P o = .ok p) :
    ∃ explicit, parseDnsHijack P o.DNSHijack [] = .ok explicit ∧
      p.dnsAdds = explicit ++ o.Inet4Address.map (fun a => ⟨a.ip.Next, 53⟩) ++
        o.Inet6Address.map (fun a => ⟨a.ip.Next, 53⟩) := by
  unfold ConnectPrepare at h
  simp only [] at h
  split at h
  · simp at h
  · rename_i explicit hexp
    simp only [Except.ok.injEq] at h
    subst h
    exact ⟨explicit, hexp, rfl⟩

theorem ConnectStart_ok (P : TunPlatform) (libTunNew : TunOptions → Except String Unit)
    (p : ConnectPrepared) (l : Listener) (h : (ConnectStart P libTunNew p).1 = .ok l) :
    l.handler = { UDPTimeout := p.udpTimeout, DnsAdds := p.dnsAdds } := by
  unfold ConnectStart at h
  simp only [failStart] at h
  repeat' split at h
  all_goals first
    | (simp only [reduceCtorEq] at h; done)
    | (simp only [Except.ok.injEq] at h; subst h; rfl)

theorem ConnectTun_ok (P : TunPlatform) (libTunNew : TunOptions → Except String Unit)
    (o : Tun) (l : Listener) (h : (ConnectTun P libTunNew o).1 = .ok l) :
    ∃ p, ConnectPrepare P o = .ok p ∧ (ConnectStart P libTunNew p).1 = .ok l := by
  unfold ConnectTun at h
  cases hp : ConnectPrepare P o with
  | error e => rw [hp] at h; simp at h
  | ok p => rw [hp] at h; exact ⟨p, rfl, h⟩

theorem hijackSet_of_New (P : TunPlatform) (o : Tun) (l : Listener)
    (h : (New P o).1 = .ok l) :
    ∃ explicit, parseDnsHijack P o.DNSHijack [] = .ok explicit ∧
      l.handler.DnsAdds = explicit ++ o.Inet4Address.map (fun a => ⟨a.ip.Next, 53⟩) ++
        o.Inet6Address.map (fun a => ⟨a.ip.Next, 53⟩) := by
  obtain ⟨p, hp, hs⟩ := New_ok P o l h
  obtain ⟨explicit, hexp, hadds, -⟩ := NewPrepare_ok P o p hp
  obtain ⟨hh, -, -, -⟩ := NewStart_ok P p l hs
  exact ⟨explicit, hexp, by rw [hh]; exact hadds⟩

theorem hijackSet_of_ConnectTun (P : TunPlatform)
    (libTunNew : TunOptions → Except String Unit) (o : Tun) (l : Listener)
    (h : (ConnectTun P libTunNew o).1 = .ok l) :
    ∃ explicit, parseDnsHijack P o.DNSHijack [] = .ok explicit ∧
      l.handler.DnsAdds = explicit ++ o.Inet4Address.map (fun a => ⟨a.ip.Next, 53⟩) ++
        o.Inet6Address.map (fun a => ⟨a.ip.Next, 53⟩) := by
  obtain ⟨p, hp, hs⟩ := ConnectTun_ok P libTunNew o l h
  obtain ⟨explicit, hexp, hadds⟩ := ConnectPrepare_ok P o p hp
  have hh := ConnectStart_ok P libTunNew p l hs
  exact ⟨explicit, hexp, by rw [hh]; exact hadds⟩

theorem cutSub_scheme (scheme rest : List Char) (h : ':' ∉ scheme) :
    cutSub [':', '/', '/'] (scheme ++ ':' :: '/' :: '/' :: rest) = some (scheme, rest) := by
  induction scheme with
  | nil => simp [cutSub, hasPrefixChars]
  | cons c cs ih =>
    simp only [List.mem_cons, not_or] at h
    have hc : ¬ c = ':' := fun e => h.1 e.symm
    simp [cutSub, hasPrefixChars, hc, ih h.2]

theorem cutSub_none (s : List Char) (h : containsChars s [':', '/', '/'] = false) :
    cutSub [':', '/', '/'] s = none := by
  induction s with
  | nil => simp [cutSub]
  | cons c cs ih =>
    simp only [containsChars, Bool.or_eq_false_iff] at h
    simp [cutSub, h.1, ih h.2]

theorem containsChars_scheme_of_no_slash (s : List Char) (h : '/' ∉ s) :
    containsChars s [':', '/', '/'] = false := by
  induction s with
  | nil => rfl
  | cons c cs ih =>
    simp only [List.mem_cons, not_or] at h
    have hp : hasPrefixChars (c :: cs) [':', '/', '/'] = false := by
      cases cs with
      | nil => simp [hasPrefixChars]
      | cons x xs =>
        have hx : ¬ x = '/' := fun e => h.2 (by simp [e])
        simp [hasPrefixChars, hx]
    simp [containsChars, hp, ih h.2]

theorem replaceFirst_any (pre post : List Char) (h : 'a' ∉ pre) :
    replaceFirst ['a', 'n', 'y'] ['0', '.', '0', '.', '0', '.', '0']
        (pre ++ 'a' :: 'n' :: 'y' :: post) =
      pre ++ '0' :: '.' :: '0' :: '.' :: '0' :: '.' :: '0' :: post := by
  induction pre with
  | nil => simp [replaceFirst, hasPrefixChars]
  | cons c cs ih =>
    simp only [List.mem_cons, not_or] at h
    have hc : ¬ c = 'a' := fun e => h.1 e.symm
    simp [replaceFirst, hasPrefixChars, hc, ih h.2]

theorem replaceFirst_none (s : List Char) (h : 'a' ∉ s) :
    replaceFirst ['a', 'n', 'y'] ['0', '.', '0', '.', '0', '.', '0'] s = s := by
  induction s with
  | nil => rfl
  | cons c cs ih =>
    simp only [List.mem_cons, not_or] at h
    have hc : ¬ c = 'a' := fun e => h.1 e.symm
    simp [replaceFirst, hasPrefixChars, hc, ih h.2]

/-! ## The hijack set: the claims -/

/-- C12: the explicit hijack entries parse to targets one-to-one and in input
order, each entry being handed to `netip.ParseAddrPort` after what stands up
to and including `://` is dropped and `any` is rewritten to `0.0.0.0`; the
targets stand first in the hijack set of the listener built by `New` or
`ConnectTun`; an entry that does not parse makes both constructors return an
error and no listener. `any:53` gives `0.0.0.0:53` and `tcp://8.8.8.8:53`
gives `8.8.8.8:53`. -/
theorem dnsHijack_explicit_entries (P : TunPlatform) :
    (∀ ds out, parseDnsHijack P ds [] = .ok out ↔
      List.Forall₂ (fun d a => P.ParseAddrPort (hijackText d) = .ok a) ds out) ∧
    (∀ scheme rest : String, ':' ∉ scheme.data → 'a' ∉ rest.data →
      hijackText (scheme ++ "://" ++ rest) = rest) ∧
    (∀ scheme port : String, ':' ∉ scheme.data →
      hijackText (scheme ++ "://" ++ ("any:" ++ port)) = "0.0.0.0:" ++ port) ∧
    (∀ port : String, '/' ∉ port.data → hijackText ("any:" ++ port) = "0.0.0.0:" ++ port) ∧
    (∀ o l, (New P o).1 = .ok l →
      ∃ explicit, parseDnsHijack P o.DNSHijack [] = .ok explicit ∧
        explicit <+: l.handler.DnsAdds) ∧
    (∀ libTunNew o l, (ConnectTun P libTunNew o).1 = .ok l →
      ∃ explicit, parseDnsHijack P o.DNSHijack [] = .ok explicit ∧
        explicit <+: l.handler.DnsAdds) ∧
    (∀ (o : Tun) (d msg : String), d ∈ o.DNSHijack →
      P.ParseAddrPort (hijackText d) = .error msg →
      (∃ e, New P o = (.error e, [])) ∧
      (∀ libTunNew, ∃ e, ConnectTun P libTunNew o = (.error e, []))) ∧
    parseDnsHijack refPlatform ["any:53", "tcp://8.8.8.8:53"] [] =
      .ok [⟨.v4 0, 53⟩, ⟨.v4 (((8 * 256 + 8) * 256 + 8) * 256 + 8), 53⟩] := by
  refine ⟨?_, ?_, ?_, ?_, ?_, ?_, ?_, by decide⟩
  · intro ds out
    have h := parseDnsHijack_ok_iff P ds [] out
    simp only [List.nil_append, exists_eq_left'] at h
    exact h
  · intro scheme rest hs hr
    have e : (scheme ++ "://" ++ rest).data = scheme.data ++ ':' :: '/' :: '/' :: rest.data := by
      simp [String.data_append]
    unfold hijackText
    have hc : cutSub "://".data (scheme ++ "://" ++ rest).data = some (scheme.data, rest.data) := by
      rw [e]; exact cutSub_scheme _ _ hs
    rw [hc]
    simp only []
    exact congrArg String.mk (replaceFirst_none rest.data hr)
  · intro scheme port hs
    have e : (scheme ++ "://" ++ ("any:" ++ port)).data =
        scheme.data ++ ':' :: '/' :: '/' :: ('a' :: 'n' :: 'y' :: ':' :: port.data) := by
      simp [String.data_append]
    unfold hijackText
    have hc : cutSub "://".data (scheme ++ "://" ++ ("any:" ++ port)).data =
        some (scheme.data, 'a' :: 'n' :: 'y' :: ':' :: port.data) := by
      rw [e]; exact cutSub_scheme _ _ hs
    rw [hc]
    simp only []
    have := replaceFirst_any [] (':' :: port.data) (by simp)
    simp only [List.nil_append] at this
    apply String.ext
    simpa [String.data_append] using this
  · intro port hp
    have e : ("any:" ++ port).data = 'a' :: 'n' :: 'y' :: ':' :: port.data := by
      simp [String.data_append]
    have hnone : cutSub "://".data ("any:" ++ port).data = none := by
      rw [e]
      exact cutSub_none _ (containsChars_scheme_of_no_slash _ (by simp [hp]))
    unfold hijackText
    rw [hnone]
    simp only []
    have := replaceFirst_any [] (':' :: port.data) (by simp)
    simp only [List.nil_append] at this
    apply String.ext
    rw [e]
    simpa [String.data_append] using this
  · intro o l h
    obtain ⟨explicit, hexp, hadds⟩ := hijackSet_of_New P o l h
    exact ⟨explicit, hexp, by rw [hadds, List.append_assoc]; exact List.prefix_append _ _⟩
  · intro libTunNew o l h
    obtain ⟨explicit, hexp, hadds⟩ := hijackSet_of_ConnectTun P libTunNew o l h
    exact ⟨explicit, hexp, by rw [hadds, List.append_assoc]; exact List.prefix_append _ _⟩
  · intro o d msg hd herr
    obtain ⟨e, he⟩ := parseDnsHijack_mem_error P o.DNSHijack [] d msg hd herr
    constructor
    · obtain ⟨e', he'⟩ := NewPrepare_hijack_error P o e he
      exact ⟨e', by simp [New, he']⟩
    · intro libTunNew
      refine ⟨e, ?_⟩
      simp [ConnectTun, ConnectPrepare, he]


theorem flushProbe_take (l : Listener) (monitor : Addr → String) (d : Addr) (rest : List Addr)
    (st : DialerState) (seen : List Addr)
    (h1 : monitor d ≠ l.tunName) (h2 : monitor d ≠ "") (h3 : monitor d ≠ "<nil>") :
    flushProbe l monitor (d :: rest) st seen =
      (if st.DefaultInterface ≠ monitor d then
        { DefaultInterface := monitor d, cacheFlushes := st.cacheFlushes + 1 }
       else st, seen ++ [d]) := by
  rw [flushProbe]
  have h23 : ¬ (monitor d = "" ∨ monitor d = "<nil>") := by tauto
  simp only [if_neg h1, if_neg h23]
  split <;> rfl

theorem flushProbe_take_state (l : Listener) (monitor : Addr → String) (d : Addr)
    (rest : List Addr) (st : DialerState) (seen : List Addr)
    (h1 : monitor d ≠ l.tunName) (h2 : monitor d ≠ "") (h3 : monitor d ≠ "<nil>") :
    (flushProbe l monitor (d :: rest) st seen).1.DefaultInterface = monitor d ∧
    (flushProbe l monitor (d :: rest) st seen).2 = seen ++ [d] := by
  rw [flushProbe_take l monitor d rest st seen h1 h2 h3]
  refine ⟨?_, rfl⟩
  by_cases hs : st.DefaultInterface = monitor d
  · simp [hs]
  · simp [hs]

/-- C14: every listener built by `New` has an empty `tunName` field, whatever
its effective device name is, so the comparison with the TUN device in
`FlushDefaultInterface` never matches a named device: when the first probe
reports the device name `D` itself, `D` is stored as the shared default
interface. With device `tun0`, state `eth0` and a monitor answering `tun0`,
the state becomes `tun0` after one probe. -/
theorem FlushDefaultInterface_stores_tun_device :
    (∀ (P : TunPlatform) (o : Tun) (l : Listener), (New P o).1 = .ok l →
      l.tunName = "" ∧ l.Config.Device = (deviceDefault P o).2) ∧
    (∀ (P : TunPlatform) (o : Tun) (l : Listener) (monitor : Addr → String) (st : DialerState),
      (New P o).1 = .ok l → o.AutoDetectInterface = true →
      l.Config.Device ≠ "" → l.Config.Device ≠ "<nil>" →
      monitor (.v4 0) = l.Config.Device →
      (l.FlushDefaultInterface monitor st).1.DefaultInterface = l.Config.Device ∧
      (l.FlushDefaultInterface monitor st).2 = [.v4 0]) ∧
    (listenerOf (New okPlatform emptyTun)).map
        (fun l => (l.Config.Device, l.tunName,
          l.FlushDefaultInterface (fun _ => "tun0") ⟨"eth0", 0⟩)) =
      some ("tun0", "", (⟨"tun0", 1⟩, [.v4 0])) := by
  have hfields : ∀ (P : TunPlatform) (o : Tun) (l : Listener), (New P o).1 = .ok l →
      l.tunName = "" ∧ l.options = (deviceDefault P o).1 := by
    intro P o l h
    obtain ⟨p, hp, hs⟩ := New_ok P o l h
    obtain ⟨-, -, -, hopt⟩ := NewPrepare_ok P o p hp
    obtain ⟨-, htn, ho, -⟩ := NewStart_ok P p l hs
    exact ⟨htn, ho.trans hopt⟩
  refine ⟨?_, ?_, by decide⟩
  · intro P o l h
    obtain ⟨htn, ho⟩ := hfields P o l h
    refine ⟨htn, ?_⟩
    show l.options.Device = _
    rw [ho]
    exact (deviceDefault_net_fields P o).2.2.2.2
  · intro P o l monitor st h hauto hne hnil hmon
    obtain ⟨htn, ho⟩ := hfields P o l h
    have hauto' : l.options.AutoDetectInterface = true := by
      rw [ho, (deviceDefault_net_fields P o).2.2.2.1]; exact hauto
    unfold Listener.FlushDefaultInterface
    rw [if_pos hauto']
    have h1 : monitor (.v4 0) ≠ l.tunName := by rw [htn, hmon]; exact hne
    have h2 : monitor (.v4 0) ≠ "" := by rw [hmon]; exact hne
    have h3 : monitor (.v4 0) ≠ "<nil>" := by rw [hmon]; exact hnil
    have := flushProbe_take_state l monitor (.v4 0) [.v6 0 "", .v4 16843009] st [] h1 h2 h3
    rw [hmon] at this
    exact this

/-- C16, as stated, fails: on the listener that `New` returns, two calls of
`Close` release the packet stack, the interface handle and both monitors
twice each. -/
theorem Close_twice_releases_twice :
    (listenerOf (New okPlatform emptyTun)).map
        (fun l => releasedOf ((l.Close).2 ++ ((l.Close).1.Close).2)) =
      some [.tunStack, .tunIf, .defaultInterfaceMonitor, .networkUpdateMonitor,
            .tunStack, .tunIf, .defaultInterfaceMonitor, .networkUpdateMonitor] ∧
    (listenerOf (New okPlatform emptyTun)).map
        (fun l => (releasedOf ((l.Close).2 ++ ((l.Close).1.Close).2)).count .tunStack) =
      some 2 := by
  constructor <;> decide

/-- C16, amended: `Close` is total; it sets the closed flag, which a second
call leaves set; each call releases, once each and in the order stack,
interface, default-interface monitor, network-change monitor, package
manager, exactly the resources whose handle the listener holds, none for a
listener that holds none; the handles are kept, so the second call releases
the same resources again. -/
theorem Close_each_call_releases_held (l : Listener) :
    (l.Close).1.closed = true ∧
    ((l.Close).1.Close).1.closed = true ∧
    releasedOf (l.Close).2 =
      [Resource.tunStack, .tunIf, .defaultInterfaceMonitor, .networkUpdateMonitor,
        .packageManager].filter
        (fun r => match r with
          | .tunStack => l.tunStack
          | .tunIf => l.tunIf
          | .defaultInterfaceMonitor => l.defaultInterfaceMonitor
          | .networkUpdateMonitor => l.networkUpdateMonitor
          | .packageManager => l.packageManager) ∧
    (releasedOf (l.Close).2).Nodup ∧
    ((l.Close).1.Close).2 = (l.Close).2 ∧
    (l.tunStack = false → l.tunIf = false → l.defaultInterfaceMonitor = false →
      l.networkUpdateMonitor = false → l.packageManager = false → (l.Close).2 = []) := by
  obtain ⟨c, o, hd, tn, ad, a, b, n, d, p⟩ := l
  refine ⟨rfl, rfl, ?_, ?_, rfl, ?_⟩
  · cases a <;> cases b <;> cases n <;> cases d <;> cases p <;> rfl
  · cases a <;> cases b <;> cases n <;> cases d <;> cases p <;>
      simp [Listener.Close, releasedOf]
  · intro h1 h2 h3 h4 h5
    simp only at h1 h2 h3 h4 h5
    subst h1 h2 h3 h4 h5
    rfl

theorem NewStart_error_shape (P : TunPlatform) (p : Prepared) (e : NewError) :
    (NewStart P p).1 = .error e →
    ∃ pre l, (NewStart P p).2 = pre ++ (Listener.Close l).2 ∧ releasedOf pre = [] ∧
      acquiredOf pre =
        (if l.networkUpdateMonitor then [Resource.networkUpdateMonitor] else []) ++
        (if l.defaultInterfaceMonitor then [Resource.defaultInterfaceMonitor] else []) ++
        (if l.packageManager then [Resource.packageManager] else []) ++
        (if l.tunIf then [Resource.tunIf] else []) ++
        (if l.tunStack then [Resource.tunStack] else []) ∧
      (l.tunStack = true → l.tunIf = true) ∧
      (l.tunIf = true → l.defaultInterfaceMonitor = true) ∧
      (l.packageManager = true → l.defaultInterfaceMonitor = true) ∧
      (l.defaultInterfaceMonitor = true → l.networkUpdateMonitor = true) := by
  unfold NewStart
  simp only [failStart]
  cases h1 : P.NewNetworkUpdateMonitor with
  | error m =>
    simp only []
    intro _
    exact ⟨_, _, rfl, by simp [releasedOf], by simp [acquiredOf], by simp, by simp,
      by simp, by simp⟩
  | ok u1 =>
  simp only []
  cases h2 : P.startNetworkUpdateMonitor with
  | error m =>
    simp only []
    intro _
    exact ⟨_, _, rfl, by simp [releasedOf], by simp [acquiredOf], by simp, by simp,
      by simp, by simp⟩
  | ok u2 =>
  simp only []
  cases h3 : P.NewDefaultInterfaceMonitor with
  | error m =>
    simp only []
    intro _
    exact ⟨_, _, rfl, by simp [releasedOf], by simp [acquiredOf], by simp, by simp,
      by simp, by simp⟩
  | ok u3 =>
  simp only []
  cases h4 : P.startDefaultInterfaceMonitor with
  | error m =>
    simp only []
    intro _
    exact ⟨_, _, rfl, by simp [releasedOf], by simp [acquiredOf], by simp, by simp,
      by simp, by simp⟩
  | ok u4 =>
  simp only []
  generalize P.buildAndroidRules _ = android
  obtain ⟨pm, res⟩ := android
  cases res with
  | error m =>
    simp only []
    intro _
    cases pm <;> exact ⟨_, _, rfl, by simp [releasedOf], by simp [acquiredOf], by simp,
      by simp, by simp, by simp⟩
  | ok t =>
  simp only []
  generalize h6 : P.tunNew t = r6
  cases r6 with
  | error m =>
    simp only []
    intro _
    cases pm <;> exact ⟨_, _, rfl, by simp [releasedOf], by simp [acquiredOf], by simp,
      by simp, by simp, by simp⟩
  | ok u6 =>
  simp only []
  generalize h7 : P.NewStack _ _ = r7
  cases r7 with
  | error m =>
    simp only []
    intro _
    cases pm <;> exact ⟨_, _, rfl, by simp [releasedOf], by simp [acquiredOf], by simp,
      by simp, by simp, by simp⟩
  | ok u7 =>
  simp only []
  cases h8 : P.startStack with
  | error m =>
    simp only []
    intro _
    cases pm <;> exact ⟨_, _, rfl, by simp [releasedOf], by simp [acquiredOf], by simp,
      by simp, by simp, by simp⟩
  | ok u8 =>
  simp only []
  intro h
  simp at h

theorem NewStart_rollback (P : TunPlatform) (p : Prepared) (e : NewError) :
    (NewStart P p).1 = .error e →
    releasedOf (NewStart P p).2 =
      [Resource.tunStack, .tunIf, .defaultInterfaceMonitor, .networkUpdateMonitor,
        .packageManager].filter (fun r => r ∈ acquiredOf (NewStart P p).2) ∧
    (acquiredOf (NewStart P p).2).filter (fun r => r ≠ .packageManager) <+:
      [Resource.networkUpdateMonitor, .defaultInterfaceMonitor, .tunIf, .tunStack] ∧
    (releasedOf (NewStart P p).2).filter (fun r => r ≠ .packageManager) =
      ((acquiredOf (NewStart P p).2).filter (fun r => r ≠ .packageManager)).reverse ∧
    (∃ pre post, (NewStart P p).2 = pre ++ post ∧ releasedOf pre = [] ∧
      acquiredOf post = []) := by
  intro h
  obtain ⟨pre, l, hev, hrel, hacq, i1, i2, i3, i4⟩ := NewStart_error_shape P p e h
  have hpost : acquiredOf (Listener.Close l).2 = [] := by
    obtain ⟨c, o, hd, tn, ad, a, b, n, d, q⟩ := l
    cases a <;> cases b <;> cases n <;> cases d <;> cases q <;> rfl
  have hA : acquiredOf (NewStart P p).2 = acquiredOf pre := by
    rw [hev]
    unfold acquiredOf at hpost ⊢
    rw [List.filterMap_append, hpost, List.append_nil]
  have hR : releasedOf (NewStart P p).2 = releasedOf (Listener.Close l).2 := by
    rw [hev]
    unfold releasedOf at hrel ⊢
    rw [List.filterMap_append, hrel, List.nil_append]
  refine ⟨?_, ?_, ?_, pre, _, hev, hrel, hpost⟩
  all_goals
    rw [hA, hacq]
    try rw [hR]
    obtain ⟨c, o, hd, tn, ad, a, b, n, d, q⟩ := l
    cases a <;> cases b <;> cases n <;> cases d <;> cases q <;>
      first
      | (exfalso; simp at i1 i2 i3 i4; done)
      | simp [Listener.Close, releasedOf]

/-! ## The start sequence of `New`, step by step -/

theorem New_eq_NewStart (P : TunPlatform) (o : Tun) (p : Prepared)
    (hp : NewPrepare P o = .ok p) : New P o = NewStart P p := by
  unfold New
  rw [hp]

/-- C17: once `New` has allocated the listener, a failure of any step of the
start sequence (creating or starting the network-change monitor, creating or
starting the default-interface monitor, building the android rules, creating
the interface, creating or starting the packet stack) makes `New` return that
step's error and no listener, and the resources acquired before the failing
step are all released, the stack first, then the interface, the
default-interface monitor and the network-change monitor, that is in the
reverse of the order of their acquisition; a package manager that the android
rules stored is released last. When no step fails `New` returns a listener and
releases nothing. Whatever the error, every release comes after every
acquisition. -/
theorem New_start_or_rollback (P : TunPlatform) (o : Tun) (p : Prepared)
    (hp : NewPrepare P o = .ok p) :
    (∀ m, P.NewNetworkUpdateMonitor = .error m →
      (New P o).1 = .error (.createNetworkUpdateMonitor m) ∧
      acquiredOf (New P o).2 = [] ∧ releasedOf (New P o).2 = []) ∧
    (P.NewNetworkUpdateMonitor = .ok () →
      (∀ m, P.startNetworkUpdateMonitor = .error m →
        (New P o).1 = .error (.startNetworkUpdateMonitor m) ∧
        acquiredOf (New P o).2 = [.networkUpdateMonitor] ∧
        releasedOf (New P o).2 = [.networkUpdateMonitor]) ∧
      (P.startNetworkUpdateMonitor = .ok () →
        (∀ m, P.NewDefaultInterfaceMonitor = .error m →
          (New P o).1 = .error (.createDefaultInterfaceMonitor m) ∧
          acquiredOf (New P o).2 = [.networkUpdateMonitor] ∧
          releasedOf (New P o).2 = [.networkUpdateMonitor]) ∧
        (P.NewDefaultInterfaceMonitor = .ok () →
          (∀ m, P.startDefaultInterfaceMonitor = .error m →
            (New P o).1 = .error (.startDefaultInterfaceMonitor m) ∧
            acquiredOf (New P o).2 = [.networkUpdateMonitor, .defaultInterfaceMonitor] ∧
            releasedOf (New P o).2 = [.defaultInterfaceMonitor, .networkUpdateMonitor]) ∧
          (P.startDefaultInterfaceMonitor = .ok () →
            ∀ (pm : Bool) (r : Except String TunOptions),
            P.buildAndroidRules (newTunOptions p) = (pm, r) →
            (∀ m, r = .error m →
              (New P o).1 = .error (.buildAndroidRules m) ∧
              acquiredOf (New P o).2 =
                [.networkUpdateMonitor, .defaultInterfaceMonitor] ++
                  (if pm then [.packageManager] else []) ∧
              releasedOf (New P o).2 =
                [.defaultInterfaceMonitor, .networkUpdateMonitor] ++
                  (if pm then [.packageManager] else [])) ∧
            (∀ t, r = .ok t →
              (∀ m, P.tunNew t = .error m →
                (New P o).1 = .error (.configureTunInterface m) ∧
                acquiredOf (New P o).2 =
                  [.networkUpdateMonitor, .defaultInterfaceMonitor] ++
                    (if pm then [.packageManager] else []) ∧
                releasedOf (New P o).2 =
                  [.defaultInterfaceMonitor, .networkUpdateMonitor] ++
                    (if pm then [.packageManager] else [])) ∧
              (P.tunNew t = .ok () →
                (∀ m, P.NewStack p.options.Stack.toLower (newStackOptions P p t) = .error m →
                  (New P o).1 = .error (.newStack m) ∧
                  acquiredOf (New P o).2 =
                    [.networkUpdateMonitor, .defaultInterfaceMonitor] ++
                      (if pm then [.packageManager] else []) ++ [.tunIf] ∧
                  releasedOf (New P o).2 =
                    [.tunIf, .defaultInterfaceMonitor, .networkUpdateMonitor] ++
                      (if pm then [.packageManager] else [])) ∧
                (P.NewStack p.options.Stack.toLower (newStackOptions P p t) = .ok () →
                  (∀ m, P.startStack = .error m →
                    (New P o).1 = .error (.startStack m) ∧
                    acquiredOf (New P o).2 =
                      [.networkUpdateMonitor, .defaultInterfaceMonitor] ++
                        (if pm then [.packageManager] else []) ++ [.tunIf, .tunStack] ∧
                    releasedOf (New P o).2 =
                      [.tunStack, .tunIf, .defaultInterfaceMonitor, .networkUpdateMonitor] ++
                        (if pm then [.packageManager] else [])) ∧
                  (P.startStack = .ok () →
                    (∃ l, (New P o).1 = .ok l) ∧
                    acquiredOf (New P o).2 =
                      [.networkUpdateMonitor, .defaultInterfaceMonitor] ++
                        (if pm then [.packageManager] else []) ++ [.tunIf, .tunStack] ∧
                    releasedOf (New P o).2 = [])))))))) ∧
    (∀ e, (New P o).1 = .error e →
      listenerOf (New P o) = none ∧
      releasedOf (New P o).2 =
        [Resource.tunStack, .tunIf, .defaultInterfaceMonitor, .networkUpdateMonitor,
          .packageManager].filter (fun r => r ∈ acquiredOf (New P o).2) ∧
      (acquiredOf (New P o).2).filter (fun r => r ≠ .packageManager) <+:
        [Resource.networkUpdateMonitor, .defaultInterfaceMonitor, .tunIf, .tunStack] ∧
      (releasedOf (New P o).2).filter (fun r => r ≠ .packageManager) =
        ((acquiredOf (New P o).2).filter (fun r => r ≠ .packageManager)).reverse ∧
      (∃ pre post, (New P o).2 = pre ++ post ∧ releasedOf pre = [] ∧ acquiredOf post = [])) := by
  have hN := New_eq_NewStart P o p hp
  refine ⟨?_, ?_, ?_⟩
  · intro m h1
    rw [hN]
    unfold NewStart
    simp only [h1, failStart, Listener.Close]
    refine ⟨?_, ?_, ?_⟩ <;> trivial
  · intro h1
    refine ⟨?_, ?_⟩
    · intro m h2
      rw [hN]
      unfold NewStart
      simp only [h1, h2, failStart, Listener.Close]
      refine ⟨?_, ?_, ?_⟩ <;> trivial
    intro h2
    refine ⟨?_, ?_⟩
    · intro m h3
      rw [hN]
      unfold NewStart
      simp only [h1, h2, h3, failStart, Listener.Close]
      refine ⟨?_, ?_, ?_⟩ <;> trivial
    intro h3
    refine ⟨?_, ?_⟩
    · intro m h4
      rw [hN]
      unfold NewStart
      simp only [h1, h2, h3, h4, failStart, Listener.Close]
      refine ⟨?_, ?_, ?_⟩ <;> trivial
    intro h4 pm r hA
    unfold newTunOptions at hA
    refine ⟨?_, ?_⟩
    · intro m h5
      subst h5
      rw [hN]
      unfold NewStart
      simp only [h1, h2, h3, h4, hA, failStart, Listener.Close]
      cases pm <;> (refine ⟨?_, ?_, ?_⟩ <;> trivial)
    intro t h5
    subst h5
    refine ⟨?_, ?_⟩
    · intro m h6
      rw [hN]
      unfold NewStart
      simp only [h1, h2, h3, h4, hA, h6, failStart, Listener.Close]
      cases pm <;> (refine ⟨?_, ?_, ?_⟩ <;> trivial)
    intro h6
    refine ⟨?_, ?_⟩
    · intro m h7
      rw [hN]
      unfold NewStart
      simp only [h1, h2, h3, h4, hA, h6, failStart, Listener.Close]
      generalize hS : P.NewStack _ _ = rS
      have hS' : rS = .error m := hS.symm.trans h7
      subst hS'
      cases pm <;> (refine ⟨?_, ?_, ?_⟩ <;> trivial)
    intro h7
    refine ⟨?_, ?_⟩
    · intro m h8
      rw [hN]
      unfold NewStart
      simp only [h1, h2, h3, h4, hA, h6, failStart, Listener.Close]
      generalize hS : P.NewStack _ _ = rS
      have hS' : rS = .ok () := hS.symm.trans h7
      subst hS'
      simp only [h8]
      cases pm <;> (refine ⟨?_, ?_, ?_⟩ <;> trivial)
    intro h8
    rw [hN]
    unfold NewStart
    simp only [h1, h2, h3, h4, hA, h6, failStart, Listener.Close]
    generalize hS : P.NewStack _ _ = rS
    have hS' : rS = .ok () := hS.symm.trans h7
    subst hS'
    simp only [h8]
    cases pm <;> (refine ⟨?_, ?_, ?_⟩ <;> first | trivial | exact ⟨_, rfl⟩)
  · intro e h
    have hl : listenerOf (New P o) = none := by simp [listenerOf, h]
    refine ⟨hl, ?_⟩
    rw [hN] at h ⊢
    exact NewStart_rollback P p e h

/-- C17 at a concrete input: every step succeeds up to the start of the packet
stack, which fails; `New` returns that error, and the four resources acquired
are released, the last acquired first. -/
theorem New_start_or_rollback_witness :
    NewPrepare stackStartFails emptyTun = .ok emptyPrepared ∧
    (New stackStartFails emptyTun).1 = .error (.startStack "start failed") ∧
    acquiredOf (New stackStartFails emptyTun).2 =
      [.networkUpdateMonitor, .defaultInterfaceMonitor, .tunIf, .tunStack] ∧
    releasedOf (New stackStartFails emptyTun).2 =
      [.tunStack, .tunIf, .defaultInterfaceMonitor, .networkUpdateMonitor] := by
  have h := (((((((((New_start_or_rollback stackStartFails emptyTun emptyPrepared rfl).2.1
    rfl).2 rfl).2 rfl).2 rfl false _ rfl).2 _ rfl).2 rfl).2 rfl).1 "start failed" rfl)
  exact ⟨rfl, h⟩

/-! ## `parseDNS` and `parseTun` -/

theorem parseDNS_ok_inv {Pool H : Type} (D : DnsCollab Pool) (cfg : RawDNS) (rawIPv6 : Bool)
    (profile : Profile) (hosts : H) (st0 st : TunnelState) (dnsCfg : DNS Pool H)
    (h : parseDNS D cfg rawIPv6 profile hosts st0 = (.ok dnsCfg, st)) :
    ¬ (cfg.Enable = true ∧ cfg.NameServer.length = 0) ∧
    parseNameServer D.urlParse D.urlString cfg.NameServer = .ok dnsCfg.NameServer ∧
    parseNameServer D.urlParse D.urlString cfg.Fallback = .ok dnsCfg.Fallback ∧
    parseNameServerPolicy D cfg.NameServerPolicy = .ok dnsCfg.NameServerPolicy ∧
    cfg.DefaultNameserver.length ≠ 0 ∧
    parseNameServer D.urlParse D.urlString cfg.DefaultNameserver =
      .ok dnsCfg.DefaultNameserver ∧
    dnsCfg.DefaultNameserver.all (pureIP D.ParseIP) = true ∧
    st.fakeIPRange =
      (match D.ParsePrefix cfg.FakeIPRange with
       | .ok p => p
       | .error _ => ⟨.zero, 0⟩) ∧
    fakeIPPool D cfg profile = .ok dnsCfg.FakeIPRange ∧
    searchDomainsCheck cfg.SearchDomains = none := by
  unfold parseDNS at h
  split at h
  · simp at h
  rename_i h0
  split at h
  · simp at h
  rename_i nameServer h1
  split at h
  · simp at h
  rename_i fallback h2
  split at h
  · simp at h
  rename_i policy h3
  split at h
  · simp at h
  rename_i h4
  split at h
  · simp at h
  rename_i defaultNameserver h5
  split at h
  · simp at h
  rename_i h6
  simp only [] at h
  split at h
  · simp at h
  rename_i pool h7
  split at h
  · simp at h
  rename_i h8
  simp only [Prod.mk.injEq, Except.ok.injEq] at h
  obtain ⟨hd, hst⟩ := h
  subst hd hst
  refine ⟨h0, h1, h2, h3, h4, h5, ?_, rfl, h7, h8⟩
  simpa using h6

theorem pureIP_iff (ParseIP : String → Option Addr) (ns : NameServer) :
    pureIP ParseIP ns = true ↔
      ∃ host port, SplitHostPort ns.Addr = .ok (host, port) ∧ (ParseIP host).isSome = true := by
  unfold pureIP
  cases h : SplitHostPort ns.Addr with
  | error e => simp
  | ok hp =>
    obtain ⟨host, port⟩ := hp
    simp

theorem dnsOf_eq_some {Pool H : Type} (r : Except DNSError (DNS Pool H) × TunnelState)
    (d : DNS Pool H) : dnsOf r = some d ↔ r = (.ok d, r.2) := by
  obtain ⟨res, st⟩ := r
  cases res <;> simp [dnsOf]

theorem dnsOf_eq_none_of {Pool H : Type} (r : Except DNSError (DNS Pool H) × TunnelState)
    (h : ∀ d, r ≠ (.ok d, r.2)) : dnsOf r = none := by
  obtain ⟨res, st⟩ := r
  cases res with
  | error e => rfl
  | ok d => exact absurd rfl (h d)

/-- C18: `parseDNS` fails when the default-nameserver list is empty, when a
default nameserver does not parse, and when the address of a parsed default
nameserver does not split into host and port with the host an IP literal
(before the tunnel state is written, with the errors `default nameserver
should have at least one nameserver` and `default nameserver should be pure
IP` once the earlier lists parse); when it succeeds the list is not empty and
every default nameserver address splits into host and port with the host an
IP literal. With the reference parsers the default nameserver `dns.google`
is refused and the defaults `114.114.114.114`, `8.8.8.8` pass. -/
theorem parseDNS_default_nameserver_pure_ip {Pool H : Type} (D : DnsCollab Pool)
    (cfg : RawDNS) (rawIPv6 : Bool) (profile : Profile) (hosts : H) (st0 : TunnelState) :
    (cfg.DefaultNameserver = [] →
      dnsOf (parseDNS D cfg rawIPv6 profile hosts st0) = none) ∧
    ((∃ e, parseNameServer D.urlParse D.urlString cfg.DefaultNameserver = .error e) →
      dnsOf (parseDNS D cfg rawIPv6 profile hosts st0) = none) ∧
    (∀ nss, parseNameServer D.urlParse D.urlString cfg.DefaultNameserver = .ok nss →
      (∃ ns ∈ nss, ¬ ∃ host port, SplitHostPort ns.Addr = .ok (host, port) ∧
        (D.ParseIP host).isSome = true) →
      dnsOf (parseDNS D cfg rawIPv6 profile hosts st0) = none) ∧
    (∀ nameServer fallback policy,
      ¬ (cfg.Enable = true ∧ cfg.NameServer.length = 0) →
      parseNameServer D.urlParse D.urlString cfg.NameServer = .ok nameServer →
      parseNameServer D.urlParse D.urlString cfg.Fallback = .ok fallback →
      parseNameServerPolicy D cfg.NameServerPolicy = .ok policy →
      (cfg.DefaultNameserver = [] →
        parseDNS D cfg rawIPv6 profile hosts st0 = (.error .defaultNameserverEmpty, st0)) ∧
      (∀ nss, parseNameServer D.urlParse D.urlString cfg.DefaultNameserver = .ok nss →
        (∃ ns ∈ nss, ¬ ∃ host port, SplitHostPort ns.Addr = .ok (host, port) ∧
          (D.ParseIP host).isSome = true) →
        parseDNS D cfg rawIPv6 profile hosts st0 = (.error .defaultNameserverNotIP, st0))) ∧
    (∀ dnsCfg, dnsOf (parseDNS D cfg rawIPv6 profile hosts st0) = some dnsCfg →
      cfg.DefaultNameserver ≠ [] ∧
      parseNameServer D.urlParse D.urlString cfg.DefaultNameserver =
        .ok dnsCfg.DefaultNameserver ∧
      dnsCfg.DefaultNameserver.length = cfg.DefaultNameserver.length ∧
      ∀ ns ∈ dnsCfg.DefaultNameserver, ∃ host port,
        SplitHostPort ns.Addr = .ok (host, port) ∧ (D.ParseIP host).isSome = true) ∧
    parseDNS refDns hostnameDefaultDNS false ⟨true, false⟩ () ⟨⟨.zero, 0⟩⟩ =
      (.error .defaultNameserverNotIP, ⟨⟨.zero, 0⟩⟩) ∧
    (dnsOf (parseDNS refDns defaultRawDNS false ⟨true, false⟩ () ⟨⟨.zero, 0⟩⟩)).map
        (fun d => d.DefaultNameserver) =
      some [⟨"", "114.114.114.114:53", ""⟩, ⟨"", "8.8.8.8:53", ""⟩] := by
  have hbad : ∀ nss, parseNameServer D.urlParse D.urlString cfg.DefaultNameserver = .ok nss →
      (∃ ns ∈ nss, ¬ ∃ host port, SplitHostPort ns.Addr = .ok (host, port) ∧
        (D.ParseIP host).isSome = true) → nss.all (pureIP D.ParseIP) = false := by
    intro nss _ hex
    obtain ⟨ns, hmem, hno⟩ := hex
    cases hall : nss.all (pureIP D.ParseIP) with
    | false => rfl
    | true =>
      rw [List.all_eq_true] at hall
      exact absurd ((pureIP_iff D.ParseIP ns).1 (hall ns hmem)) hno
  refine ⟨?_, ?_, ?_, ?_, ?_, ?_, ?_⟩
  · intro hempty
    apply dnsOf_eq_none_of
    intro d hd
    have hinv := parseDNS_ok_inv D cfg rawIPv6 profile hosts st0 _ d hd
    exact hinv.2.2.2.2.1 (by simp [hempty])
  · rintro ⟨e, he⟩
    apply dnsOf_eq_none_of
    intro d hd
    have hinv := parseDNS_ok_inv D cfg rawIPv6 profile hosts st0 _ d hd
    rw [he] at hinv
    simp at hinv
  · intro nss hnss hex
    apply dnsOf_eq_none_of
    intro d hd
    have hinv := parseDNS_ok_inv D cfg rawIPv6 profile hosts st0 _ d hd
    have heq : nss = d.DefaultNameserver := by
      have := hinv.2.2.2.2.2.1
      rw [hnss] at this
      exact Except.ok.inj this
    have hf := hbad nss hnss hex
    rw [heq, hinv.2.2.2.2.2.2.1] at hf
    exact absurd hf (by simp)
  · intro nameServer fallback policy h0 h1 h2 h3
    refine ⟨?_, ?_⟩
    · intro hempty
      unfold parseDNS
      simp only [h0, h1, h2, h3, hempty, if_false, List.length_nil, if_true]
    · intro nss hnss hex
      have hne : ¬ cfg.DefaultNameserver.length = 0 := by
        intro hlen
        have hnil : cfg.DefaultNameserver = [] := List.length_eq_zero.1 hlen
        rw [hnil] at hnss
        have hn : nss = [] := by
          simpa [parseNameServer, parseNameServerFrom] using hnss.symm
        obtain ⟨ns, hmem, -⟩ := hex
        rw [hn] at hmem
        exact absurd hmem (List.not_mem_nil ns)
      unfold parseDNS
      simp only [h0, h1, h2, h3, hne, hnss, hbad nss hnss hex, if_false, if_true,
        Bool.not_false]
  · intro d hd
    rw [dnsOf_eq_some] at hd
    have hinv := parseDNS_ok_inv D cfg rawIPv6 profile hosts st0 _ d hd
    have hparse := hinv.2.2.2.2.2.1
    refine ⟨?_, hparse, ?_, ?_⟩
    · intro hnil
      exact hinv.2.2.2.2.1 (by simp [hnil])
    · obtain ⟨out, hout, hf⟩ := (parseNameServerFrom_ok_iff D.urlParse D.urlString
        cfg.DefaultNameserver 0 [] d.DefaultNameserver).1 hparse
      rw [hout, List.nil_append]
      exact hf.length_eq.symm
    · intro ns hmem
      have hall := hinv.2.2.2.2.2.2.1
      rw [List.all_eq_true] at hall
      exact (pureIP_iff D.ParseIP ns).1 (hall ns hmem)
  · rfl
  · rfl

theorem dnsErrorOf_eq_none {Pool H : Type} (r : Except DNSError (DNS Pool H) × TunnelState)
    (h : dnsErrorOf r = none) : ∃ d, r = (.ok d, r.2) := by
  obtain ⟨res, st⟩ := r
  cases res with
  | error e => simp [dnsErrorOf] at h
  | ok d => exact ⟨d, rfl⟩

/-- C11: when `parseDNS` succeeds on the fake-ip range `198.18.0.1/16` (read
by the library as address 198.18.0.1 with 16 bits), it records that prefix,
and `parseTun` then sets the TUN IPv4 address list to exactly one prefix, of
length 30, whose address is 198.18.0.1: the address that follows the base
address 198.18.0.0 of the fake-ip range. -/
theorem parseTun_inet4_from_fake_ip_range {Pool H : Type} (D : DnsCollab Pool) (cfg : RawDNS)
    (rawIPv6 : Bool) (profile : Profile) (hosts : H) (st0 : TunnelState)
    (verifyIP6 : Bool) (rawTun : RawTun) (general : General)
    (hrange : cfg.FakeIPRange = "198.18.0.1/16")
    (hlib : D.ParsePrefix "198.18.0.1/16" = .ok ⟨ipv4 198 18 0 1, 16⟩)
    (hdns : dnsErrorOf (parseDNS D cfg rawIPv6 profile hosts st0) = none) :
    (parseDNS D cfg rawIPv6 profile hosts st0).2.fakeIPRange = ⟨ipv4 198 18 0 1, 16⟩ ∧
    (parseTun (parseDNS D cfg rawIPv6 profile hosts st0).2 verifyIP6 rawTun
      general).Tun.Inet4Address = [⟨ipv4 198 18 0 1, 30⟩] ∧
    (Cidr.Masked (parseDNS D cfg rawIPv6 profile hosts st0).2.fakeIPRange).ip =
      ipv4 198 18 0 0 ∧
    ipv4 198 18 0 1 =
      (Cidr.Masked (parseDNS D cfg rawIPv6 profile hosts st0).2.fakeIPRange).ip.Next := by
  obtain ⟨d, hd⟩ := dnsErrorOf_eq_none _ hdns
  have hinv := parseDNS_ok_inv D cfg rawIPv6 profile hosts st0 _ d hd
  have hst := hinv.2.2.2.2.2.2.2.1
  rw [hrange, hlib] at hst
  simp only [] at hst
  rw [hst]
  refine ⟨rfl, ?_, by decide, by decide⟩
  simp only [parseTun, hst]
  decide

/-- C11 at the defaults of `UnmarshalRawConfig`, with the reference parsers. -/
theorem parseTun_inet4_from_fake_ip_range_witness :
    defaultRawDNS.FakeIPRange = "198.18.0.1/16" ∧
    refDns.ParsePrefix "198.18.0.1/16" = .ok ⟨ipv4 198 18 0 1, 16⟩ ∧
    dnsErrorOf (parseDNS refDns defaultRawDNS false ⟨true, false⟩ () ⟨⟨.zero, 0⟩⟩) = none ∧
    (parseTun (parseDNS refDns defaultRawDNS false ⟨true, false⟩ () ⟨⟨.zero, 0⟩⟩).2 true
      defaultRawTun ⟨true, emptyTun⟩).Tun.Inet4Address = [⟨ipv4 198 18 0 1, 30⟩] :=
  ⟨rfl, rfl, rfl,
    (parseTun_inet4_from_fake_ip_range refDns defaultRawDNS false ⟨true, false⟩ ()
      ⟨⟨.zero, 0⟩⟩ true defaultRawTun ⟨true, emptyTun⟩ rfl rfl rfl).2.1⟩

/-! ## The `https` arm of `parseNameServer` -/

/-- C19, as stated, fails: with the reference URL library the entry
`https://user:pw@dns.example/dns-query#eth0` gets the address
`https://user:pw@dns.example/dns-query`, which carries `user:pw@`. -/
theorem parseNameServer_https_keeps_userinfo :
    parseNameServer urlParseRef urlStringRef
        ["https://user:pw@dns.example/dns-query#eth0"] =
      .ok [⟨"https", "https://user:pw@dns.example/dns-query", "eth0"⟩] ∧
    stringsContains "https://user:pw@dns.example/dns-query" "user:pw@" = true ∧
    stringsContains "https://user:pw@dns.example/dns-query" "#eth0" = false := by
  decide

/-- C19, amended: for every entry that the URL library reads with scheme
`https`, `parseNameServer` yields transport `https`, the fragment as the
interface, and as address the text of the URL rebuilt from the scheme
`https` and the userinfo, host and path of the entry, without its fragment;
with the reference library that text is `https://`, then the userinfo
followed by `@` when there is one, then host and path. -/
theorem parseNameServer_https_rebuilt (urlParse : String → Except String URL)
    (urlString : URL → String) (server : String) (u : URL)
    (hparse : urlParse (withDefaultScheme server) = .ok u) (hscheme : u.Scheme = "https") :
    parseNameServer urlParse urlString [server] =
      .ok [{ Net := "https",
             Addr := urlString { Scheme := "https", User := u.User, Host := u.Host,
                                 Path := u.Path, Fragment := "" },
             Interface := u.Fragment }] ∧
    urlStringRef { Scheme := "https", User := u.User, Host := u.Host, Path := u.Path,
                   Fragment := "" } =
      "https" ++ "://" ++
        (match u.User with
         | none => ""
         | some ui =>
           if ui.passwordSet then ui.username ++ ":" ++ ui.password ++ "@"
           else ui.username ++ "@") ++ u.Host ++ u.Path := by
  refine ⟨?_, rfl⟩
  simp only [parseNameServer, parseNameServerFrom, nameServerEntry, hparse, schemeSwitch,
    hscheme]
  rfl

/-- C19, amended, at `https://user:pw@dns.example/dns-query#eth0`. -/
theorem parseNameServer_https_rebuilt_witness :
    urlParseRef (withDefaultScheme "https://user:pw@dns.example/dns-query#eth0") =
      .ok ⟨"https", some ⟨"user", "pw", true⟩, "dns.example", "/dns-query", "eth0"⟩ ∧
    parseNameServer urlParseRef urlStringRef
        ["https://user:pw@dns.example/dns-query#eth0"] =
      .ok [{ Net := "https",
             Addr := urlStringRef { Scheme := "https", User := some ⟨"user", "pw", true⟩,
                                    Host := "dns.example", Path := "/dns-query",
                                    Fragment := "" },
             Interface := "eth0" }] :=
  ⟨by decide,
    (parseNameServer_https_rebuilt urlParseRef urlStringRef
      "https://user:pw@dns.example/dns-query#eth0"
      ⟨"https", some ⟨"user", "pw", true⟩, "dns.example", "/dns-query", "eth0"⟩
      (by decide) rfl).1⟩

/-! ## The proxy-group resolver -/

section DagSortProofs

variable {M : Type} (nameOf : M → Option String) (membersOf : M → List String)

theorem isResolved_eq_true (U : List M) (g : M) :
    isResolved nameOf membersOf U g = true ↔
      ∀ h ∈ U, refersTo nameOf membersOf g h = false := by
  simp [isResolved, List.all_eq_true]

theorem isResolved_eq_false (U : List M) (g : M) :
    isResolved nameOf membersOf U g = false ↔
      ∃ h ∈ U, refersTo nameOf membersOf g h = true := by
  rw [← Bool.not_eq_true, isResolved_eq_true]
  simp

theorem dagSortLoop_ok (fuel : Nat) (R U S : List M)
    (h : dagSortLoop nameOf membersOf fuel R U = .ok S) :
    ∃ T, S = R ++ T ∧ T.Perm U ∧
      T.Pairwise (fun a b => refersTo nameOf membersOf a b = false) ∧
      ∀ g ∈ T, refersTo nameOf membersOf g g = false := by
  induction fuel generalizing R U with
  | zero =>
    unfold dagSortLoop at h
    split at h
    · rename_i hU
      have hnil : U = [] := List.isEmpty_iff.1 hU
      subst hnil
      exact ⟨[], by simpa using h.symm, List.Perm.refl _, List.Pairwise.nil, by simp⟩
    · simp at h
  | succ n ih =>
    unfold dagSortLoop at h
    split at h
    · rename_i hU
      have hnil : U = [] := List.isEmpty_iff.1 hU
      subst hnil
      exact ⟨[], by simpa using h.symm, List.Perm.refl _, List.Pairwise.nil, by simp⟩
    · split at h
      · simp at h
      · obtain ⟨T, hS, hperm, hpw, hself⟩ := ih _ _ h
        have hready : ∀ a ∈ U.filter (isResolved nameOf membersOf U), ∀ b ∈ U,
            refersTo nameOf membersOf a b = false := by
          intro a ha b hb
          exact (isResolved_eq_true nameOf membersOf U a).1 (List.mem_filter.1 ha).2 b hb
        have hTU : ∀ b ∈ T, b ∈ U := by
          intro b hb
          exact (List.mem_filter.1 (hperm.mem_iff.1 hb)).1
        refine ⟨U.filter (isResolved nameOf membersOf U) ++ T, ?_, ?_, ?_, ?_⟩
        · rw [hS, List.append_assoc]
        · exact (List.Perm.append_left _ hperm).trans (List.filter_append_perm _ U)
        · rw [List.pairwise_append]
          refine ⟨?_, hpw, ?_⟩
          · refine List.Pairwise.imp_of_mem ?_ (List.pairwise_of_forall (fun _ _ => trivial))
            intro a b ha hb _
            exact hready a ha b (List.mem_filter.1 hb).1
          · intro a ha b hb
            exact hready a ha b (hTU b hb)
        · intro g hg
          rcases List.mem_append.1 hg with hg | hg
          · exact hready g hg g (List.mem_filter.1 hg).1
          · exact hself g hg

theorem dagSortLoop_error (fuel : Nat) (R U E : List M) (hlen : U.length ≤ fuel)
    (h : dagSortLoop nameOf membersOf fuel R U = .error E) :
    E ≠ [] ∧ (∀ g ∈ E, g ∈ U) ∧
      ∀ g ∈ E, ∃ h ∈ E, refersTo nameOf membersOf g h = true := by
  induction fuel generalizing R U with
  | zero =>
    have hnil : U = [] := List.length_eq_zero.1 (Nat.le_zero.1 hlen)
    subst hnil
    simp [dagSortLoop] at h
  | succ n ih =>
    unfold dagSortLoop at h
    split at h
    · simp at h
    · rename_i hU
      split at h
      · rename_i hready
        have hE : E = U := by simpa using h.symm
        subst hE
        refine ⟨fun hnil => hU (by simp [hnil]), fun g hg => hg, ?_⟩
        intro g hg
        have hnot : isResolved nameOf membersOf E g = false := by
          cases hres : isResolved nameOf membersOf E g with
          | false => rfl
          | true =>
            have hmem : g ∈ E.filter (isResolved nameOf membersOf E) :=
              List.mem_filter.2 ⟨hg, hres⟩
            rw [List.isEmpty_iff.1 hready] at hmem
            exact absurd hmem (List.not_mem_nil g)
        exact (isResolved_eq_false nameOf membersOf E g).1 hnot
      · rename_i hready
        have hlt : (U.filter (fun g => !isResolved nameOf membersOf U g)).length ≤ n := by
          have hsum := (List.filter_append_perm (isResolved nameOf membersOf U) U).length_eq
          rw [List.length_append] at hsum
          have hpos : 0 < (U.filter (isResolved nameOf membersOf U)).length := by
            apply List.length_pos.2
            intro hnil
            exact hready (by simp [hnil])
          omega
        obtain ⟨hne, hsub, hsucc⟩ := ih _ _ hlt h
        exact ⟨hne, fun g hg => (List.mem_filter.1 (hsub g hg)).1, hsucc⟩

theorem dagSortLoop_stuck (K : M → Prop) (fuel : Nat) (R U : List M)
    (hK : ∀ g, K g → g ∈ U ∧ ∃ h, K h ∧ refersTo nameOf membersOf g h = true)
    (hne : ∃ g, K g) :
    ∃ E, dagSortLoop nameOf membersOf fuel R U = .error E ∧ ∀ g, K g → g ∈ E := by
  obtain ⟨g0, hg0⟩ := hne
  have hU : ∀ U : List M, (∀ g, K g → g ∈ U) → U.isEmpty = false := by
    intro U hmem
    cases U with
    | nil => exact absurd (hmem g0 hg0) (List.not_mem_nil g0)
    | cons a l => rfl
  induction fuel generalizing R U with
  | zero =>
    unfold dagSortLoop
    rw [hU U (fun g hg => (hK g hg).1)]
    exact ⟨U, by simp, fun g hg => (hK g hg).1⟩
  | succ n ih =>
    unfold dagSortLoop
    rw [hU U (fun g hg => (hK g hg).1)]
    simp only [Bool.false_eq_true, if_false]
    split
    · exact ⟨U, rfl, fun g hg => (hK g hg).1⟩
    · apply ih
      intro g hg
      obtain ⟨hgU, h, hh, hr⟩ := hK g hg
      refine ⟨List.mem_filter.2 ⟨hgU, ?_⟩, h, hh, hr⟩
      have : isResolved nameOf membersOf U g = false :=
        (isResolved_eq_false nameOf membersOf U g).2 ⟨h, (hK h hh).1, hr⟩
      simp [this]

end DagSortProofs

theorem exists_cycle_of_successors {M : Type} (r : M → M → Prop) (E : List M) (hne : E ≠ [])
    (hsucc : ∀ g ∈ E, ∃ h ∈ E, r g h) : ∃ g ∈ E, Relation.TransGen r g g := by
  classical
  obtain ⟨x0, hx0⟩ := List.exists_mem_of_ne_nil E hne
  let next : {x // x ∈ E} → {x // x ∈ E} := fun x =>
    ⟨(hsucc x.1 x.2).choose, (hsucc x.1 x.2).choose_spec.1⟩
  have hnext : ∀ x, r x.1 (next x).1 := fun x => (hsucc x.1 x.2).choose_spec.2
  let s : ℕ → {x // x ∈ E} := fun n => next^[n] ⟨x0, hx0⟩
  have hstep : ∀ n, r (s n).1 (s (n + 1)).1 := by
    intro n
    have : s (n + 1) = next (s n) := Function.iterate_succ_apply' next n _
    rw [this]
    exact hnext (s n)
  have hpath : ∀ i k, Relation.TransGen r (s i).1 (s (i + k + 1)).1 := by
    intro i k
    induction k with
    | zero => exact Relation.TransGen.single (hstep i)
    | succ k ih => exact Relation.TransGen.tail ih (hstep (i + k + 1))
  haveI : Finite {x // x ∈ E} := (List.finite_toSet E).to_subtype
  obtain ⟨i, j, hij, heq⟩ := Finite.exists_ne_map_eq_of_infinite s
  rcases Nat.lt_or_gt_of_ne hij with hlt | hlt
  · obtain ⟨k, hk⟩ := Nat.exists_eq_add_of_lt hlt
    refine ⟨(s i).1, (s i).2, ?_⟩
    have hp := hpath i k
    rw [← hk, ← heq] at hp
    exact hp
  · obtain ⟨k, hk⟩ := Nat.exists_eq_add_of_lt hlt
    refine ⟨(s j).1, (s j).2, ?_⟩
    have hp := hpath j k
    rw [← hk, heq] at hp
    exact hp

section DagSortMain

variable {M : Type} (nameOf : M → Option String) (membersOf : M → List String)

theorem proxyGroupsDagSort_of_cycle (gs : List M) (g : M)
    (hg : Relation.TransGen (dependsOn nameOf membersOf gs) g g) :
    ∃ stuck, proxyGroupsDagSort nameOf membersOf gs = .error stuck ∧
      ∀ h, Relation.TransGen (dependsOn nameOf membersOf gs) h h → h ∈ stuck := by
  apply dagSortLoop_stuck nameOf membersOf
    (fun g => Relation.TransGen (dependsOn nameOf membersOf gs) g g)
  · intro a ha
    obtain ⟨b, hab, hba⟩ := Relation.TransGen.head'_iff.1 ha
    exact ⟨hab.1, b, Relation.TransGen.tail' hba hab, hab.2.2⟩
  · exact ⟨g, hg⟩

theorem proxyGroupsDagSort_of_acyclic (gs : List M)
    (hac : ∀ g, ¬ Relation.TransGen (dependsOn nameOf membersOf gs) g g) :
    ∃ sorted, proxyGroupsDagSort nameOf membersOf gs = .ok sorted ∧ sorted.Perm gs ∧
      sorted.Pairwise (fun a b => refersTo nameOf membersOf a b = false) ∧
      ∀ g ∈ sorted, refersTo nameOf membersOf g g = false := by
  cases hres : proxyGroupsDagSort nameOf membersOf gs with
  | ok sorted =>
    obtain ⟨T, hS, hperm, hpw, hself⟩ := dagSortLoop_ok nameOf membersOf _ _ _ _ hres
    rw [List.nil_append] at hS
    subst hS
    exact ⟨sorted, rfl, hperm, hpw, hself⟩
  | error E =>
    obtain ⟨hne, hsub, hsucc⟩ :=
      dagSortLoop_error nameOf membersOf _ _ _ _ (Nat.le_refl _) hres
    obtain ⟨g, -, hcyc⟩ := exists_cycle_of_successors (dependsOn nameOf membersOf gs) E hne
      (fun g hg => by
        obtain ⟨h, hh, hr⟩ := hsucc g hg
        exact ⟨h, hh, hsub g hg, hsub h hh, hr⟩)
    exact absurd hcyc (hac g)

end DagSortMain

section ProxiesSort

variable {M A G P : Type} (C : ProxyCollab M A G P)

theorem parseProxies_sort_error (ps gs : List M) (provs : List (String × M)) (msg : String)
    (h : C.proxyGroupsDagSort gs = .error msg) :
    ∃ e, parseProxies C ps gs provs = .error e ∧
      ∀ p0 l0 l1,
        parseProxyLoop C 0 ps (mapSet (mapSet mapEmpty "DIRECT" .direct) "REJECT" .reject)
          ["DIRECT", "REJECT"] = .ok (p0, l0) →
        collectGroupNames C 0 gs l0 = .ok l1 → e = .dagSort msg := by
  unfold parseProxies
  simp only []
  cases h1 : parseProxyLoop C 0 ps (mapSet (mapSet mapEmpty "DIRECT" .direct) "REJECT" .reject)
      ["DIRECT", "REJECT"] with
  | error e => exact ⟨e, rfl, fun p0 l0 l1 h' => by simp at h'⟩
  | ok r =>
    obtain ⟨p0, l0⟩ := r
    simp only []
    cases h2 : collectGroupNames C 0 gs l0 with
    | error e =>
      refine ⟨e, rfl, fun p0' l0' l1 h' h'' => ?_⟩
      simp only [Except.ok.injEq, Prod.mk.injEq] at h'
      obtain ⟨-, hl⟩ := h'
      subst hl
      rw [h2] at h''
      simp at h''
    | ok l1 =>
      simp only [h]
      exact ⟨_, rfl, fun _ _ _ _ _ => rfl⟩

theorem parseProxies_sort_ok (ps gs sorted : List M) (provs : List (String × M))
    (h : C.proxyGroupsDagSort gs = .ok sorted)
    (proxies : String → Option (ProxyValue A G))
    (providers : String → Option (ProviderValue P A G))
    (hr : parseProxies C ps gs provs = .ok (proxies, providers)) :
    ∃ p0 pm p1, parseGroupLoop C pm 0 sorted p0 = .ok p1 ∧
      proxies = mapSet p1 "GLOBAL" .globalSelector := by
  unfold parseProxies at hr
  simp only [h] at hr
  split at hr
  · simp at hr
  rename_i p0 l0 h1
  split at hr
  · simp at hr
  rename_i l1 h2
  split at hr
  · simp at hr
  rename_i pm h3
  split at hr
  · simp at hr
  rename_i h4
  split at hr
  · simp at hr
  rename_i p1 h5
  split at hr
  · simp at hr
  simp only [Except.ok.injEq, Prod.mk.injEq] at hr
  exact ⟨p0, providerLookup pm, p1, h5, hr.1.symm⟩

end ProxiesSort

theorem parseGroupLoop_split {M A G P : Type} (C : ProxyCollab M A G P)
    (pm : String → Option P) (pre : List M) (m : M) (post : List M) (idx : Nat)
    (p0 p1 : String → Option (ProxyValue A G))
    (h : parseGroupLoop C pm idx (pre ++ m :: post) p0 = .ok p1) :
    ∃ pmid g, parseGroupLoop C pm idx pre p0 = .ok pmid ∧
      C.ParseProxyGroup m pmid pm = .ok g := by
  induction pre generalizing idx p0 with
  | nil =>
    simp only [List.nil_append, parseGroupLoop] at h
    cases hg : C.ParseProxyGroup m p0 pm with
    | error e => simp [hg] at h
    | ok g => exact ⟨p0, g, rfl, hg⟩
  | cons a rest ih =>
    simp only [List.cons_append, parseGroupLoop] at h ⊢
    cases hg : C.ParseProxyGroup a p0 pm with
    | error e => simp [hg] at h
    | ok g =>
      simp only [hg] at h ⊢
      split at h
      · simp at h
      · rename_i hdup
        simp only [hdup, if_false]
        exact ih _ _ h

/-- C20: with `proxyGroupsDagSort` the resolver of section 4.2 of the spec.
When the reference graph of the group declarations has no cycle, the sorting
step succeeds with a rearrangement of the declarations in which no group
lists itself or a group placed after it, and a successful `parseProxies` has
instantiated the groups in that order, each one from the map that holds the
groups placed before it. When a group lies on a cycle, the resolver fails
with a stuck set that holds every group lying on a cycle, the sorting step
returns the error written from that set, and `parseProxies` fails, with that
error once the proxies and the group names have been read. The declarations
A→{B,C}, B→{DIRECT}, C→{B,DIRECT} are instantiated in the order B, C, A;
A→{B}, B→{A} fails with an error naming A and B. -/
theorem parseProxies_groups_dag_order {M A G P : Type} (C : ProxyCollab M A G P)
    (membersOf : M → List String) (render : List M → String) (ps gs : List M)
    (provs : List (String × M)) :
    ((∀ g, ¬ Relation.TransGen (dependsOn C.mappingName membersOf gs) g g) →
      ∃ sorted,
        (withDagSort C membersOf render).proxyGroupsDagSort gs = .ok sorted ∧
        sorted.Perm gs ∧
        sorted.Pairwise (fun a b => refersTo C.mappingName membersOf a b = false) ∧
        (∀ g ∈ sorted, refersTo C.mappingName membersOf g g = false) ∧
        ∀ proxies providers,
          parseProxies (withDagSort C membersOf render) ps gs provs =
            .ok (proxies, providers) →
          ∃ p0 pm p1,
            parseGroupLoop (withDagSort C membersOf render) pm 0 sorted p0 = .ok p1 ∧
            proxies = mapSet p1 "GLOBAL" .globalSelector ∧
            ∀ pre m post, sorted = pre ++ m :: post →
              ∃ pmid g,
                parseGroupLoop (withDagSort C membersOf render) pm 0 pre p0 = .ok pmid ∧
                C.ParseProxyGroup m pmid pm = .ok g) ∧
    (∀ g, Relation.TransGen (dependsOn C.mappingName membersOf gs) g g →
      ∃ stuck,
        proxyGroupsDagSort C.mappingName membersOf gs = .error stuck ∧
        g ∈ stuck ∧
        (∀ h, Relation.TransGen (dependsOn C.mappingName membersOf gs) h h → h ∈ stuck) ∧
        (withDagSort C membersOf render).proxyGroupsDagSort gs = .error (render stuck) ∧
        ∃ e, parseProxies (withDagSort C membersOf render) ps gs provs = .error e ∧
          ∀ p0 l0 l1,
            parseProxyLoop (withDagSort C membersOf render) 0 ps
              (mapSet (mapSet mapEmpty "DIRECT" .direct) "REJECT" .reject)
              ["DIRECT", "REJECT"] = .ok (p0, l0) →
            collectGroupNames (withDagSort C membersOf render) 0 gs l0 = .ok l1 →
            e = .dagSort (render stuck)) ∧
    proxyGroupsDagSort (fun m => some m.name) (fun m => m.proxies) dagExample =
      .ok [⟨"B", ["DIRECT"]⟩, ⟨"C", ["B", "DIRECT"]⟩, ⟨"A", ["B", "C"]⟩] ∧
    proxiesError (parseProxies dagCollab [] dagExample []) = none ∧
    proxiesError (parseProxies declaredOrderCollab [] dagExample []) =
      some (.group 0 "proxy not found") ∧
    proxyGroupsDagSort (fun m => some m.name) (fun m => m.proxies) cycleExample =
      .error [⟨"A", ["B"]⟩, ⟨"B", ["A"]⟩] ∧
    proxiesError (parseProxies dagCollab [] cycleExample []) = some (.dagSort "A, B") ∧
    stringsContains "A, B" "A" = true ∧ stringsContains "A, B" "B" = true := by
  refine ⟨?_, ?_, by decide, by decide, by decide, by decide, by decide, by decide,
    by decide⟩
  · intro hac
    obtain ⟨sorted, hsort, hperm, hpw, hself⟩ :=
      proxyGroupsDagSort_of_acyclic C.mappingName membersOf gs hac
    have hstep : (withDagSort C membersOf render).proxyGroupsDagSort gs = .ok sorted := by
      simp only [withDagSort, hsort]
    refine ⟨sorted, hstep, hperm, hpw, hself, ?_⟩
    intro proxies providers hr
    obtain ⟨p0, pm, p1, hloop, hmap⟩ :=
      parseProxies_sort_ok (withDagSort C membersOf render) ps gs sorted provs hstep
        proxies providers hr
    refine ⟨p0, pm, p1, hloop, hmap, ?_⟩
    intro pre m post hsplit
    rw [hsplit] at hloop
    exact parseGroupLoop_split (withDagSort C membersOf render) pm pre m post 0 p0 p1 hloop
  · intro g hg
    obtain ⟨stuck, hsort, hall⟩ := proxyGroupsDagSort_of_cycle C.mappingName membersOf gs g hg
    have hstep : (withDagSort C membersOf render).proxyGroupsDagSort gs =
        .error (render stuck) := by
      simp only [withDagSort, hsort]
    exact ⟨stuck, hsort, hall g hg, hall, hstep,
      parseProxies_sort_error (withDagSort C membersOf render) ps gs provs _ hstep⟩

/-! ## `parseRange`: the numbers read -/

theorem foldl_decimal_ge (cs : List Char) (n : Nat) :
    n ≤ cs.foldl (fun n c => n * 10 + (digitValue c).getD 0) n := by
  induction cs generalizing n with
  | nil => simp
  | cons c cs ih =>
    simp only [List.foldl_cons]
    exact le_trans (by omega) (ih _)

theorem parseUintLoop_ok_iff (maxVal : Nat) (cs : List Char) (n v : Nat) :
    parseUintLoop maxVal cs n = .ok v ↔
      (∀ c ∈ cs, (digitValue c).isSome = true) ∧
      v = cs.foldl (fun n c => n * 10 + (digitValue c).getD 0) n ∧
      (cs ≠ [] → v ≤ maxVal) := by
  induction cs generalizing n with
  | nil =>
    simp only [parseUintLoop, Except.ok.injEq, List.not_mem_nil, false_implies, implies_true,
      List.foldl_nil, ne_eq, not_true_eq_false, true_and, and_true]
    exact eq_comm
  | cons c cs ih =>
    simp only [parseUintLoop]
    cases hd : digitValue c with
    | none =>
      simp only [reduceCtorEq, false_iff]
      intro h
      have := h.1 c (List.mem_cons_self c cs)
      rw [hd] at this
      simp at this
    | some d =>
      simp only []
      by_cases hgt : n * 10 + d > maxVal
      · simp only [hgt, if_true, reduceCtorEq, false_iff]
        intro h
        have hv := h.2.1
        simp only [List.foldl_cons, hd, Option.getD_some] at hv
        have hge := foldl_decimal_ge cs (n * 10 + d)
        have hle := h.2.2 (List.cons_ne_nil c cs)
        omega
      · simp only [hgt, if_false]
        rw [ih]
        simp only [List.foldl_cons, hd, Option.getD_some, List.mem_cons, forall_eq_or_imp,
          Option.isSome_some, true_and, ne_eq, reduceCtorEq, not_false_eq_true, true_implies]
        constructor
        · rintro ⟨h1, h2, h3⟩
          refine ⟨h1, h2, ?_⟩
          by_cases hnil : cs = []
          · subst hnil
            simp only [List.foldl_nil] at h2
            omega
          · exact h3 hnil
        · rintro ⟨h1, h2, h3⟩
          exact ⟨h1, h2, fun _ => h3⟩

theorem ParseUint_ok_iff (s : String) (bitSize v : Nat) :
    ParseUint s bitSize = .ok v ↔ decimalNumber s.data = some v ∧ v ≤ 2 ^ bitSize - 1 := by
  unfold ParseUint decimalNumber
  by_cases hs : s = ""
  · subst hs
    simp
  · have hne : s.data ≠ [] := by
      intro h
      apply hs
      cases s
      simp_all
    simp only [hs, if_false, hne]
    rw [parseUintLoop_ok_iff]
    by_cases hall : s.data.all (fun c => (digitValue c).isSome) = true
    · simp only [hall, if_true, Option.some.injEq]
      rw [List.all_eq_true] at hall
      constructor
      · rintro ⟨-, h2, h3⟩
        exact ⟨h2.symm, h3 hne⟩
      · rintro ⟨h2, h3⟩
        exact ⟨hall, h2.symm, fun _ => h3⟩
    · simp only [hall, if_false, reduceCtorEq, false_and, iff_false]
      rintro ⟨h1, -, -⟩
      exact hall (List.all_eq_true.2 h1)

theorem decimalNumber_ne_nil (cs : List Char) (v : Nat) (h : decimalNumber cs = some v) :
    cs ≠ [] := by
  intro hnil
  subst hnil
  simp [decimalNumber] at h

theorem indexByte_split (c : Char) (l : List Char) (i : Nat) (h : indexByte c l = some i) :
    l = l.take i ++ c :: l.drop (i + 1) ∧ c ∉ l.take i := by
  induction l generalizing i with
  | nil => simp [indexByte] at h
  | cons x xs ih =>
    simp only [indexByte] at h
    by_cases hx : x = c
    · simp only [hx, if_true, Option.some.injEq] at h
      subst h
      subst hx
      simp
    · simp only [hx, if_false, Option.map_eq_some'] at h
      obtain ⟨j, hj, rfl⟩ := h
      obtain ⟨h1, h2⟩ := ih j hj
      refine ⟨?_, ?_⟩
      · simp only [List.take_succ_cons, List.drop_succ_cons, List.cons_append]
        exact congrArg _ h1
      · simp only [List.take_succ_cons, List.mem_cons, not_or]
        exact ⟨fun e => hx e.symm, h2⟩

theorem parseRange_cons_ok_iff (rs : List UidRange) (s : String) (rest : List String)
    (out : List UidRange) :
    parseRange rs (s :: rest) = .ok out ↔
      ∃ r, rangeWritten s r ∧ parseRange (rs ++ [r]) rest = .ok out := by
  constructor
  · intro h
    rw [parseRange] at h
    by_cases hc : containsChar s ':' = true
    · have hmem : ':' ∈ s.data := by
        by_contra hn
        rw [(containsChar_eq_false s ':').2 hn] at hc
        simp at hc
      obtain ⟨i, hi⟩ := indexByte_isSome_of_mem ':' s.data hmem
      obtain ⟨hsplit, hnot⟩ := indexByte_split ':' s.data i hi
      simp only [hc, Bool.not_true, Bool.false_eq_true, if_false, stringsIndex, hi,
        Int.toNat_ofNat] at h
      split at h
      · simp at h
      split at h
      · simp at h
      split at h
      · simp at h
      rename_i start hstart
      split at h
      · simp at h
      rename_i stop hstop
      rw [ParseUint_ok_iff] at hstart hstop
      have hs32 : start < 2 ^ 32 := by
        have := hstart.2
        have : (2 : Nat) ^ 32 - 1 < 2 ^ 32 := by norm_num
        omega
      have he32 : stop < 2 ^ 32 := by
        have := hstop.2
        have : (2 : Nat) ^ 32 - 1 < 2 ^ 32 := by norm_num
        omega
      simp only [toUint32, Nat.mod_eq_of_lt hs32, Nat.mod_eq_of_lt he32] at h
      exact ⟨⟨start, stop⟩, ⟨s.data.take i, s.data.drop (i + 1), hsplit, hnot, hstart.1,
        hstop.1, hstart.2, hstop.2⟩, h⟩
    · simp only [Bool.not_eq_true] at hc
      simp [hc] at h
  · rintro ⟨r, ⟨a, b, hdata, hnot, ha, hb, hra, hrb⟩, h⟩
    have hidx : indexByte ':' s.data = some a.length := by
      rw [hdata]; exact indexByte_append _ _ _ hnot
    have hcon : containsChar s ':' = true := by
      simp [containsChar, hdata]
    have hane := decimalNumber_ne_nil a _ ha
    have hbne := decimalNumber_ne_nil b _ hb
    have hapos : 0 < a.length := List.length_pos.2 hane
    have hbpos : 0 < b.length := List.length_pos.2 hbne
    have h0 : ¬ ((a.length : Nat) : Int) = 0 := by omega
    have h1 : ¬ ((a.length : Nat) : Int) = ((a ++ ':' :: b).length : Int) - 1 := by
      simp only [List.length_append, List.length_cons]; omega
    have hstart : ParseUint (String.mk a) 32 = .ok r.Start :=
      (ParseUint_ok_iff _ 32 _).2 ⟨ha, hra⟩
    have hstop : ParseUint (String.mk b) 32 = .ok r.End :=
      (ParseUint_ok_iff _ 32 _).2 ⟨hb, hrb⟩
    have hs32 : r.Start < 2 ^ 32 := by
      have : (2 : Nat) ^ 32 - 1 < 2 ^ 32 := by norm_num
      omega
    have he32 : r.End < 2 ^ 32 := by
      have : (2 : Nat) ^ 32 - 1 < 2 ^ 32 := by norm_num
      omega
    have hdrop : List.drop (a.length + 1) (a ++ ':' :: b) = b := by
      rw [← List.drop_drop, List.drop_left]
      rfl
    have hsub : stringsIndex s ':' = ((a.length : Nat) : Int) := by
      simp only [stringsIndex, hidx]
    rw [parseRange]
    simp only [hcon, Bool.not_true, Bool.false_eq_true, if_false, hsub, hdata,
      if_neg h0, if_neg h1, Int.toNat_ofNat, List.take_left, hstart, hdrop, hstop, toUint32,
      Nat.mod_eq_of_lt hs32, Nat.mod_eq_of_lt he32]
    exact h

theorem parseRange_ok_iff (rangeList : List String) (rs out : List UidRange) :
    parseRange rs rangeList = .ok out ↔
      ∃ parsed, out = rs ++ parsed ∧ List.Forall₂ rangeWritten rangeList parsed := by
  induction rangeList generalizing rs with
  | nil =>
    simp only [parseRange, Except.ok.injEq, List.forall₂_nil_left_iff]
    constructor
    · intro h; exact ⟨[], by simp [h], rfl⟩
    · rintro ⟨parsed, h, rfl⟩; simp [h]
  | cons s rest ih =>
    rw [parseRange_cons_ok_iff]
    constructor
    · rintro ⟨r, hr, h⟩
      obtain ⟨parsed, hout, hall⟩ := (ih _).1 h
      exact ⟨r :: parsed, by simp [hout], List.Forall₂.cons hr hall⟩
    · rintro ⟨parsed, hout, hall⟩
      cases hall with
      | cons hr hall' =>
        rename_i r parsed'
        exact ⟨r, hr, (ih _).2 ⟨parsed', by simp [hout], hall'⟩⟩

theorem rangeWritten_unique (a b : List Char) (r : UidRange) (ha : ':' ∉ a)
    (h : rangeWritten (String.mk (a ++ ':' :: b)) r) :
    decimalNumber a = some r.Start ∧ decimalNumber b = some r.End ∧
      r.Start ≤ 2 ^ 32 - 1 ∧ r.End ≤ 2 ^ 32 - 1 := by
  obtain ⟨a', b', hdata, hnot, h1, h2, h3, h4⟩ := h
  have hdata' : a ++ ':' :: b = a' ++ ':' :: b' := hdata
  have hi := indexByte_append ':' a b ha
  rw [hdata', indexByte_append ':' a' b' hnot] at hi
  have hlen : a'.length = a.length := Option.some.inj hi
  have haa : a = a' := by
    have := congrArg (List.take a.length) hdata'
    rw [List.take_left, ← hlen, List.take_left] at this
    exact this
  subst haa
  have hbb : b = b' := by
    have := List.append_cancel_left hdata'
    exact (List.cons.inj this).2
  subst hbb
  exact ⟨h1, h2, h3, h4⟩

/-- C29: `parseRange` succeeds exactly when every string is `a:b` with `a`
(the text before the first `:`) and `b` (the text after it) non-empty texts
of decimal digits whose values are at most `2^32 - 1`, and the ranges it
appends, in order, hold exactly those values; a string in which `a` or `b`
is not such a text or stands for a larger number makes it fail, wherever the
string stands in the list. `0:4294967296` fails with a range error. -/
theorem parseRange_exact_bounds (rs : List UidRange) :
    (∀ rangeList out, parseRange rs rangeList = .ok out ↔
      ∃ parsed, out = rs ++ parsed ∧ List.Forall₂ rangeWritten rangeList parsed) ∧
    (∀ (a b : List Char) (pre post : List String), ':' ∉ a →
      (decimalNumber a = none ∨ decimalNumber b = none ∨
        (∃ v, decimalNumber a = some v ∧ 2 ^ 32 - 1 < v) ∨
        (∃ v, decimalNumber b = some v ∧ 2 ^ 32 - 1 < v)) →
      ∃ e, parseRange rs (pre ++ String.mk (a ++ ':' :: b) :: post) = .error e) ∧
    parseRange rs ["0:4294967296"] = .error (.parseEnd .errRange) ∧
    parseRange rs ["-1:5"] = .error (.parseStart .errSyntax) ∧
    parseRange rs ["4294967295:4294967295"] = .ok (rs ++ [⟨4294967295, 4294967295⟩]) ∧
    decimalNumber "4294967296".data = some 4294967296 ∧
    decimalNumber "-1".data = none := by
  refine ⟨fun rangeList out => parseRange_ok_iff rangeList rs out, ?_, rfl, rfl, rfl,
    by decide, by decide⟩
  intro a b pre post ha hbad
  rw [parseRange_append]
  cases parseRange rs pre with
  | error e => exact ⟨e, rfl⟩
  | ok r =>
    simp only []
    cases hres : parseRange r (String.mk (a ++ ':' :: b) :: post) with
    | error e => exact ⟨e, rfl⟩
    | ok out =>
      obtain ⟨q, hq, -⟩ := (parseRange_cons_ok_iff _ _ _ _).1 hres
      obtain ⟨h1, h2, h3, h4⟩ := rangeWritten_unique a b q ha hq
      rcases hbad with h | h | ⟨v, hv, hlt⟩ | ⟨v, hv, hlt⟩
      · rw [h] at h1; simp at h1
      · rw [h] at h2; simp at h2
      · rw [hv] at h1
        have : v = q.Start := Option.some.inj h1
        omega
      · rw [hv] at h2
        have : v = q.End := Option.some.inj h2
        omega

/-! ## `New`: effective settings and UID sets -/

theorem deviceDefault_scalar_fields (P : TunPlatform) (o : Tun) :
    (deviceDefault P o).1.MTU = o.MTU ∧ (deviceDefault P o).1.UDPTimeout = o.UDPTimeout := by
  unfold deviceDefault
  simp only []
  split <;> exact ⟨rfl, rfl⟩

theorem NewPrepare_ok_fields (P : TunPlatform) (o : Tun) (p : Prepared)
    (h : NewPrepare P o = .ok p) :
    p.tunName = (deviceDefault P o).2 ∧
    p.tunMTU = (if o.MTU = 0 then 9000 else o.MTU) ∧
    p.udpTimeout = (if o.UDPTimeout ≠ 0 then o.UDPTimeout else P.defaultUDPTimeout) ∧
    (if o.IncludeUIDRange.length > 0 then parseRange (uidToRange o.IncludeUID) o.IncludeUIDRange
      else .ok (uidToRange o.IncludeUID)) = .ok p.includeUID ∧
    (if o.ExcludeUIDRange.length > 0 then parseRange (uidToRange o.ExcludeUID) o.ExcludeUIDRange
      else .ok (uidToRange o.ExcludeUID)) = .ok p.excludeUID := by
  obtain ⟨h1, h2, h3, h4⟩ := deviceDefault_fields P o
  obtain ⟨h5, h6⟩ := deviceDefault_scalar_fields P o
  unfold NewPrepare at h
  simp only [h1, h2, h3, h4, h5, h6] at h
  split at h
  · simp at h
  rename_i inc hinc
  split at h
  · simp at h
  rename_i exc hexc
  split at h
  · simp at h
  simp only [Except.ok.injEq] at h
  subst h
  refine ⟨rfl, rfl, rfl, ?_, ?_⟩
  · by_cases hl : o.IncludeUIDRange.length > 0
    · simp only [hl, if_true] at hinc ⊢
      cases hr : parseRange (uidToRange o.IncludeUID) o.IncludeUIDRange with
      | error e => rw [hr] at hinc; simp at hinc
      | ok r =>
        rw [hr] at hinc
        simp only [Except.ok.injEq] at hinc ⊢
        exact hinc
    · simp only [hl, if_false, Except.ok.injEq] at hinc ⊢
      exact hinc
  · by_cases hl : o.ExcludeUIDRange.length > 0
    · simp only [hl, if_true] at hexc ⊢
      cases hr : parseRange (uidToRange o.ExcludeUID) o.ExcludeUIDRange with
      | error e => rw [hr] at hexc; simp at hexc
      | ok r =>
        rw [hr] at hexc
        simp only [Except.ok.injEq] at hexc ⊢
        exact hexc
    · simp only [hl, if_false, Except.ok.injEq] at hexc ⊢
      exact hexc

theorem uidSet_eq_spec (uids : List Nat) (rangeList : List String) (out : List UidRange) :
    (if rangeList.length > 0 then parseRange (uidToRange uids) rangeList
      else .ok (uidToRange uids)) = .ok out ↔ uidSetSpec uids rangeList = .ok out := by
  have hspec : uidSetSpec uids rangeList = .ok out ↔
      ∃ parsed, out = uidToRange uids ++ parsed ∧
        List.Forall₂ rangeWritten rangeList parsed := by
    unfold uidSetSpec
    cases hp : parseRange [] rangeList with
    | error e =>
      simp only [reduceCtorEq, false_iff]
      rintro ⟨parsed, -, hall⟩
      have := (parseRange_ok_iff rangeList [] parsed).2 ⟨parsed, by simp, hall⟩
      rw [hp] at this
      simp at this
    | ok parsed =>
      obtain ⟨q, hq, hall⟩ := (parseRange_ok_iff rangeList [] parsed).1 hp
      simp only [List.nil_append] at hq
      subst hq
      simp only [Except.ok.injEq]
      constructor
      · intro h
        exact ⟨parsed, h.symm, hall⟩
      · rintro ⟨parsed', hout, hall'⟩
        have h2 := (parseRange_ok_iff rangeList [] parsed').2 ⟨parsed', by simp, hall'⟩
        rw [hp] at h2
        rw [hout, Except.ok.inj h2]
        rfl
  rw [hspec]
  by_cases hlen : rangeList.length > 0
  · simp only [hlen, if_true]
    exact parseRange_ok_iff rangeList _ out
  · have hnil : rangeList = [] := by
      cases rangeList with
      | nil => rfl
      | cons a l => simp at hlen
    subst hnil
    simp only [List.length_nil, gt_iff_lt, lt_self_iff_false, if_false, Except.ok.injEq,
      List.forall₂_nil_left_iff]
    constructor
    · intro h; exact ⟨[], by simp [h], rfl⟩
    · rintro ⟨parsed, h, rfl⟩; simp [h]

theorem NewStart_interface_options (P : TunPlatform) (p : Prepared) (t : TunOptions) :
    t ∈ tunNewOptionsOf (NewStart P p).2 →
    ∃ t0, (P.buildAndroidRules t0).2 = .ok t ∧ t0.Name = p.tunName ∧ t0.MTU = p.tunMTU ∧
      t0.IncludeUID = p.includeUID ∧ t0.ExcludeUID = p.excludeUID := by
  unfold NewStart
  simp only [failStart]
  cases h1 : P.NewNetworkUpdateMonitor with
  | error m =>
    simp only []
    intro h
    simp [tunNewOptionsOf, Listener.Close] at h
  | ok u1 =>
  simp only []
  cases h2 : P.startNetworkUpdateMonitor with
  | error m =>
    simp only []
    intro h
    simp [tunNewOptionsOf, Listener.Close] at h
  | ok u2 =>
  simp only []
  cases h3 : P.NewDefaultInterfaceMonitor with
  | error m =>
    simp only []
    intro h
    simp [tunNewOptionsOf, Listener.Close] at h
  | ok u3 =>
  simp only []
  cases h4 : P.startDefaultInterfaceMonitor with
  | error m =>
    simp only []
    intro h
    simp [tunNewOptionsOf, Listener.Close] at h
  | ok u4 =>
  simp only []
  generalize hA : P.buildAndroidRules _ = android
  obtain ⟨pm, res⟩ := android
  cases res with
  | error m =>
    simp only []
    intro h
    cases pm <;> simp [tunNewOptionsOf, Listener.Close] at h
  | ok t' =>
  simp only []
  generalize h6 : P.tunNew t' = r6
  cases r6 with
  | error m =>
    simp only []
    intro h
    have hb := congrArg Prod.snd hA
    cases pm <;> simp [tunNewOptionsOf, Listener.Close] at h <;>
      (subst h; exact ⟨_, hb, rfl, rfl, rfl, rfl⟩)
  | ok u6 =>
  simp only []
  generalize h7 : P.NewStack _ _ = r7
  cases r7 with
  | error m =>
    simp only []
    intro h
    have hb := congrArg Prod.snd hA
    cases pm <;> simp [tunNewOptionsOf, Listener.Close] at h <;>
      (subst h; exact ⟨_, hb, rfl, rfl, rfl, rfl⟩)
  | ok u7 =>
  simp only []
  cases h8 : P.startStack with
  | error m =>
    simp only []
    intro h
    have hb := congrArg Prod.snd hA
    cases pm <;> simp [tunNewOptionsOf, Listener.Close] at h <;>
      (subst h; exact ⟨_, hb, rfl, rfl, rfl, rfl⟩)
  | ok u8 =>
    simp only []
    intro h
    have hb := congrArg Prod.snd hA
    cases pm <;> simp [tunNewOptionsOf, Listener.Close] at h <;>
      (subst h; exact ⟨_, hb, rfl, rfl, rfl, rfl⟩)

/-- C21: the settings that `Config()` returns carry the effective device
name only. For every listener built by `New` from settings `o`, `Config()`
has the MTU and the UDP timeout of `o` as given, also when they are zero,
while the interface is created with MTU 9000 and the handler gets the fixed
default timeout in that case; `Config().Device` is the name actually used:
the calculated name when the given one is empty or rejected by
`checkTunName`, the given one otherwise. With no device, MTU 0 and timeout 0
`Config()` reports MTU 0 and timeout 0. -/
theorem Config_keeps_unset_mtu_and_timeout :
    (∀ (P : TunPlatform) (o : Tun) (l : Listener), (New P o).1 = .ok l →
      l.Config.MTU = o.MTU ∧ l.Config.UDPTimeout = o.UDPTimeout ∧
      l.Config.Device = (deviceDefault P o).2 ∧
      l.handler.UDPTimeout =
        (if o.UDPTimeout ≠ 0 then o.UDPTimeout else P.defaultUDPTimeout) ∧
      ∀ t ∈ tunNewOptionsOf (New P o).2, ∃ t0, (P.buildAndroidRules t0).2 = .ok t ∧
        t0.MTU = (if o.MTU = 0 then 9000 else o.MTU) ∧ t0.Name = l.Config.Device) ∧
    (∀ (P : TunPlatform) (o : Tun), o.Device = "" ∨ checkTunName P o.Device = false →
      (deviceDefault P o).2 = CalculateInterfaceName P InterfaceName) ∧
    (∀ (P : TunPlatform) (o : Tun), o.Device ≠ "" → checkTunName P o.Device = true →
      (deviceDefault P o).2 = o.Device) ∧
    (listenerOf (New okPlatform unsetTun)).map
        (fun l => (l.Config.MTU, l.Config.UDPTimeout, l.Config.Device, l.handler.UDPTimeout)) =
      some (0, 0, "Clash for Flutter", 300) ∧
    (tunNewOptionsOf (New okPlatform unsetTun).2).map (fun t => (t.MTU, t.Name)) =
      [(9000, "Clash for Flutter")] := by
  refine ⟨?_, ?_, ?_, by decide, by decide⟩
  · intro P o l h
    obtain ⟨p, hp, hs⟩ := New_ok P o l h
    obtain ⟨-, -, -, hopt⟩ := NewPrepare_ok P o p hp
    obtain ⟨hname, hmtu, hudp, -, -⟩ := NewPrepare_ok_fields P o p hp
    obtain ⟨hh, -, ho, -⟩ := NewStart_ok P p l hs
    have hcfg : l.Config = (deviceDefault P o).1 := by
      show l.options = _
      rw [ho, hopt]
    have hdev : l.Config.Device = (deviceDefault P o).2 := by
      rw [hcfg]; exact (deviceDefault_net_fields P o).2.2.2.2
    refine ⟨?_, ?_, hdev, ?_, ?_⟩
    · rw [hcfg]; exact (deviceDefault_scalar_fields P o).1
    · rw [hcfg]; exact (deviceDefault_scalar_fields P o).2
    · rw [hh]; exact hudp
    · intro t ht
      have hev : (New P o).2 = (NewStart P p).2 := by
        unfold New
        rw [hp]
      rw [hev] at ht
      obtain ⟨t0, h0, h1, h2, -, -⟩ := NewStart_interface_options P p t ht
      exact ⟨t0, h0, h2.trans hmtu, h1.trans (hname.trans hdev.symm)⟩
  · intro P o h
    unfold deviceDefault
    have hc : (o.Device = "" || !checkTunName P o.Device) = true := by
      rcases h with h | h
      · simp [h]
      · simp [h]
    simp only [hc, if_true]
  · intro P o h1 h2
    unfold deviceDefault
    have hc : (o.Device = "" || !checkTunName P o.Device) = false := by
      simp [h1, h2]
    simp only [hc, Bool.false_eq_true, if_false]

/-- C27: when `New` gets past its preparation, the include set is the
singleton ranges of `IncludeUID` in order followed by the ranges written by
the `IncludeUIDRange` strings in order, the exclude set is the same function
of `ExcludeUID` and `ExcludeUIDRange`, these are the sets in the options from
which the interface is created, and neither set depends on the inputs of the
other: two settings with the same exclude inputs get the same exclude set,
two settings with the same include inputs get the same include set. -/
theorem New_uid_sets_independent (P : TunPlatform) (o : Tun) (p : Prepared)
    (h : NewPrepare P o = .ok p) :
    uidSetSpec o.IncludeUID o.IncludeUIDRange = .ok p.includeUID ∧
    uidSetSpec o.ExcludeUID o.ExcludeUIDRange = .ok p.excludeUID ∧
    (∃ inc exc,
      p.includeUID = o.IncludeUID.map (fun u => ⟨u, u⟩) ++ inc ∧
      List.Forall₂ rangeWritten o.IncludeUIDRange inc ∧
      p.excludeUID = o.ExcludeUID.map (fun u => ⟨u, u⟩) ++ exc ∧
      List.Forall₂ rangeWritten o.ExcludeUIDRange exc) ∧
    (∀ t ∈ tunNewOptionsOf (New P o).2, ∃ t0, (P.buildAndroidRules t0).2 = .ok t ∧
      t0.IncludeUID = p.includeUID ∧ t0.ExcludeUID = p.excludeUID) ∧
    (∀ (P' : TunPlatform) (o' : Tun) (p' : Prepared), NewPrepare P' o' = .ok p' →
      (o'.ExcludeUID = o.ExcludeUID → o'.ExcludeUIDRange = o.ExcludeUIDRange →
        p'.excludeUID = p.excludeUID) ∧
      (o'.IncludeUID = o.IncludeUID → o'.IncludeUIDRange = o.IncludeUIDRange →
        p'.includeUID = p.includeUID)) := by
  obtain ⟨-, -, -, hinc, hexc⟩ := NewPrepare_ok_fields P o p h
  have hi := (uidSet_eq_spec _ _ _).1 hinc
  have he := (uidSet_eq_spec _ _ _).1 hexc
  refine ⟨hi, he, ?_, ?_, ?_⟩
  · have spec : ∀ (uids : List Nat) (rl : List String) (out : List UidRange),
        uidSetSpec uids rl = .ok out →
        ∃ parsed, out = uids.map (fun u => ⟨u, u⟩) ++ parsed ∧
          List.Forall₂ rangeWritten rl parsed := by
      intro uids rl out hs
      unfold uidSetSpec at hs
      cases hp : parseRange [] rl with
      | error e => rw [hp] at hs; simp at hs
      | ok parsed =>
        rw [hp] at hs
        simp only [Except.ok.injEq] at hs
        obtain ⟨q, hq, hall⟩ := (parseRange_ok_iff rl [] parsed).1 hp
        simp only [List.nil_append] at hq
        subst hq
        exact ⟨parsed, hs.symm, hall⟩
    obtain ⟨inc, h1, h2⟩ := spec _ _ _ hi
    obtain ⟨exc, h3, h4⟩ := spec _ _ _ he
    exact ⟨inc, exc, h1, h2, h3, h4⟩
  · intro t ht
    have hev : (New P o).2 = (NewStart P p).2 := by
      unfold New
      rw [h]
    rw [hev] at ht
    obtain ⟨t0, h0, -, -, h3, h4⟩ := NewStart_interface_options P p t ht
    exact ⟨t0, h0, h3, h4⟩
  · intro P' o' p' h'
    obtain ⟨-, -, -, hinc', hexc'⟩ := NewPrepare_ok_fields P' o' p' h'
    refine ⟨?_, ?_⟩
    · intro e1 e2
      rw [e1, e2, hexc] at hexc'
      exact (Except.ok.inj hexc').symm
    · intro e1 e2
      rw [e1, e2, hinc] at hinc'
      exact (Except.ok.inj hinc').symm

/-- C27 at settings with literal UIDs and ranges on both sides. -/
theorem New_uid_sets_independent_witness :
    NewPrepare okPlatform uidExampleTun =
      .ok ⟨uidExampleTun, "tun0", 1500, 60,
        [⟨1000, 1000⟩, ⟨0, 0⟩, ⟨2000, 2999⟩, ⟨5, 5⟩], [⟨1001, 1001⟩, ⟨3000, 3999⟩], []⟩ ∧
    uidSetSpec [1000, 0] ["2000:2999", "5:5"] =
      .ok [⟨1000, 1000⟩, ⟨0, 0⟩, ⟨2000, 2999⟩, ⟨5, 5⟩] ∧
    uidSetSpec [1001] ["3000:3999"] = .ok [⟨1001, 1001⟩, ⟨3000, 3999⟩] ∧
    (tunNewOptionsOf (New okPlatform uidExampleTun).2).map
        (fun t => (t.IncludeUID, t.ExcludeUID)) =
      [([⟨1000, 1000⟩, ⟨0, 0⟩, ⟨2000, 2999⟩, ⟨5, 5⟩], [⟨1001, 1001⟩, ⟨3000, 3999⟩])] :=
  ⟨by decide,
    (New_uid_sets_independent okPlatform uidExampleTun
      ⟨uidExampleTun, "tun0", 1500, 60,
        [⟨1000, 1000⟩, ⟨0, 0⟩, ⟨2000, 2999⟩, ⟨5, 5⟩], [⟨1001, 1001⟩, ⟨3000, 3999⟩], []⟩
      (by decide)).1,
    (New_uid_sets_independent okPlatform uidExampleTun
      ⟨uidExampleTun, "tun0", 1500, 60,
        [⟨1000, 1000⟩, ⟨0, 0⟩, ⟨2000, 2999⟩, ⟨5, 5⟩], [⟨1001, 1001⟩, ⟨3000, 3999⟩], []⟩
      (by decide)).2.1,
    by decide⟩

/-! ## `parseProxies`: reserved entries -/

section ProxiesReserved

variable {M A G P : Type} (C : ProxyCollab M A G P)

theorem parseProxies_ok_inv (ps gs : List M) (provs : List (String × M))
    (proxies : String → Option (ProxyValue A G))
    (providers : String → Option (ProviderValue P A G))
    (h : parseProxies C ps gs provs = .ok (proxies, providers)) :
    ∃ p0 l0 l1 sorted pm p1,
      parseProxyLoop C 0 ps (mapSet (mapSet mapEmpty "DIRECT" .direct) "REJECT" .reject)
        ["DIRECT", "REJECT"] = .ok (p0, l0) ∧
      collectGroupNames C 0 gs l0 = .ok l1 ∧
      C.proxyGroupsDagSort gs = .ok sorted ∧
      parseProviderLoop C provs [] = .ok pm ∧
      initialProviderLoop C pm = .ok () ∧
      parseGroupLoop C (providerLookup pm) 0 sorted p0 = .ok p1 ∧
      initialCompatibleLoop C pm = .ok () ∧
      proxies = mapSet p1 "GLOBAL" .globalSelector ∧
      providers = mapSet (fun name => (providerLookup pm name).map .declared) C.ReservedName
        (.compatible C.ReservedName (l1.map p1)) := by
  unfold parseProxies at h
  simp only [] at h
  split at h
  · simp at h
  rename_i p0 l0 h1
  split at h
  · simp at h
  rename_i l1 h2
  split at h
  · simp at h
  rename_i sorted h3
  split at h
  · simp at h
  rename_i pm h4
  split at h
  · simp at h
  rename_i h5
  split at h
  · simp at h
  rename_i p1 h6
  split at h
  · simp at h
  rename_i h7
  simp only [Except.ok.injEq, Prod.mk.injEq] at h
  exact ⟨p0, l0, l1, sorted, pm, p1, h1, h2, h3, h4, h5, h6, h7, h.1.symm, h.2.symm⟩

theorem parseProviderLoop_reserved (provs : List (String × M)) (m : M)
    (hmem : (C.ReservedName, m) ∈ provs) (acc : List (String × P)) :
    ∃ e, parseProviderLoop C provs acc = .error e := by
  induction provs generalizing acc with
  | nil => exact absurd hmem (List.not_mem_nil _)
  | cons x rest ih =>
    obtain ⟨name, mapping⟩ := x
    simp only [parseProviderLoop]
    by_cases hn : name = C.ReservedName
    · simp only [hn, if_true]
      exact ⟨_, rfl⟩
    · simp only [hn, if_false]
      cases hp : C.ParseProxyProvider name mapping with
      | error msg => exact ⟨_, rfl⟩
      | ok pd =>
        simp only []
        apply ih
        rcases List.mem_cons.1 hmem with heq | hin
        · exact absurd (Prod.mk.inj heq).1.symm hn
        · exact hin

end ProxiesReserved

/-- C26: whenever `parseProxies` succeeds, the proxy map has the keys
`DIRECT`, `REJECT` and `GLOBAL` (the last one holding the `GLOBAL` selector)
and the provider map holds, under `provider.ReservedName`, the compatible
provider created with that name; a user provider declared under the reserved
name makes `parseProxies` fail, with the error `can not defined a provider
called ...` when it is the first provider and everything before the provider
loop succeeds. -/
theorem parseProxies_reserved_entries {M A G P : Type} (C : ProxyCollab M A G P)
    (ps gs : List M) (provs : List (String × M)) :
    (∀ proxies providers, parseProxies C ps gs provs = .ok (proxies, providers) →
      (proxies "DIRECT").isSome = true ∧ (proxies "REJECT").isSome = true ∧
      proxies "GLOBAL" = some .globalSelector ∧
      ∃ all, providers C.ReservedName = some (.compatible C.ReservedName all)) ∧
    (∀ m, (C.ReservedName, m) ∈ provs → ∃ e, parseProxies C ps gs provs = .error e) ∧
    (∀ m rest p0 l0 l1 sorted, provs = (C.ReservedName, m) :: rest →
      parseProxyLoop C 0 ps (mapSet (mapSet mapEmpty "DIRECT" .direct) "REJECT" .reject)
        ["DIRECT", "REJECT"] = .ok (p0, l0) →
      collectGroupNames C 0 gs l0 = .ok l1 →
      C.proxyGroupsDagSort gs = .ok sorted →
      parseProxies C ps gs provs = .error (.reservedProvider C.ReservedName)) ∧
    proxiesError (parseProxies namedCollab [] [] [("default", ⟨some "x"⟩)]) =
      some (.reservedProvider "default") ∧
    providersCompatibleAt
        (parseProxies namedCollab [⟨some "p"⟩] [⟨some "g"⟩] [("prov", ⟨some "x"⟩)])
        "default" = some true ∧
    proxiesResultAt
        (parseProxies namedCollab [⟨some "p"⟩] [⟨some "g"⟩] [("prov", ⟨some "x"⟩)])
        "GLOBAL" = some (some .globalSelector) := by
  refine ⟨?_, ?_, ?_, by decide, by decide, by decide⟩
  · intro proxies providers h
    obtain ⟨p0, l0, l1, sorted, pm, p1, h1, -, -, -, -, h6, -, hp, hpr⟩ :=
      parseProxies_ok_inv C ps gs provs proxies providers h
    obtain ⟨as, -, -, hkeys, -, -⟩ := parseProxyLoop_ok C ps _ _ _ _ _ h1
    obtain ⟨groups, -, gkeys, -, -⟩ := parseGroupLoop_ok C _ sorted _ _ _ h6
    have hseed : ∀ k, k = "DIRECT" ∨ k = "REJECT" → (p1 k).isSome = true := by
      intro k hk
      apply (gkeys k).2
      left
      apply (hkeys k).2
      left
      rcases hk with hk | hk <;> subst hk <;> simp [mapSet]
    refine ⟨?_, ?_, ?_, ?_⟩
    · rw [hp, mapSet_isSome]
      exact Or.inr (hseed _ (Or.inl rfl))
    · rw [hp, mapSet_isSome]
      exact Or.inr (hseed _ (Or.inr rfl))
    · rw [hp]
      simp [mapSet]
    · rw [hpr]
      exact ⟨l1.map p1, by simp [mapSet]⟩
  · intro m hmem
    cases hres : parseProxies C ps gs provs with
    | error e => exact ⟨e, rfl⟩
    | ok r =>
      obtain ⟨proxies, providers⟩ := r
      obtain ⟨-, -, -, -, pm, -, -, -, -, h4, -⟩ :=
        parseProxies_ok_inv C ps gs provs proxies providers hres
      obtain ⟨e, he⟩ := parseProviderLoop_reserved C provs m hmem []
      rw [he] at h4
      simp at h4
  · intro m rest p0 l0 l1 sorted hprov h1 h2 h3
    unfold parseProxies
    simp only [h1, h2, h3, hprov, parseProviderLoop, if_true]

/-! ## `parseDNS`: the fake-IP pool and the fallback filter -/

theorem parseDNS_ok_record {Pool H : Type} (D : DnsCollab Pool) (cfg : RawDNS) (rawIPv6 : Bool)
    (profile : Profile) (hosts : H) (st0 st : TunnelState) (dnsCfg : DNS Pool H)
    (h : parseDNS D cfg rawIPv6 profile hosts st0 = (.ok dnsCfg, st)) :
    dnsCfg.EnhancedMode = cfg.EnhancedMode ∧
    dnsCfg.FallbackFilter =
      { GeoIP := cfg.FallbackFilter.GeoIP, GeoIPCode := cfg.FallbackFilter.GeoIPCode,
        IPCIDR :=
          (match parseFallbackIPCIDR D.ParseCIDR cfg.FallbackFilter.IPCIDR with
           | .ok fallbackip => fallbackip
           | .error _ => []),
        Domain := cfg.FallbackFilter.Domain } ∧
    dnsCfg.SearchDomains = cfg.SearchDomains ∧
    dnsCfg.Enable = cfg.Enable ∧ dnsCfg.Listen = cfg.Listen := by
  unfold parseDNS at h
  split at h
  · simp at h
  split at h
  · simp at h
  split at h
  · simp at h
  split at h
  · simp at h
  split at h
  · simp at h
  split at h
  · simp at h
  split at h
  · simp at h
  simp only [] at h
  split at h
  · simp at h
  split at h
  · simp at h
  simp only [Prod.mk.injEq, Except.ok.injEq] at h
  obtain ⟨hd, -⟩ := h
  subst hd
  exact ⟨rfl, rfl, rfl, rfl, rfl⟩

theorem fakeIPPool_ok_iff {Pool : Type} (D : DnsCollab Pool) (cfg : RawDNS) (profile : Profile)
    (pool : Option Pool) :
    fakeIPPool D cfg profile = .ok pool ↔
      (cfg.EnhancedMode ≠ .DNSFakeIP ∧ pool = none) ∨
      (cfg.EnhancedMode = .DNSFakeIP ∧ ∃ ipnet p, D.ParseCIDR cfg.FakeIPRange = .ok ipnet ∧
        D.fakeipNew
          { IPNet := ipnet, Size := 1000,
            Host := if cfg.FakeIPFilter.length ≠ 0 then some cfg.FakeIPFilter else none,
            Persistence := profile.StoreFakeIP } = .ok p ∧ pool = some p) := by
  constructor
  · intro h
    unfold fakeIPPool at h
    by_cases hm : cfg.EnhancedMode = .DNSFakeIP
    · right
      simp only [hm, if_true] at h
      split at h
      · simp at h
      rename_i ipnet hc
      split at h
      · simp at h
      rename_i p hn
      simp only [Except.ok.injEq] at h
      exact ⟨hm, ipnet, p, hc, hn, h.symm⟩
    · left
      simp only [hm, if_false, Except.ok.injEq] at h
      exact ⟨hm, h.symm⟩
  · rintro (⟨hm, hp⟩ | ⟨hm, ipnet, p, hc, hn, hp⟩)
    · unfold fakeIPPool
      simp only [hm, if_false, hp]
    · unfold fakeIPPool
      simp only [hm, if_true, hc, hn, hp]

theorem parseFallbackIPCIDRFrom_ok_iff (ParseCIDR : String → Except String Cidr)
    (ips : List String) (idx : Nat) (acc nets : List Cidr) :
    parseFallbackIPCIDRFrom ParseCIDR idx ips acc = .ok nets ↔
      ∃ out, nets = acc ++ out ∧ List.Forall₂ (fun s n => ParseCIDR s = .ok n) ips out := by
  induction ips generalizing idx acc with
  | nil =>
    simp only [parseFallbackIPCIDRFrom, Except.ok.injEq, List.forall₂_nil_left_iff]
    constructor
    · intro h; exact ⟨[], by simp [h], rfl⟩
    · rintro ⟨out, h, rfl⟩; simp [h]
  | cons s rest ih =>
    simp only [parseFallbackIPCIDRFrom]
    cases hs : ParseCIDR s with
    | error msg =>
      simp only [reduceCtorEq, false_iff]
      rintro ⟨out, -, hall⟩
      cases hall with
      | cons h1 _ => rw [hs] at h1; simp at h1
    | ok n =>
      simp only []
      rw [ih]
      constructor
      · rintro ⟨out, hn, hall⟩
        exact ⟨n :: out, by simp [hn], List.Forall₂.cons hs hall⟩
      · rintro ⟨out, hn, hall⟩
        cases hall with
        | cons h1 hall' =>
          rename_i n' out'
          rw [hs] at h1
          have : n = n' := Except.ok.inj h1
          subst this
          exact ⟨out', by simp [hn], hall'⟩

theorem parseFallbackIPCIDRFrom_error (ParseCIDR : String → Except String Cidr)
    (pre : List String) (s : String) (post : List String) (msg : String) (idx : Nat)
    (acc : List Cidr) (hpre : ∀ x ∈ pre, ∃ n, ParseCIDR x = .ok n)
    (hs : ParseCIDR s = .error msg) :
    parseFallbackIPCIDRFrom ParseCIDR idx (pre ++ s :: post) acc =
      .error ⟨idx + pre.length, msg⟩ := by
  induction pre generalizing idx acc with
  | nil => simp [parseFallbackIPCIDRFrom, hs]
  | cons x rest ih =>
    obtain ⟨n, hn⟩ := hpre x (List.mem_cons_self x rest)
    simp only [List.cons_append, parseFallbackIPCIDRFrom, hn]
    rw [List.append_eq, ih _ _ (fun y hy => hpre y (List.mem_cons_of_mem x hy))]
    simp only [List.length_cons]
    congr 2
    omega

theorem parseDNS_error_after_record {Pool H : Type} (D : DnsCollab Pool) (cfg : RawDNS)
    (rawIPv6 : Bool) (profile : Profile) (hosts : H) (st0 : TunnelState)
    (nameServer fallback defaultNameserver : List NameServer)
    (policy : String → Option NameServer) (e : DNSError)
    (h0 : ¬ (cfg.Enable = true ∧ cfg.NameServer.length = 0))
    (h1 : parseNameServer D.urlParse D.urlString cfg.NameServer = .ok nameServer)
    (h2 : parseNameServer D.urlParse D.urlString cfg.Fallback = .ok fallback)
    (h3 : parseNameServerPolicy D cfg.NameServerPolicy = .ok policy)
    (h4 : cfg.DefaultNameserver.length ≠ 0)
    (h5 : parseNameServer D.urlParse D.urlString cfg.DefaultNameserver =
      .ok defaultNameserver)
    (h6 : defaultNameserver.all (pureIP D.ParseIP) = true)
    (h7 : fakeIPPool D cfg profile = .error e ∨
      (∃ pool, fakeIPPool D cfg profile = .ok pool) ∧
        searchDomainsCheck cfg.SearchDomains = some e) :
    parseDNS D cfg rawIPv6 profile hosts st0 =
      (.error e,
        ⟨match D.ParsePrefix cfg.FakeIPRange with
          | .ok p => p
          | .error _ => ⟨.zero, 0⟩⟩) := by
  unfold parseDNS
  rcases h7 with h7 | ⟨⟨pool, h7⟩, h8⟩
  · simp only [h0, h1, h2, h3, h4, h5, h6, h7, if_false, Bool.not_true,
      Bool.false_eq_true]
  · simp only [h0, h1, h2, h3, h4, h5, h6, h7, h8, if_false, Bool.not_true,
      Bool.false_eq_true]

/-- C22: whenever `parseDNS` succeeds, the DNS settings hold a fake-IP pool
exactly when the enhanced mode is fake-ip; in that mode the pool is the one
`fakeip.New` returns for the network of `net.ParseCIDR(fake-ip-range)`, size
1000, the skip list when it is not empty and the store-fake-ip flag; and in
that mode a fake-ip-range that `net.ParseCIDR` rejects makes `parseDNS` fail,
with the error of `net.ParseCIDR` once the nameserver lists have passed. -/
theorem parseDNS_fake_ip_pool {Pool H : Type} (D : DnsCollab Pool) (cfg : RawDNS)
    (rawIPv6 : Bool) (profile : Profile) (hosts : H) (st0 : TunnelState) :
    (∀ d, dnsOf (parseDNS D cfg rawIPv6 profile hosts st0) = some d →
      (d.FakeIPRange.isSome = true ↔ cfg.EnhancedMode = .DNSFakeIP) ∧
      (cfg.EnhancedMode = .DNSFakeIP →
        ∃ ipnet pool, D.ParseCIDR cfg.FakeIPRange = .ok ipnet ∧
          D.fakeipNew
            { IPNet := ipnet, Size := 1000,
              Host := if cfg.FakeIPFilter.length ≠ 0 then some cfg.FakeIPFilter else none,
              Persistence := profile.StoreFakeIP } = .ok pool ∧
          d.FakeIPRange = some pool)) ∧
    (∀ msg, cfg.EnhancedMode = .DNSFakeIP → D.ParseCIDR cfg.FakeIPRange = .error msg →
      dnsOf (parseDNS D cfg rawIPv6 profile hosts st0) = none ∧
      ∀ nameServer fallback defaultNameserver policy,
        ¬ (cfg.Enable = true ∧ cfg.NameServer.length = 0) →
        parseNameServer D.urlParse D.urlString cfg.NameServer = .ok nameServer →
        parseNameServer D.urlParse D.urlString cfg.Fallback = .ok fallback →
        parseNameServerPolicy D cfg.NameServerPolicy = .ok policy →
        cfg.DefaultNameserver.length ≠ 0 →
        parseNameServer D.urlParse D.urlString cfg.DefaultNameserver =
          .ok defaultNameserver →
        defaultNameserver.all (pureIP D.ParseIP) = true →
        dnsErrorOf (parseDNS D cfg rawIPv6 profile hosts st0) = some (.fakeIPRange msg)) ∧
    (dnsOf (parseDNS refDns fakeIPRawDNS false ⟨true, true⟩ () ⟨⟨.zero, 0⟩⟩)).map
        (fun d => d.FakeIPRange) =
      some (some ⟨⟨ipv4 198 18 0 0, 16⟩, 1000, some ["*.lan"], true⟩) ∧
    (dnsOf (parseDNS refDns defaultRawDNS false ⟨true, true⟩ () ⟨⟨.zero, 0⟩⟩)).map
        (fun d => d.FakeIPRange) = some none ∧
    dnsErrorOf (parseDNS refDns badRangeRawDNS false ⟨true, true⟩ () ⟨⟨.zero, 0⟩⟩) =
      some (.fakeIPRange "no '/'") := by
  refine ⟨?_, ?_, by decide, by decide, by decide⟩
  · intro d hd
    rw [dnsOf_eq_some] at hd
    have hpool := (parseDNS_ok_inv D cfg rawIPv6 profile hosts st0 _ d hd).2.2.2.2.2.2.2.2.1
    rcases (fakeIPPool_ok_iff D cfg profile _).1 hpool with ⟨hm, hp⟩ | ⟨hm, ipnet, p, hc, hn, hp⟩
    · refine ⟨?_, fun h => absurd h hm⟩
      rw [hp]
      simp [hm]
    · refine ⟨?_, fun _ => ⟨ipnet, p, hc, hn, hp⟩⟩
      rw [hp]
      simp [hm]
  · intro msg hm hc
    have hperr : fakeIPPool D cfg profile = .error (.fakeIPRange msg) := by
      unfold fakeIPPool
      simp only [hm, if_true, hc]
    refine ⟨?_, ?_⟩
    · apply dnsOf_eq_none_of
      intro d hd
      have hpool :=
        (parseDNS_ok_inv D cfg rawIPv6 profile hosts st0 _ d hd).2.2.2.2.2.2.2.2.1
      rw [hperr] at hpool
      simp at hpool
    · intro nameServer fallback defaultNameserver policy h0 h1 h2 h3 h4 h5 h6
      rw [parseDNS_error_after_record D cfg rawIPv6 profile hosts st0 nameServer fallback
        defaultNameserver policy _ h0 h1 h2 h3 h4 h5 h6 (Or.inl hperr)]
      rfl

/-- C25: `parseFallbackIPCIDR` returns one network per string, in order, or
the error carrying the index of the first string that is no CIDR; `parseDNS`
drops that error: a successful `parseDNS` holds the parsed networks when all
strings are CIDRs and the empty list otherwise, and whether `parseDNS` fails,
and with which error, does not depend on the fallback-filter CIDR list. With
the list `10.0.0.0/8`, `not-a-cidr` `parseDNS` succeeds with no network. -/
theorem parseDNS_drops_fallback_cidr_error {Pool H : Type} (D : DnsCollab Pool)
    (cfg : RawDNS) (rawIPv6 : Bool) (profile : Profile) (hosts : H) (st0 : TunnelState) :
    (∀ ips nets, parseFallbackIPCIDR D.ParseCIDR ips = .ok nets ↔
      List.Forall₂ (fun s n => D.ParseCIDR s = .ok n) ips nets) ∧
    (∀ pre s post msg, (∀ x ∈ pre, ∃ n, D.ParseCIDR x = .ok n) →
      D.ParseCIDR s = .error msg →
      parseFallbackIPCIDR D.ParseCIDR (pre ++ s :: post) = .error ⟨pre.length, msg⟩) ∧
    (∀ d, dnsOf (parseDNS D cfg rawIPv6 profile hosts st0) = some d →
      d.FallbackFilter.IPCIDR =
        (match parseFallbackIPCIDR D.ParseCIDR cfg.FallbackFilter.IPCIDR with
         | .ok nets => nets
         | .error _ => [])) ∧
    (∀ ipcidr : List String,
      dnsErrorOf (parseDNS D
        { cfg with FallbackFilter := { cfg.FallbackFilter with IPCIDR := ipcidr } }
        rawIPv6 profile hosts st0) =
      dnsErrorOf (parseDNS D cfg rawIPv6 profile hosts st0)) ∧
    parseFallbackIPCIDR parseCIDRRef ["10.0.0.0/8", "not-a-cidr"] =
      .error ⟨1, "no '/'"⟩ ∧
    dnsErrorOf (parseDNS refDns badFallbackRawDNS false ⟨true, true⟩ () ⟨⟨.zero, 0⟩⟩) =
      none ∧
    (dnsOf (parseDNS refDns badFallbackRawDNS false ⟨true, true⟩ () ⟨⟨.zero, 0⟩⟩)).map
        (fun d => d.FallbackFilter.IPCIDR) = some [] ∧
    (dnsOf (parseDNS refDns goodFallbackRawDNS false ⟨true, true⟩ () ⟨⟨.zero, 0⟩⟩)).map
        (fun d => d.FallbackFilter.IPCIDR) =
      some [⟨ipv4 10 0 0 0, 8⟩, ⟨ipv4 172 16 0 0, 12⟩] := by
  refine ⟨?_, ?_, ?_, ?_, by decide, by decide, by decide, by decide⟩
  · intro ips nets
    have h := parseFallbackIPCIDRFrom_ok_iff D.ParseCIDR ips 0 [] nets
    simp only [List.nil_append, exists_eq_left'] at h
    exact h
  · intro pre s post msg hpre hs
    have h := parseFallbackIPCIDRFrom_error D.ParseCIDR pre s post msg 0 [] hpre hs
    simp only [Nat.zero_add] at h
    exact h
  · intro d hd
    rw [dnsOf_eq_some] at hd
    have h := (parseDNS_ok_record D cfg rawIPv6 profile hosts st0 _ d hd).2.1
    rw [h]
  · intro ipcidr
    have hp : fakeIPPool D
        { cfg with FallbackFilter := { cfg.FallbackFilter with IPCIDR := ipcidr } } profile =
        fakeIPPool D cfg profile := rfl
    unfold parseDNS
    rw [hp]
    simp only []
    by_cases h0 : cfg.Enable = true ∧ cfg.NameServer.length = 0
    · simp only [if_pos h0]
    simp only [if_neg h0]
    cases h1 : parseNameServer D.urlParse D.urlString cfg.NameServer with
    | error e => rfl
    | ok nameServer =>
    simp only []
    cases h2 : parseNameServer D.urlParse D.urlString cfg.Fallback with
    | error e => rfl
    | ok fallback =>
    simp only []
    cases h3 : parseNameServerPolicy D cfg.NameServerPolicy with
    | error e => rfl
    | ok policy =>
    simp only []
    by_cases h4 : cfg.DefaultNameserver.length = 0
    · simp only [if_pos h4]
    simp only [if_neg h4]
    cases h5 : parseNameServer D.urlParse D.urlString cfg.DefaultNameserver with
    | error e => rfl
    | ok defaultNameserver =>
    simp only []
    cases h6 : defaultNameserver.all (pureIP D.ParseIP) with
    | false => rfl
    | true =>
    simp only [Bool.not_true, Bool.false_eq_true, if_false]
    cases h7 : fakeIPPool D cfg profile with
    | error e => rfl
    | ok pool =>
    simp only []
    cases h8 : searchDomainsCheck cfg.SearchDomains with
    | some e => rfl
    | none => rfl

/-! ## Tunnels -/

theorem validateNetwork_eq_none (l : List String) :
    validateNetwork l = none ↔ ∀ n ∈ l, n = "tcp" ∨ n = "udp" := by
  induction l with
  | nil => simp [validateNetwork]
  | cons n rest ih =>
    simp only [validateNetwork, List.mem_cons, forall_eq_or_imp]
    by_cases h : n = "tcp" ∨ n = "udp"
    · simp only [h, if_true, true_and]
      exact ih
    · simp only [h, if_false, reduceCtorEq, false_and]

theorem validateAddresses_eq_none (l : List String) :
    validateAddresses l = none ↔ ∀ a ∈ l, ∃ hp, SplitHostPort a = .ok hp := by
  induction l with
  | nil => simp [validateAddresses]
  | cons a rest ih =>
    simp only [validateAddresses, List.mem_cons, forall_eq_or_imp]
    cases h : SplitHostPort a with
    | error e => simp
    | ok hp =>
      simp only [Except.ok.injEq, exists_eq', true_and]
      exact ih

/-- C24: a shorthand string decodes exactly when its comma-separated parts,
each trimmed, are four, every `/`-separated piece of part 0 is `tcp` or
`udp`, and parts 1 and 2 split into host and port; the tunnel then has
network the `/`-split of part 0, address part 1, target part 2 and proxy
part 3. A structured record is stored as decoded, without any check: a
record with network `icmp` and addresses without a port decodes
successfully, while the same values in shorthand are rejected. -/
theorem Tunnel_UnmarshalYAML_record_unchecked :
    (∀ (tp : String) (asRecord : Except String Tunnel) (t : Tunnel),
      Tunnel.UnmarshalYAML (.ok tp) asRecord = .ok t ↔
        ((stringsSplit tp ',').map TrimSpace).length = 4 ∧
        (∀ n ∈ stringsSplit (((stringsSplit tp ',').map TrimSpace).getD 0 "") '/',
          n = "tcp" ∨ n = "udp") ∧
        (∃ hp, SplitHostPort (((stringsSplit tp ',').map TrimSpace).getD 1 "") = .ok hp) ∧
        (∃ hp, SplitHostPort (((stringsSplit tp ',').map TrimSpace).getD 2 "") = .ok hp) ∧
        t = { Network := stringsSplit (((stringsSplit tp ',').map TrimSpace).getD 0 "") '/',
              Address := ((stringsSplit tp ',').map TrimSpace).getD 1 "",
              Target := ((stringsSplit tp ',').map TrimSpace).getD 2 "",
              Proxy := ((stringsSplit tp ',').map TrimSpace).getD 3 "" }) ∧
    (∀ (msg : String) (inner : Tunnel),
      Tunnel.UnmarshalYAML (.error msg) (.ok inner) = .ok inner) ∧
    (∀ (msg msg2 : String),
      Tunnel.UnmarshalYAML (.error msg) (.error msg2) = .error (.unmarshal msg2)) ∧
    Tunnel.UnmarshalYAML (.error "cannot unmarshal !!map into string")
        (.ok ⟨["icmp"], "nohostport", "alsonot", "p"⟩) =
      .ok ⟨["icmp"], "nohostport", "alsonot", "p"⟩ ∧
    Tunnel.UnmarshalYAML (.ok "icmp,nohostport,alsonot,p") (.error "not a record") =
      .error (.invalidNetwork "icmp") ∧
    Tunnel.UnmarshalYAML (.ok "tcp,nohostport,alsonot,p") (.error "not a record") =
      .error (.invalidAddress "nohostport") ∧
    Tunnel.UnmarshalYAML (.ok "tcp,a:1,b:2") (.error "not a record") =
      .error (.invalidConfig "tcp,a:1,b:2") ∧
    Tunnel.UnmarshalYAML (.ok "tcp/udp, 127.0.0.1:6553, 114.114.114.114:53, proxy")
        (.error "not a record") =
      .ok ⟨["tcp", "udp"], "127.0.0.1:6553", "114.114.114.114:53", "proxy"⟩ := by
  refine ⟨?_, fun _ _ => rfl, fun _ _ => rfl, by decide, by decide, by decide, by decide,
    by decide⟩
  intro tp asRecord t
  unfold Tunnel.UnmarshalYAML
  simp only []
  by_cases hlen : ((stringsSplit tp ',').map TrimSpace).length = 4
  · simp only [hlen, ne_eq, not_true_eq_false, if_false, true_and]
    cases hn : validateNetwork
        (stringsSplit (((stringsSplit tp ',').map TrimSpace).getD 0 "") '/') with
    | some e =>
      simp only [reduceCtorEq, false_iff]
      intro h
      rw [(validateNetwork_eq_none _).2 h.1] at hn
      simp at hn
    | none =>
      have hnet := (validateNetwork_eq_none _).1 hn
      simp only []
      cases ha : validateAddresses
          [((stringsSplit tp ',').map TrimSpace).getD 1 "",
            ((stringsSplit tp ',').map TrimSpace).getD 2 ""] with
      | some e =>
        simp only [reduceCtorEq, false_iff]
        intro h
        have : validateAddresses
            [((stringsSplit tp ',').map TrimSpace).getD 1 "",
              ((stringsSplit tp ',').map TrimSpace).getD 2 ""] = none := by
          rw [validateAddresses_eq_none]
          intro a hmem
          simp only [List.mem_cons, List.mem_singleton, List.not_mem_nil, or_false] at hmem
          rcases hmem with rfl | rfl
          · exact h.2.1
          · exact h.2.2.1
        rw [this] at ha
        simp at ha
      | none =>
        have haddr := (validateAddresses_eq_none _).1 ha
        simp only [Except.ok.injEq]
        constructor
        · intro h
          exact ⟨hnet, haddr _ (by simp), haddr _ (by simp), h.symm⟩
        · intro h
          exact h.2.2.2.symm
  · simp only [hlen, ne_eq, not_false_eq_true, if_true, reduceCtorEq, false_and]

/-! ## `ParseRawConfig` -/

theorem verifyTunnels_eq_none {π : Type} (proxies : String → Option π) (ts : List Tunnel) :
    verifyTunnels proxies ts = none ↔ ∀ t ∈ ts, (proxies t.Proxy).isSome = true := by
  induction ts with
  | nil => simp [verifyTunnels]
  | cons t rest ih =>
    simp only [verifyTunnels, List.mem_cons, forall_eq_or_imp]
    cases h : proxies t.Proxy with
    | none => simp
    | some v =>
      simp only [Option.isNone_some, Bool.false_eq_true, if_false, Option.isSome_some, true_and]
      exact ih

theorem verifyTunnels_eq_some {π : Type} (proxies : String → Option π) (ts : List Tunnel)
    (e : ConfigError) (h : verifyTunnels proxies ts = some e) :
    ∃ pre t post, ts = pre ++ t :: post ∧ (∀ x ∈ pre, (proxies x.Proxy).isSome = true) ∧
      proxies t.Proxy = none ∧ e = .tunnelProxyNotFound t.Proxy := by
  induction ts with
  | nil => simp [verifyTunnels] at h
  | cons t rest ih =>
    simp only [verifyTunnels] at h
    cases hp : proxies t.Proxy with
    | none =>
      simp only [hp, Option.isNone_none, if_true, Option.some.injEq] at h
      exact ⟨[], t, rest, rfl, by simp, hp, h.symm⟩
    | some v =>
      simp only [hp, Option.isNone_some, Bool.false_eq_true, if_false] at h
      obtain ⟨pre, t', post, hts, hpre, ht, he⟩ := ih h
      refine ⟨t :: pre, t', post, by simp [hts], ?_, ht, he⟩
      intro x hx
      rcases List.mem_cons.1 hx with rfl | hx
      · simp [hp]
      · exact hpre x hx

theorem parseNameServerPolicyFrom_error {Pool : Type} (D : DnsCollab Pool)
    (l : List (String × String)) (policy : String → Option NameServer) (e : DNSError)
    (h : parseNameServerPolicyFrom D l policy = .error e) : e.afterRecord = false := by
  induction l generalizing policy with
  | nil => simp [parseNameServerPolicyFrom] at h
  | cons x rest ih =>
    obtain ⟨domain, server⟩ := x
    simp only [parseNameServerPolicyFrom] at h
    split at h
    · simp only [Except.error.injEq] at h
      subst h
      rfl
    · split at h
      · simp only [Except.error.injEq] at h
        subst h
        rfl
      · split at h
        · simp at h
        · exact ih _ h

theorem fakeIPPool_error {Pool : Type} (D : DnsCollab Pool) (cfg : RawDNS) (profile : Profile)
    (e : DNSError) (h : fakeIPPool D cfg profile = .error e) : e.afterRecord = true := by
  unfold fakeIPPool at h
  by_cases hm : cfg.EnhancedMode = .DNSFakeIP
  · simp only [hm, if_true] at h
    cases hc : D.ParseCIDR cfg.FakeIPRange with
    | error msg =>
      rw [hc] at h
      simp only [Except.error.injEq] at h
      subst h
      rfl
    | ok ipnet =>
      rw [hc] at h
      simp only [] at h
      generalize D.fakeipNew _ = r at h
      cases r with
      | error msg =>
        simp only [Except.error.injEq] at h
        subst h
        rfl
      | ok p => simp at h
  · simp [hm] at h

theorem searchDomainsCheck_some (l : List String) (e : DNSError)
    (h : searchDomainsCheck l = some e) : e.afterRecord = true := by
  induction l with
  | nil => simp [searchDomainsCheck] at h
  | cons d rest ih =>
    simp only [searchDomainsCheck] at h
    split at h
    · simp only [Option.some.injEq] at h
      subst h
      rfl
    · split at h
      · simp only [Option.some.injEq] at h
        subst h
        rfl
      · exact ih h

theorem parseDNS_error_state {Pool H : Type} (D : DnsCollab Pool) (cfg : RawDNS)
    (rawIPv6 : Bool) (profile : Profile) (hosts : H) (st0 st : TunnelState) (e : DNSError)
    (h : parseDNS D cfg rawIPv6 profile hosts st0 = (.error e, st)) :
    (e.afterRecord = false ∧ st = st0) ∨
    (e.afterRecord = true ∧ st = ⟨recordedRange D cfg⟩) := by
  unfold parseDNS at h
  split at h
  · simp only [Prod.mk.injEq, Except.error.injEq] at h
    obtain ⟨he, hs⟩ := h
    subst he hs
    exact Or.inl ⟨rfl, rfl⟩
  split at h
  · simp only [Prod.mk.injEq, Except.error.injEq] at h
    obtain ⟨he, hs⟩ := h
    subst he hs
    exact Or.inl ⟨rfl, rfl⟩
  split at h
  · simp only [Prod.mk.injEq, Except.error.injEq] at h
    obtain ⟨he, hs⟩ := h
    subst he hs
    exact Or.inl ⟨rfl, rfl⟩
  split at h
  · rename_i e' hpol
    simp only [Prod.mk.injEq, Except.error.injEq] at h
    obtain ⟨he, hs⟩ := h
    subst he hs
    exact Or.inl ⟨parseNameServerPolicyFrom_error D _ _ _ hpol, rfl⟩
  split at h
  · simp only [Prod.mk.injEq, Except.error.injEq] at h
    obtain ⟨he, hs⟩ := h
    subst he hs
    exact Or.inl ⟨rfl, rfl⟩
  split at h
  · simp only [Prod.mk.injEq, Except.error.injEq] at h
    obtain ⟨he, hs⟩ := h
    subst he hs
    exact Or.inl ⟨rfl, rfl⟩
  split at h
  · simp only [Prod.mk.injEq, Except.error.injEq] at h
    obtain ⟨he, hs⟩ := h
    subst he hs
    exact Or.inl ⟨rfl, rfl⟩
  simp only [] at h
  split at h
  · rename_i e' hpool
    simp only [Prod.mk.injEq, Except.error.injEq] at h
    obtain ⟨he, hs⟩ := h
    subst he hs
    exact Or.inr ⟨fakeIPPool_error D cfg profile _ hpool, rfl⟩
  split at h
  · rename_i e' hsd
    simp only [Prod.mk.injEq, Except.error.injEq] at h
    obtain ⟨he, hs⟩ := h
    subst he hs
    exact Or.inr ⟨searchDomainsCheck_some _ _ hsd, rfl⟩
  · simp at h

theorem parseDNS_ok_state {Pool H : Type} (D : DnsCollab Pool) (cfg : RawDNS) (rawIPv6 : Bool)
    (profile : Profile) (hosts : H) (st0 st : TunnelState) (dnsCfg : DNS Pool H)
    (h : parseDNS D cfg rawIPv6 profile hosts st0 = (.ok dnsCfg, st)) :
    st = ⟨recordedRange D cfg⟩ := by
  have := (parseDNS_ok_inv D cfg rawIPv6 profile hosts st0 st dnsCfg h).2.2.2.2.2.2.2.1
  cases st
  simp only at this
  subst this
  rfl

section RawConfigLemmas

variable {M A G P ρ Pool I : Type} (E : ConfigCollab M A G P ρ Pool)

theorem parseHostsFrom_error (ParseIP : String → Option Addr) (l : List (String × String))
    (tree : List (String × Addr)) (e : ConfigError)
    (h : parseHostsFrom ParseIP l tree = .error e) : e.afterRecord = false := by
  induction l generalizing tree with
  | nil => simp [parseHostsFrom] at h
  | cons x rest ih =>
    obtain ⟨domain, ipStr⟩ := x
    simp only [parseHostsFrom] at h
    split at h
    · simp only [Except.error.injEq] at h
      subst h
      rfl
    · exact ih _ h

theorem parseGeneral_error (rawCfg : RawConfig M I) (e : ConfigError)
    (h : parseGeneral E rawCfg = .error e) : e.afterRecord = false := by
  unfold parseGeneral at h
  simp only [] at h
  split at h
  · simp only [Except.error.injEq] at h
    subst h
    rfl
  · simp at h

theorem ParseRawConfig_phases (rawCfg : RawConfig M I) (st st' : TunnelState)
    (general : General) (proxies : String → Option (ProxyValue A G))
    (providers : String → Option (ProviderValue P A G)) (rules : List ρ)
    (hosts : List (String × Addr)) (dnsCfg : DNS Pool (List (String × Addr)))
    (h1 : parseGeneral E rawCfg = .ok general)
    (h2 : parseProxies E.proxy rawCfg.Proxy rawCfg.ProxyGroup rawCfg.ProxyProvider =
      .ok (proxies, providers))
    (h3 : parseRules E.ParseRule proxies rawCfg.Rule = .ok rules)
    (h4 : parseHosts E.dns.ParseIP rawCfg.Hosts = .ok hosts)
    (h5 : parseDNS E.dns rawCfg.DNS rawCfg.IPv6 rawCfg.Profile hosts st = (.ok dnsCfg, st')) :
    ParseRawConfig E rawCfg st =
      match verifyTunnels proxies rawCfg.Tunnels with
      | some e => (.error e, st')
      | none =>
        (.ok
          { General := parseTun st' E.verifyIP6 rawCfg.Tun general
            DNS := dnsCfg
            Experimental := rawCfg.Experimental
            Hosts := hosts
            Profile := rawCfg.Profile
            Inbounds := rawCfg.Inbounds
            Rules := rules
            Users := parseAuthentication rawCfg.Authentication
            Proxies := proxies
            Providers := providers
            Tunnels := rawCfg.Tunnels }, st') := by
  unfold ParseRawConfig
  simp only [h1, h2, h3, h4, h5]

theorem ParseRawConfig_ok_inv (rawCfg : RawConfig M I) (st st' : TunnelState)
    (c : Config A G P ρ Pool I) (h : ParseRawConfig E rawCfg st = (.ok c, st')) :
    ∃ general proxies providers rules hosts dnsCfg,
      parseGeneral E rawCfg = .ok general ∧
      parseProxies E.proxy rawCfg.Proxy rawCfg.ProxyGroup rawCfg.ProxyProvider =
        .ok (proxies, providers) ∧
      parseRules E.ParseRule proxies rawCfg.Rule = .ok rules ∧
      parseHosts E.dns.ParseIP rawCfg.Hosts = .ok hosts ∧
      parseDNS E.dns rawCfg.DNS rawCfg.IPv6 rawCfg.Profile hosts st = (.ok dnsCfg, st') ∧
      verifyTunnels proxies rawCfg.Tunnels = none ∧
      c.Proxies = proxies ∧ c.Tunnels = rawCfg.Tunnels := by
  cases h1 : parseGeneral E rawCfg with
  | error e => simp [ParseRawConfig, h1] at h
  | ok general =>
  cases h2 : parseProxies E.proxy rawCfg.Proxy rawCfg.ProxyGroup rawCfg.ProxyProvider with
  | error e => simp [ParseRawConfig, h1, h2] at h
  | ok r =>
  obtain ⟨proxies, providers⟩ := r
  cases h3 : parseRules E.ParseRule proxies rawCfg.Rule with
  | error e => simp [ParseRawConfig, h1, h2, h3] at h
  | ok rules =>
  cases h4 : parseHosts E.dns.ParseIP rawCfg.Hosts with
  | error e => simp [ParseRawConfig, h1, h2, h3, h4] at h
  | ok hosts =>
  cases h5 : parseDNS E.dns rawCfg.DNS rawCfg.IPv6 rawCfg.Profile hosts st with
  | mk res st'' =>
  cases res with
  | error e => simp [ParseRawConfig, h1, h2, h3, h4, h5] at h
  | ok dnsCfg =>
  rw [ParseRawConfig_phases E rawCfg st st'' general proxies providers rules hosts dnsCfg
    h1 h2 h3 h4 h5] at h
  cases h6 : verifyTunnels proxies rawCfg.Tunnels with
  | some e => rw [h6] at h; simp at h
  | none =>
    rw [h6] at h
    simp only [Prod.mk.injEq, Except.ok.injEq] at h
    obtain ⟨hc, hst⟩ := h
    subst hc hst
    refine ⟨general, proxies, providers, rules, hosts, dnsCfg, ?_, ?_, ?_, ?_, ?_, ?_,
      rfl, rfl⟩ <;> first | rfl | assumption

theorem ParseRawConfig_error_state (rawCfg : RawConfig M I) (st st' : TunnelState)
    (e : ConfigError) (h : ParseRawConfig E rawCfg st = (.error e, st')) :
    (e.afterRecord = false ∧ st' = st) ∨
    (e.afterRecord = true ∧ st' = ⟨recordedRange E.dns rawCfg.DNS⟩) := by
  cases h1 : parseGeneral E rawCfg with
  | error e1 =>
    simp only [ParseRawConfig, h1, Prod.mk.injEq, Except.error.injEq] at h
    obtain ⟨he, hs⟩ := h
    subst he hs
    exact Or.inl ⟨parseGeneral_error E rawCfg _ h1, rfl⟩
  | ok general =>
  cases h2 : parseProxies E.proxy rawCfg.Proxy rawCfg.ProxyGroup rawCfg.ProxyProvider with
  | error e2 =>
    simp only [ParseRawConfig, h1, h2, Prod.mk.injEq, Except.error.injEq] at h
    obtain ⟨he, hs⟩ := h
    subst he hs
    exact Or.inl ⟨rfl, rfl⟩
  | ok r =>
  obtain ⟨proxies, providers⟩ := r
  cases h3 : parseRules E.ParseRule proxies rawCfg.Rule with
  | error e3 =>
    simp only [ParseRawConfig, h1, h2, h3, Prod.mk.injEq, Except.error.injEq] at h
    obtain ⟨he, hs⟩ := h
    subst he hs
    exact Or.inl ⟨rfl, rfl⟩
  | ok rules =>
  cases h4 : parseHosts E.dns.ParseIP rawCfg.Hosts with
  | error e4 =>
    simp only [ParseRawConfig, h1, h2, h3, h4, Prod.mk.injEq, Except.error.injEq] at h
    obtain ⟨he, hs⟩ := h
    subst he hs
    exact Or.inl ⟨parseHostsFrom_error _ _ _ _ h4, rfl⟩
  | ok hosts =>
  cases h5 : parseDNS E.dns rawCfg.DNS rawCfg.IPv6 rawCfg.Profile hosts st with
  | mk res st'' =>
  cases res with
  | error e5 =>
    simp only [ParseRawConfig, h1, h2, h3, h4, h5, Prod.mk.injEq, Except.error.injEq] at h
    obtain ⟨he, hs⟩ := h
    subst he hs
    exact parseDNS_error_state E.dns rawCfg.DNS rawCfg.IPv6 rawCfg.Profile hosts st _ _ h5
  | ok dnsCfg =>
  rw [ParseRawConfig_phases E rawCfg st st'' general proxies providers rules hosts dnsCfg
    h1 h2 h3 h4 h5] at h
  have hst := parseDNS_ok_state E.dns rawCfg.DNS rawCfg.IPv6 rawCfg.Profile hosts st _ _ h5
  cases h6 : verifyTunnels proxies rawCfg.Tunnels with
  | none => rw [h6] at h; simp at h
  | some e6 =>
    rw [h6] at h
    simp only [Prod.mk.injEq, Except.error.injEq] at h
    obtain ⟨he, hs⟩ := h
    subst he hs
    obtain ⟨-, t, -, -, -, -, he6⟩ := verifyTunnels_eq_some proxies _ _ h6
    subst he6
    exact Or.inr ⟨rfl, hst⟩

end RawConfigLemmas

theorem configOf_eq_some {A G P ρ Pool I : Type}
    (r : Except ConfigError (Config A G P ρ Pool I) × TunnelState) (c : Config A G P ρ Pool I) :
    configOf r = some c ↔ r = (.ok c, r.2) := by
  obtain ⟨res, st⟩ := r
  cases res <;> simp [configOf]

theorem configErrorOf_eq_some {A G P ρ Pool I : Type}
    (r : Except ConfigError (Config A G P ρ Pool I) × TunnelState) (e : ConfigError) :
    configErrorOf r = some e ↔ r = (.error e, r.2) := by
  obtain ⟨res, st⟩ := r
  cases res <;> simp [configErrorOf]

/-- C23: once the general settings, proxies, rules, hosts and DNS settings
have been compiled, `ParseRawConfig` fails with `tunnel proxy ... not found`
exactly when some tunnel names a proxy that is not a key of the compiled
proxy map; the error names the proxy of the first such tunnel, and when
every tunnel's proxy is a key `ParseRawConfig` succeeds. On every success
`Config.Tunnels` is the declared tunnel list, in order, and every tunnel's
proxy is a key of `Config.Proxies`. -/
theorem ParseRawConfig_tunnel_targets {M A G P ρ Pool I : Type}
    (E : ConfigCollab M A G P ρ Pool) (rawCfg : RawConfig M I) (st : TunnelState) :
    (∀ general proxies providers rules hosts dnsCfg st',
      parseGeneral E rawCfg = .ok general →
      parseProxies E.proxy rawCfg.Proxy rawCfg.ProxyGroup rawCfg.ProxyProvider =
        .ok (proxies, providers) →
      parseRules E.ParseRule proxies rawCfg.Rule = .ok rules →
      parseHosts E.dns.ParseIP rawCfg.Hosts = .ok hosts →
      parseDNS E.dns rawCfg.DNS rawCfg.IPv6 rawCfg.Profile hosts st = (.ok dnsCfg, st') →
      ((∃ t ∈ rawCfg.Tunnels, proxies t.Proxy = none) ↔
        ∃ name, configErrorOf (ParseRawConfig E rawCfg st) =
          some (.tunnelProxyNotFound name)) ∧
      (∀ name, configErrorOf (ParseRawConfig E rawCfg st) =
          some (.tunnelProxyNotFound name) →
        proxies name = none ∧
        ∃ pre t post, rawCfg.Tunnels = pre ++ t :: post ∧ t.Proxy = name ∧
          ∀ x ∈ pre, (proxies x.Proxy).isSome = true) ∧
      ((∀ t ∈ rawCfg.Tunnels, (proxies t.Proxy).isSome = true) →
        (configOf (ParseRawConfig E rawCfg st)).isSome = true)) ∧
    (∀ c, configOf (ParseRawConfig E rawCfg st) = some c →
      c.Tunnels = rawCfg.Tunnels ∧
      ∀ t ∈ c.Tunnels, (c.Proxies t.Proxy).isSome = true) ∧
    configErrorOf (ParseRawConfig refConfig ghostTunnelDocument ⟨⟨ipv4 198 18 0 1, 16⟩⟩) =
      some (.tunnelProxyNotFound "ghost") ∧
    (configOf (ParseRawConfig refConfig tunnelDocument ⟨⟨ipv4 198 18 0 1, 16⟩⟩)).map
        (fun c => (c.Tunnels, c.Tunnels.map (fun t => (c.Proxies t.Proxy).isSome))) =
      some ([⟨["tcp"], "127.0.0.1:6553", "114.114.114.114:53", "p1"⟩], [true]) := by
  refine ⟨?_, ?_, by decide, by decide⟩
  · intro general proxies providers rules hosts dnsCfg st' h1 h2 h3 h4 h5
    have hph := ParseRawConfig_phases E rawCfg st st' general proxies providers rules hosts
      dnsCfg h1 h2 h3 h4 h5
    have herr : ∀ name, configErrorOf (ParseRawConfig E rawCfg st) =
        some (.tunnelProxyNotFound name) →
        verifyTunnels proxies rawCfg.Tunnels = some (.tunnelProxyNotFound name) := by
      intro name hn
      rw [hph] at hn
      cases hv : verifyTunnels proxies rawCfg.Tunnels with
      | none => rw [hv] at hn; simp [configErrorOf] at hn
      | some e =>
        rw [hv] at hn
        simp only [configErrorOf, Option.some.injEq] at hn
        rw [hn]
    refine ⟨⟨?_, ?_⟩, ?_, ?_⟩
    · rintro ⟨t, ht, hnone⟩
      cases hv : verifyTunnels proxies rawCfg.Tunnels with
      | none =>
        have := (verifyTunnels_eq_none proxies _).1 hv t ht
        rw [hnone] at this
        simp at this
      | some e =>
        obtain ⟨pre, t', post, -, -, -, he⟩ := verifyTunnels_eq_some proxies _ _ hv
        refine ⟨t'.Proxy, ?_⟩
        rw [hph, hv, he]
        rfl
    · rintro ⟨name, hn⟩
      obtain ⟨pre, t, post, hts, -, hnone, -⟩ :=
        verifyTunnels_eq_some proxies _ _ (herr name hn)
      exact ⟨t, by rw [hts]; simp, hnone⟩
    · intro name hn
      obtain ⟨pre, t, post, hts, hpre, hnone, he⟩ :=
        verifyTunnels_eq_some proxies _ _ (herr name hn)
      have hname : name = t.Proxy := by
        simp only [ConfigError.tunnelProxyNotFound.injEq] at he
        exact he
      subst hname
      exact ⟨hnone, pre, t, post, hts, rfl, hpre⟩
    · intro hall
      rw [hph, (verifyTunnels_eq_none proxies _).2 hall]
      rfl
  · intro c hc
    rw [configOf_eq_some] at hc
    obtain ⟨general, proxies, providers, rules, hosts, dnsCfg, -, -, -, -, -, hv, hp, ht⟩ :=
      ParseRawConfig_ok_inv E rawCfg st _ c hc
    refine ⟨ht, ?_⟩
    intro t hmem
    rw [ht] at hmem
    rw [hp]
    exact (verifyTunnels_eq_none proxies _).1 hv t hmem

/-- C28, as stated, fails: with the fake-IP range `198.18.0.1/16` in force, a
document with fake-ip-range `10.0.0.1/8` whose tunnels name the undeclared
proxy `ghost` makes `ParseRawConfig` fail, and the fake-IP range is
`10.0.0.1/8` after the failed call. -/
theorem ParseRawConfig_failure_overwrites_fake_ip_range :
    configErrorOf (ParseRawConfig refConfig ghostTunnelDocument ⟨⟨ipv4 198 18 0 1, 16⟩⟩) =
      some (.tunnelProxyNotFound "ghost") ∧
    (configOf (ParseRawConfig refConfig ghostTunnelDocument
      ⟨⟨ipv4 198 18 0 1, 16⟩⟩)).isNone = true ∧
    (ParseRawConfig refConfig ghostTunnelDocument ⟨⟨ipv4 198 18 0 1, 16⟩⟩).2 =
      ⟨⟨ipv4 10 0 0 1, 8⟩⟩ ∧
    (ParseRawConfig refConfig ghostTunnelDocument ⟨⟨ipv4 198 18 0 1, 16⟩⟩).2 ≠
      ⟨⟨ipv4 198 18 0 1, 16⟩⟩ := by
  decide

/-- C28, amended: whenever `ParseRawConfig` fails it returns no `Config`. The
fake-IP range of package `tunnel` is left as it was when the error is
returned before `parseDNS` records the range (general settings, proxies,
rules, hosts, nameserver and default-nameserver checks); when the error is
returned after that (fake-ip block, search domains, tunnel proxies) the
range is the one read from the document's fake-ip-range, the zero prefix
when it does not parse, and it is not restored. -/
theorem ParseRawConfig_failure_state {M A G P ρ Pool I : Type}
    (E : ConfigCollab M A G P ρ Pool) (rawCfg : RawConfig M I) (st : TunnelState)
    (e : ConfigError) (h : configErrorOf (ParseRawConfig E rawCfg st) = some e) :
    (configOf (ParseRawConfig E rawCfg st)).isNone = true ∧
    (e.afterRecord = false → (ParseRawConfig E rawCfg st).2 = st) ∧
    (e.afterRecord = true →
      (ParseRawConfig E rawCfg st).2 = ⟨recordedRange E.dns rawCfg.DNS⟩) ∧
    (e.afterRecord = true ↔
      (∃ name, e = .tunnelProxyNotFound name) ∨ (∃ msg, e = .dns (.fakeIPRange msg)) ∨
      (∃ msg, e = .dns (.fakeipNew msg)) ∨ e = .dns .searchDomainDot ∨
      e = .dns .searchDomainPort) := by
  rw [configErrorOf_eq_some] at h
  have hstate := ParseRawConfig_error_state E rawCfg st _ e h
  refine ⟨?_, ?_, ?_, ?_⟩
  · rw [h]
    rfl
  · intro hf
    rcases hstate with ⟨-, hs⟩ | ⟨ht, -⟩
    · exact hs
    · rw [hf] at ht
      simp at ht
  · intro ht
    rcases hstate with ⟨hf, -⟩ | ⟨-, hs⟩
    · rw [ht] at hf
      simp at hf
    · exact hs
  · cases e with
    | dns d => cases d <;> simp [ConfigError.afterRecord, DNSError.afterRecord]
    | _ => simp [ConfigError.afterRecord]

/-- C28, amended, at two documents with fake-ip-range `10.0.0.1/8`: one
whose tunnels name the undeclared proxy `ghost` (the range is overwritten),
one whose rule names it (the range is kept). -/
theorem ParseRawConfig_failure_state_witness :
    configErrorOf (ParseRawConfig refConfig ghostTunnelDocument ⟨⟨ipv4 198 18 0 1, 16⟩⟩) =
      some (.tunnelProxyNotFound "ghost") ∧
    (ParseRawConfig refConfig ghostTunnelDocument ⟨⟨ipv4 198 18 0 1, 16⟩⟩).2 =
      ⟨recordedRange refDns ghostTunnelDocument.DNS⟩ ∧
    recordedRange refDns ghostTunnelDocument.DNS = ⟨ipv4 10 0 0 1, 8⟩ ∧
    configErrorOf (ParseRawConfig refConfig ghostRuleDocument ⟨⟨ipv4 198 18 0 1, 16⟩⟩) =
      some (.rules (.proxyNotFound 0 "MATCH,ghost" "ghost")) ∧
    (ParseRawConfig refConfig ghostRuleDocument ⟨⟨ipv4 198 18 0 1, 16⟩⟩).2 =
      ⟨⟨ipv4 198 18 0 1, 16⟩⟩ :=
  ⟨by decide,
    (ParseRawConfig_failure_state refConfig ghostTunnelDocument ⟨⟨ipv4 198 18 0 1, 16⟩⟩
      (.tunnelProxyNotFound "ghost") (by decide)).2.2.1 rfl,
    by decide, by decide,
    (ParseRawConfig_failure_state refConfig ghostRuleDocument ⟨⟨ipv4 198 18 0 1, 16⟩⟩
      (.rules (.proxyNotFound 0 "MATCH,ghost" "ghost")) (by decide)).2.1 rfl⟩

end CffCore
